import Mathlib

/-! # twist_filter: limiting and smoothing of motion commands

A shallow embedding of `core_planning/twist_filter/src/twist_filter.cpp` and of the
functions declared in `core_planning/twist_filter/include/velocity_limit.hpp`.

Conventions of the embedding.

* A `double` is an element of a linearly ordered field `K` (exact arithmetic, no rounding
  and no overflow).  All definitions are computable; they can be evaluated over `ℚ`.
* A quotient whose divisor is zero is an infinity or a NaN in the program, which is not an
  element of `K`.  The embedding does not invent a value for it: the run stops with
  `Fault.zeroDivisor`.
* `boost::optional<double>` is `Option K`; calling `get()` on `boost::none` violates the
  precondition of `get()`, and the run stops with `Fault.emptyOptional`.
* `ros::Time` is the time in seconds, an element of `K`.
* Member variables and function-local `static` variables of `TwistFilter` are fields of
  `State`; a member function takes the state and returns the new state, its return value and
  the `Float32` messages it published, whose payload is the `double` assigned to it (the
  narrowing to `float` is not modelled).  Log output (`ROS_WARN_THROTTLE`) is not modelled.
* `std::tan` and `std::atan` are passed as a pair of functions `Libm K`; the claims about
  the steering channel are stated over `ℝ` with `Real.tan` and `Real.arctan`.
* The health checker and the class `LongitudinalAccelLimiter` are not among the sources.  The
  calls of `CHECK_MAX_VALUE` are returned as `Diag` records, `NODE_ACTIVATE` is not modelled,
  and the two functions of `_lon_accel_limiter` are parameters, `LongitudinalAccelLimiter K L`,
  which see the state of the limiter only.
* The header `twist_filter.hpp` is not among the sources.  The constants it declares
  (`MIN_LINEAR_X`, `MIN_LENGTH`, `MIN_DURATION`) are parameters, `Constants K`; theorems that
  need a threshold to be positive say so in a hypothesis.
-/

namespace twist_filter

/-! ## Faults -/

/-- Reasons for which a run has no real-valued result. -/
inductive Fault where
  /-- The call `get()` was made on a `boost::none`. -/
  | emptyOptional
  /-- A quotient was evaluated with divisor zero. -/
  | zeroDivisor
  deriving DecidableEq

/-- The quotient `a / b` of two doubles. -/
def divide {K : Type} [LinearOrderedField K] (a b : K) : Except Fault K :=
  if b = 0 then .error .zeroDivisor else .ok (a / b)

/-- The member `get()` of `boost::optional`. -/
def get {α : Type} : Option α → Except Fault α
  | some a => .ok a
  | none => .error .emptyOptional

/-! ## Constants and library functions that the sources use but do not declare -/

/-- Constants used by the sources and declared in headers that are not among them
(`twist_filter.hpp`, `hardcoded_params/control_limits/control_limits.h`); they are
parameters of the embedding. -/
structure Constants (K : Type) where
  MIN_LINEAR_X : K
  MIN_LENGTH : K
  MIN_DURATION : K
  MAX_LONGITUDINAL_VELOCITY_HARDCODED_LIMIT_M_S : K
  MAX_LONGITUDINAL_ACCEL_HARDCODED_LIMIT_M_S_2 : K

/-- The functions `std::tan` and `std::atan` on the number type. -/
structure Libm (K : Type) where
  tan : K → K
  atan : K → K

/-! ## Messages -/

/-- Message `std_msgs/Header`. -/
structure Header (K : Type) where
  seq : Nat
  stamp : K
  frame_id : String

/-- Message `geometry_msgs/Vector3`. -/
structure Vector3 (K : Type) where
  x : K
  y : K
  z : K

/-- Message `geometry_msgs/Twist`. -/
structure Twist (K : Type) where
  linear : Vector3 K
  angular : Vector3 K

/-- Message `geometry_msgs/TwistStamped`. -/
structure TwistStamped (K : Type) where
  header : Header K
  twist : Twist K

/-- Message `autoware_msgs/ControlCommand`. -/
structure ControlCommand (K : Type) where
  linear_velocity : K
  linear_acceleration : K
  steering_angle : K

/-- Message `autoware_msgs/ControlCommandStamped`. -/
structure ControlCommandStamped (K : Type) where
  header : Header K
  cmd : ControlCommand K

/-- The publishers of `std_msgs::Float32` messages of `TwistFilter`. -/
inductive Float32Pub where
  | twist_lacc_limit_debug_pub_
  | twist_ljerk_limit_debug_pub_
  | ctrl_lacc_limit_debug_pub_
  | ctrl_ljerk_limit_debug_pub_
  | twist_lacc_result_pub_
  | twist_ljerk_result_pub_
  | ctrl_lacc_result_pub_
  | ctrl_ljerk_result_pub_
  deriving DecidableEq

/-! ## State -/

/-- The record `StampedValue` of `az_prev_` and `sa_prev_` (declared in `twist_filter.hpp`),
with the three members that the sources use: time of the previous sample, elapsed time and
previous value. -/
structure StampedValue (K : Type) where
  time : K
  dt : K
  val : K

/-- The closure returned by `lowpass_filter()`: its captured variable `y`. -/
structure Lowpass (K : Type) where
  y : K

/-- The state of a `TwistFilter`: the member variables that the sources read or write, then
the function-local statics.  `L` is the state of the longitudinal acceleration limiter
`_lon_accel_limiter`, whose class is not among the sources. -/
structure State (K L : Type) where
  wheel_base_ : K
  longitudinal_velocity_limit_ : K
  longitudinal_accel_limit_ : K
  lateral_accel_limit_ : K
  lateral_jerk_limit_ : K
  lowpass_gain_linear_x_ : K
  lowpass_gain_angular_z_ : K
  lowpass_gain_steering_angle_ : K
  az_prev_ : StampedValue K
  sa_prev_ : StampedValue K
  _lon_accel_limiter : L
  /-- Static `init` of `lateralLimitTwist`. -/
  lateralLimitTwist_init : Bool
  /-- Static `init` of `lateralLimitCtrl`. -/
  lateralLimitCtrl_init : Bool
  /-- Static `lp_lx` of `smoothTwist`. -/
  smoothTwist_lp_lx : Lowpass K
  /-- Static `lp_az` of `smoothTwist`. -/
  smoothTwist_lp_az : Lowpass K
  /-- Static `lp_lx` of `smoothCtrl`. -/
  smoothCtrl_lp_lx : Lowpass K
  /-- Static `lp_sa` of `smoothCtrl`. -/
  smoothCtrl_lp_sa : Lowpass K

/-- What a member function leaves behind: the new state, the returned value and the
`Float32` messages published, in order. -/
structure Run (K L M : Type) where
  state : State K L
  ret : M
  published : List (Float32Pub × K)

variable {K L : Type} [LinearOrderedField K]

/-! ## The lowpass filter (lines 31-39) -/

/-- The closure as `lowpass_filter()` returns it: `y = 0.0`. -/
def lowpass_filter : Lowpass K :=
  ⟨0⟩

/-- One call of the closure: `y = gain * y + (1 - gain) * x; return y;`.  The first
component is the returned value, the second the closure afterwards. -/
def Lowpass.call (f : Lowpass K) (x gain : K) : K × Lowpass K :=
  let y := gain * f.y + (1 - gain) * x
  (y, ⟨y⟩)

/-- The closure after `n` calls with the same input `x` and the same gain. -/
def Lowpass.iterate (f : Lowpass K) (x gain : K) : Nat → Lowpass K
  | 0 => f
  | n + 1 => ((Lowpass.iterate f x gain n).call x gain).2

/-- The value returned by the `n`-th call (`n ≥ 1`) of a sequence of calls with the same
input and gain; for `n = 0` the value stored before the first call. -/
def Lowpass.output (f : Lowpass K) (x gain : K) (n : Nat) : K :=
  (Lowpass.iterate f x gain n).y

/-! ## Estimators of lateral acceleration and jerk (lines 41-77) -/

/-- Function `TwistFilter::calcLaccWithAngularZ`. -/
def calcLaccWithAngularZ (lv az : K) : Option K :=
  some (az * lv)

/-- Function `TwistFilter::calcLjerkWithAngularZ`. -/
def calcLjerkWithAngularZ (c : Constants K) (st : State K L) (lv az : K) :
    Except Fault (Option K) :=
  if |st.az_prev_.dt| < c.MIN_DURATION then
    pure none
  else do
    let q ← divide ((az - st.az_prev_.val) * lv) st.az_prev_.dt
    pure (some q)

/-- Function `TwistFilter::calcLaccWithSteeringAngle`. -/
def calcLaccWithSteeringAngle (c : Constants K) (m : Libm K) (st : State K L) (lv sa : K) :
    Except Fault (Option K) :=
  if |st.wheel_base_| < c.MIN_LENGTH then
    pure none
  else do
    let q ← divide (lv * lv * m.tan sa) st.wheel_base_
    pure (some q)

/-- Function `TwistFilter::calcLjerkWithSteeringAngle`. -/
def calcLjerkWithSteeringAngle (c : Constants K) (m : Libm K) (st : State K L) (lv sa : K) :
    Except Fault (Option K) :=
  if |st.sa_prev_.dt| < c.MIN_DURATION ∨ |st.wheel_base_| < c.MIN_LENGTH then
    pure none
  else do
    let r ← divide (m.tan sa - m.tan st.sa_prev_.val) st.sa_prev_.dt
    let q ← divide (lv * lv * r) st.wheel_base_
    pure (some q)

/-! ## The lateral limiter of the turn-rate channel (lines 167-228) -/

/-- Lines 175-176 of `lateralLimitTwist`: `az_prev_.dt = (t - az_prev_.time).toSec()`. -/
def stampTwist (st : State K L) (msg : TwistStamped K) : State K L :=
  { st with az_prev_ := { st.az_prev_ with dt := msg.header.stamp - st.az_prev_.time } }

/-- Lines 188-198 of `lateralLimitTwist`: the correction of `az` by the lateral
acceleration. -/
def limitLaccTwist (st : State K L) (lv az : K) (is_stopping : Bool) : Except Fault K := do
  let lacc ← get (calcLaccWithAngularZ lv az)
  if decide (|lacc| > st.lateral_accel_limit_) && !is_stopping then
    let sgn ← divide lacc |lacc|
    let az_max ← divide (sgn * st.lateral_accel_limit_) lv
    pure az_max
  else
    pure az

/-- Lines 200-203 of `lateralLimitTwist`: the lateral jerk of `az` and the value of the
test that guards the jerk correction. -/
def ljerkTestTwist (c : Constants K) (st : State K L) (lv az : K) (is_stopping : Bool) :
    Except Fault (K × Bool) := do
  let ljerk ← get (← calcLjerkWithAngularZ c st lv az)
  pure (ljerk, decide (|ljerk| > st.lateral_jerk_limit_) && !is_stopping)

/-- Lines 200-211 of `lateralLimitTwist`: the correction of `az` by the lateral jerk. -/
def limitLjerkTwist (c : Constants K) (st : State K L) (lv az : K) (is_stopping : Bool) :
    Except Fault K := do
  let t ← ljerkTestTwist c st lv az is_stopping
  if t.2 then
    let sgn ← divide t.1 |t.1|
    let q ← divide (sgn * st.lateral_jerk_limit_) lv
    pure (st.az_prev_.val + q * st.az_prev_.dt)
  else
    pure az

/-- Function `TwistFilter::lateralLimitTwist`. -/
def lateralLimitTwist (c : Constants K) (st : State K L) (msg : TwistStamped K) :
    Except Fault (Run K L (TwistStamped K)) :=
  let ts := msg
  let st1 := stampTwist st msg
  let lv := msg.twist.linear.x
  let az := msg.twist.angular.z
  let is_stopping : Bool := decide (|lv| < c.MIN_LINEAR_X)
  if !st1.lateralLimitTwist_init || is_stopping then
    pure ⟨{ st1 with lateralLimitTwist_init := true }, ts, []⟩
  else do
    let az1 ← limitLaccTwist st1 lv az is_stopping
    let az2 ← limitLjerkTwist c st1 lv az1 is_stopping
    let ts2 : TwistStamped K :=
      { ts with twist := { ts.twist with angular := { ts.twist.angular with z := az2 } } }
    let lacc ← get (calcLaccWithAngularZ lv az2)
    let ljerk ← get (← calcLjerkWithAngularZ c st1 lv az2)
    pure ⟨st1, ts2,
      [(.twist_lacc_limit_debug_pub_, lacc), (.twist_ljerk_limit_debug_pub_, ljerk)]⟩

/-- The jerk test (lines 200-203) as a run of `lateralLimitTwist` that gets past the test of
line 182 meets it: the acceleration step, then the lateral jerk of its result and the value
of the test that guards the jerk correction. -/
def ljerkTestOfTwist (c : Constants K) (st : State K L) (msg : TwistStamped K) :
    Except Fault (K × Bool) := do
  let st1 := stampTwist st msg
  let lv := msg.twist.linear.x
  let is_stopping : Bool := decide (|lv| < c.MIN_LINEAR_X)
  let az1 ← limitLaccTwist st1 lv msg.twist.angular.z is_stopping
  ljerkTestTwist c st1 lv az1 is_stopping

/-! ## The lateral limiter of the steering channel (lines 246-308) -/

/-- Lines 254-255 of `lateralLimitCtrl`: `sa_prev_.dt = (t - sa_prev_.time).toSec()`. -/
def stampCtrl (st : State K L) (msg : ControlCommandStamped K) : State K L :=
  { st with sa_prev_ := { st.sa_prev_ with dt := msg.header.stamp - st.sa_prev_.time } }

/-- Lines 267-278 of `lateralLimitCtrl`: the correction of `sa` by the lateral
acceleration. -/
def limitLaccCtrl (c : Constants K) (m : Libm K) (st : State K L) (lv sa : K)
    (is_stopping : Bool) : Except Fault K := do
  let lacc ← get (← calcLaccWithSteeringAngle c m st lv sa)
  if decide (|lacc| > st.lateral_accel_limit_) && !is_stopping then
    let sgn ← divide lacc |lacc|
    let q ← divide (sgn * st.lateral_accel_limit_ * st.wheel_base_) (lv * lv)
    pure (m.atan q)
  else
    pure sa

/-- Lines 280-283 of `lateralLimitCtrl`: the lateral jerk of `sa` and the value of the test
that guards the jerk correction. -/
def ljerkTestCtrl (c : Constants K) (m : Libm K) (st : State K L) (lv sa : K)
    (is_stopping : Bool) : Except Fault (K × Bool) := do
  let ljerk ← get (← calcLjerkWithSteeringAngle c m st lv sa)
  pure (ljerk, decide (|ljerk| > st.lateral_jerk_limit_) && !is_stopping)

/-- Lines 280-291 of `lateralLimitCtrl`: the correction of `sa` by the lateral jerk. -/
def limitLjerkCtrl (c : Constants K) (m : Libm K) (st : State K L) (lv sa : K)
    (is_stopping : Bool) : Except Fault K := do
  let t ← ljerkTestCtrl c m st lv sa is_stopping
  if t.2 then
    let sgn ← divide t.1 |t.1|
    let q ← divide (st.lateral_jerk_limit_ * st.wheel_base_) (lv * lv)
    pure (m.atan (m.tan st.sa_prev_.val + sgn * q * st.sa_prev_.dt))
  else
    pure sa

/-- Function `TwistFilter::lateralLimitCtrl`. -/
def lateralLimitCtrl (c : Constants K) (m : Libm K) (st : State K L)
    (msg : ControlCommandStamped K) : Except Fault (Run K L (ControlCommandStamped K)) :=
  let ccs := msg
  let st1 := stampCtrl st msg
  let lv := msg.cmd.linear_velocity
  let sa := msg.cmd.steering_angle
  let is_stopping : Bool := decide (|lv| < c.MIN_LINEAR_X)
  if !st1.lateralLimitCtrl_init || is_stopping then
    pure ⟨{ st1 with lateralLimitCtrl_init := true }, ccs, []⟩
  else do
    let sa1 ← limitLaccCtrl c m st1 lv sa is_stopping
    let sa2 ← limitLjerkCtrl c m st1 lv sa1 is_stopping
    let ccs2 : ControlCommandStamped K :=
      { ccs with cmd := { ccs.cmd with steering_angle := sa2 } }
    let lacc ← get (← calcLaccWithSteeringAngle c m st1 lv sa2)
    let ljerk ← get (← calcLjerkWithSteeringAngle c m st1 lv sa2)
    pure ⟨st1, ccs2,
      [(.ctrl_lacc_limit_debug_pub_, lacc), (.ctrl_ljerk_limit_debug_pub_, ljerk)]⟩

/-- The jerk test (lines 280-283) as a run of `lateralLimitCtrl` that gets past the test of
line 261 meets it: the acceleration step, then the lateral jerk of its result and the value
of the test that guards the jerk correction. -/
def ljerkTestOfCtrl (c : Constants K) (m : Libm K) (st : State K L)
    (msg : ControlCommandStamped K) : Except Fault (K × Bool) := do
  let st1 := stampCtrl st msg
  let lv := msg.cmd.linear_velocity
  let is_stopping : Bool := decide (|lv| < c.MIN_LINEAR_X)
  let sa1 ← limitLaccCtrl c m st1 lv msg.cmd.steering_angle is_stopping
  ljerkTestCtrl c m st1 lv sa1 is_stopping

/-! ## The smoothing stage (lines 230-244 and 310-326) -/

/-- Function `TwistFilter::smoothTwist`. -/
def smoothTwist (st : State K L) (msg : TwistStamped K) : Run K L (TwistStamped K) :=
  let ts := msg
  let lx := st.smoothTwist_lp_lx.call ts.twist.linear.x st.lowpass_gain_linear_x_
  let ts1 : TwistStamped K :=
    { ts with twist := { ts.twist with linear := { ts.twist.linear with x := lx.1 } } }
  let az := st.smoothTwist_lp_az.call ts1.twist.angular.z st.lowpass_gain_angular_z_
  let ts2 : TwistStamped K :=
    { ts1 with twist := { ts1.twist with angular := { ts1.twist.angular with z := az.1 } } }
  ⟨{ st with smoothTwist_lp_lx := lx.2, smoothTwist_lp_az := az.2 }, ts2, []⟩

/-- Function `TwistFilter::smoothCtrl`. -/
def smoothCtrl (st : State K L) (msg : ControlCommandStamped K) :
    Run K L (ControlCommandStamped K) :=
  let ccs := msg
  let lx := st.smoothCtrl_lp_lx.call ccs.cmd.linear_velocity st.lowpass_gain_linear_x_
  let ccs1 : ControlCommandStamped K :=
    { ccs with cmd := { ccs.cmd with linear_velocity := lx.1 } }
  let sa := st.smoothCtrl_lp_sa.call ccs1.cmd.steering_angle st.lowpass_gain_steering_angle_
  let ccs2 : ControlCommandStamped K :=
    { ccs1 with cmd := { ccs1.cmd with steering_angle := sa.1 } }
  ⟨{ st with smoothCtrl_lp_lx := lx.2, smoothCtrl_lp_sa := sa.2 }, ccs2, []⟩

/-! ## The longitudinal speed limiter (velocity_limit.hpp) -/

/-- Modelled from the spec: `velocity_limit.cpp`, which defines the two functions that
`velocity_limit.hpp` declares, is not among the sources.  Section 4.2: the output is a linear
velocity whose magnitude does not exceed `min(configured_limit, hardcoded_longitudinal_limit)`,
sign preserved; section 2 calls it a clamp of the commanded linear velocity. -/
def longitudinalLimit (c : Constants K) (v limit : K) : K :=
  let bound := min limit c.MAX_LONGITUDINAL_VELOCITY_HARDCODED_LIMIT_M_S
  if |v| ≤ bound then v else if 0 ≤ v then bound else -bound

/-- Modelled from the spec: `longitudinalLimitTwist` of `velocity_limit.hpp`, whose
definition is not among the sources; a copy of the message with the longitudinal speed
limited. -/
def longitudinalLimitTwist (c : Constants K) (msg : TwistStamped K) (limit : K) :
    TwistStamped K :=
  { msg with twist := { msg.twist with
      linear := { msg.twist.linear with x := longitudinalLimit c msg.twist.linear.x limit } } }

/-- Modelled from the spec: `longitudinalLimitCtrl` of `velocity_limit.hpp`, whose
definition is not among the sources; the same clamp on `cmd.linear_velocity`. -/
def longitudinalLimitCtrl (c : Constants K) (msg : ControlCommandStamped K) (limit : K) :
    ControlCommandStamped K :=
  { msg with cmd := { msg.cmd with
      linear_velocity := longitudinalLimit c msg.cmd.linear_velocity limit } }

/-! ## Samples with one field replaced -/

/-- The sample `msg` with its `twist.angular.z` replaced. -/
def TwistStamped.withAz (msg : TwistStamped K) (az : K) : TwistStamped K :=
  { msg with twist := { msg.twist with angular := { msg.twist.angular with z := az } } }

/-- The sample `msg` with its `cmd.steering_angle` replaced. -/
def ControlCommandStamped.withSa (msg : ControlCommandStamped K) (sa : K) :
    ControlCommandStamped K :=
  { msg with cmd := { msg.cmd with steering_angle := sa } }

/-! ## Sign -/

/-- The sign of a number: `1`, `-1` or `0`. -/
def sgn (x : K) : K :=
  if 0 < x then 1 else if x < 0 then -1 else 0

/-! ## Closed forms of the values that the lateral limiters compute

They are the values of the runs when no fault occurs; the lemmas below relate them to the
functions above. -/

/-- The value of `az` that the acceleration step of `lateralLimitTwist` leaves under the
limit `la`, when no divisor is zero. -/
def azAfterLacc (la lv az : K) : K :=
  if |az * lv| > la then az * lv / |az * lv| * la / lv else az

/-- Closed form of the sample's `az` after the acceleration step. -/
def twistAz1 (st : State K L) (msg : TwistStamped K) : K :=
  azAfterLacc st.lateral_accel_limit_ msg.twist.linear.x msg.twist.angular.z

/-- Closed form of the lateral jerk of the sample with `az` replaced, against the previous
state, when it is defined. -/
def twistLjerk (st : State K L) (msg : TwistStamped K) (az : K) : K :=
  (az - st.az_prev_.val) * msg.twist.linear.x / (msg.header.stamp - st.az_prev_.time)

/-- Closed form of the lateral acceleration of the steering sample with `sa` replaced, when
it is defined. -/
def ctrlLacc (m : Libm K) (st : State K L) (msg : ControlCommandStamped K) (sa : K) : K :=
  msg.cmd.linear_velocity * msg.cmd.linear_velocity * m.tan sa / st.wheel_base_

/-- Closed form of the sample's `sa` after the acceleration step of `lateralLimitCtrl`. -/
def ctrlSa1 (m : Libm K) (st : State K L) (msg : ControlCommandStamped K) : K :=
  if |ctrlLacc m st msg msg.cmd.steering_angle| > st.lateral_accel_limit_ then
    m.atan (ctrlLacc m st msg msg.cmd.steering_angle / |ctrlLacc m st msg msg.cmd.steering_angle|
      * st.lateral_accel_limit_ * st.wheel_base_
      / (msg.cmd.linear_velocity * msg.cmd.linear_velocity))
  else msg.cmd.steering_angle

/-- Closed form of the lateral jerk of the steering sample with `sa` replaced, against the
previous state, when it is defined. -/
def ctrlLjerk (m : Libm K) (st : State K L) (msg : ControlCommandStamped K) (sa : K) : K :=
  msg.cmd.linear_velocity * msg.cmd.linear_velocity
    * ((m.tan sa - m.tan st.sa_prev_.val) / (msg.header.stamp - st.sa_prev_.time))
    / st.wheel_base_

/-- Closed form of the value of `sa` that the jerk correction of `lateralLimitCtrl` writes
when it fires on the jerk `j`. -/
def ctrlSa2 (m : Libm K) (st : State K L) (msg : ControlCommandStamped K) (j : K) : K :=
  m.atan (m.tan st.sa_prev_.val
    + j / |j| * (st.lateral_jerk_limit_ * st.wheel_base_
        / (msg.cmd.linear_velocity * msg.cmd.linear_velocity))
      * (msg.header.stamp - st.sa_prev_.time))

/-- Closed form of the value of `az` that the jerk correction of `lateralLimitTwist` writes
when it fires on the jerk `j`. -/
def twistAz2 (st : State K L) (msg : TwistStamped K) (j : K) : K :=
  st.az_prev_.val + j / |j| * st.lateral_jerk_limit_ / msg.twist.linear.x
    * (msg.header.stamp - st.az_prev_.time)

/-! ## Sample inputs -/

/-- Sample constants: the three thresholds are one thousandth, the hardcoded limits are
35 m/s and 3 m/s². -/
def sampleConstants : Constants K :=
  { MIN_LINEAR_X := 1 / 1000, MIN_LENGTH := 1 / 1000, MIN_DURATION := 1 / 1000,
    MAX_LONGITUDINAL_VELOCITY_HARDCODED_LIMIT_M_S := 35,
    MAX_LONGITUDINAL_ACCEL_HARDCODED_LIMIT_M_S_2 := 3 }

/-- A sample state: wheelbase `wb`, lateral limits `la` and `lj`, the two previous-sample
records, and `init` for both `init` statics; all gains are zero and all filters fresh. -/
def sampleState (wb la lj : K) (az_prev sa_prev : StampedValue K) (init : Bool) :
    State K Unit :=
  { wheel_base_ := wb, longitudinal_velocity_limit_ := 35, longitudinal_accel_limit_ := 3,
    lateral_accel_limit_ := la, lateral_jerk_limit_ := lj,
    lowpass_gain_linear_x_ := 0, lowpass_gain_angular_z_ := 0,
    lowpass_gain_steering_angle_ := 0,
    az_prev_ := az_prev, sa_prev_ := sa_prev, _lon_accel_limiter := (),
    lateralLimitTwist_init := init, lateralLimitCtrl_init := init,
    smoothTwist_lp_lx := lowpass_filter, smoothTwist_lp_az := lowpass_filter,
    smoothCtrl_lp_lx := lowpass_filter, smoothCtrl_lp_sa := lowpass_filter }

/-- A sample turn-rate command: time stamp, linear velocity and turn rate. -/
def sampleTwist (stamp lv az : K) : TwistStamped K :=
  { header := { seq := 0, stamp := stamp, frame_id := "" },
    twist := { linear := { x := lv, y := 0, z := 0 }, angular := { x := 0, y := 0, z := az } } }

/-- A sample steering command: time stamp, linear velocity and steering angle. -/
def sampleCtrl (stamp lv sa : K) : ControlCommandStamped K :=
  { header := { seq := 0, stamp := stamp, frame_id := "" },
    cmd := { linear_velocity := lv, linear_acceleration := 0, steering_angle := sa } }

/-! ## Diagnostics (lines 115-165) -/

/-- One call of `health_checker_.CHECK_MAX_VALUE`: the key, the value, the three thresholds
and the description handed to the health checker, which is not among the sources. -/
structure Diag (K : Type) where
  key : String
  value : K
  warn_value : K
  error_value : K
  fatal_value : K
  description : String

/-- Function `TwistFilter::checkTwist`; `DBL_MAX` is the constant of `<cfloat>`.  The calls
of `CHECK_MAX_VALUE` are returned in order. -/
def checkTwist (c : Constants K) (DBL_MAX : K) (st : State K L) (msg : TwistStamped K) :
    Except Fault (List (Diag K)) := do
  let lv := msg.twist.linear.x
  let az := msg.twist.angular.z
  let lacc := calcLaccWithAngularZ lv az
  let ljerk ← calcLjerkWithAngularZ c st lv az
  let d1 : List (Diag K) :=
    [⟨"twist_longitudinal_v_high", lv, st.longitudinal_velocity_limit_ * (9 / 10),
      st.longitudinal_velocity_limit_, c.MAX_LONGITUDINAL_VELOCITY_HARDCODED_LIMIT_M_S,
      "longitudinal velocity is too high in twist_filtering"⟩]
  let d2 : List (Diag K) ←
    if lacc.isSome then do
      let v ← get lacc
      pure [⟨"twist_lateral_accel_high", v, st.lateral_accel_limit_,
        2 * st.lateral_accel_limit_, DBL_MAX, "lateral_accel is too high in twist filtering"⟩]
    else pure []
  let d3 : List (Diag K) ←
    if ljerk.isSome then do
      let v ← get lacc
      pure [⟨"twist_lateral_jerk_high", v, st.lateral_jerk_limit_,
        2 * st.lateral_jerk_limit_, DBL_MAX, "lateral_jerk is too high in twist filtering"⟩]
    else pure []
  pure (d1 ++ d2 ++ d3)

/-- Function `TwistFilter::checkCtrl`; `DBL_MAX` is the constant of `<cfloat>`.  The calls of
`CHECK_MAX_VALUE` are returned in order. -/
def checkCtrl (c : Constants K) (m : Libm K) (DBL_MAX : K) (st : State K L)
    (msg : ControlCommandStamped K) : Except Fault (List (Diag K)) := do
  let lv := msg.cmd.linear_velocity
  let sa := msg.cmd.steering_angle
  let lacc ← calcLaccWithSteeringAngle c m st lv sa
  let ljerk ← calcLjerkWithSteeringAngle c m st lv sa
  let d1 : List (Diag K) :=
    [⟨"ctrl_longitudinal_v_high", lv, st.longitudinal_velocity_limit_ * (9 / 10),
      st.longitudinal_velocity_limit_, c.MAX_LONGITUDINAL_VELOCITY_HARDCODED_LIMIT_M_S,
      "longitudinal velocity is too high in ctrl_filtering"⟩]
  let d2 : List (Diag K) ←
    if lacc.isSome then do
      let v ← get lacc
      pure [⟨"ctrl_lateral_accel_high", v, st.lateral_accel_limit_,
        3 * st.lateral_accel_limit_, DBL_MAX, "lateral_accel is too high in ctrl filtering"⟩]
    else pure []
  let d3 : List (Diag K) ←
    if ljerk.isSome then do
      let v ← get lacc
      pure [⟨"ctrl_lateral_jerk_high", v, st.lateral_jerk_limit_,
        3 * st.lateral_jerk_limit_, DBL_MAX, "lateral_jerk is too high in ctrl filtering"⟩]
    else pure []
  pure (d1 ++ d2 ++ d3)

/-! ## Publication of the results (lines 79-113) -/

/-- Function `TwistFilter::publishLateralResultsWithTwist`: the messages published. -/
def publishLateralResultsWithTwist (c : Constants K) (st : State K L) (msg : TwistStamped K) :
    Except Fault (List (Float32Pub × K)) := do
  let lv := msg.twist.linear.x
  let az := msg.twist.angular.z
  let lacc := calcLaccWithAngularZ lv az
  let ljerk ← calcLjerkWithAngularZ c st lv az
  if !lacc.isSome || !ljerk.isSome then
    pure []
  else do
    let a ← get lacc
    let j ← get ljerk
    pure [(.twist_lacc_result_pub_, a), (.twist_ljerk_result_pub_, j)]

/-- Function `TwistFilter::publishLateralResultsWithCtrl`: the messages published. -/
def publishLateralResultsWithCtrl (c : Constants K) (m : Libm K) (st : State K L)
    (msg : ControlCommandStamped K) : Except Fault (List (Float32Pub × K)) := do
  let lv := msg.cmd.linear_velocity
  let sa := msg.cmd.steering_angle
  let lacc ← calcLaccWithSteeringAngle c m st lv sa
  let ljerk ← calcLjerkWithSteeringAngle c m st lv sa
  if !lacc.isSome || !ljerk.isSome then
    pure []
  else do
    let a ← get lacc
    let j ← get ljerk
    pure [(.ctrl_lacc_result_pub_, a), (.ctrl_ljerk_result_pub_, j)]

/-! ## Configuration and previous-sample records (lines 328-349) -/

/-- Message `autoware_config_msgs/ConfigTwistFilter`, with the fields that `configCallback`
reads. -/
structure ConfigTwistFilter (K : Type) where
  lateral_accel_limit : K
  lateral_jerk_limit : K
  lowpass_gain_linear_x : K
  lowpass_gain_angular_z : K
  lowpass_gain_steering_angle : K

/-- Function `TwistFilter::configCallback`. -/
def configCallback (st : State K L) (config : ConfigTwistFilter K) : State K L :=
  { st with
    lateral_accel_limit_ := config.lateral_accel_limit
    lateral_jerk_limit_ := config.lateral_jerk_limit
    lowpass_gain_linear_x_ := config.lowpass_gain_linear_x
    lowpass_gain_angular_z_ := config.lowpass_gain_angular_z
    lowpass_gain_steering_angle_ := config.lowpass_gain_steering_angle }

/-- Function `TwistFilter::updatePrevTwist`. -/
def updatePrevTwist (st : State K L) (msg : TwistStamped K) : State K L :=
  { st with az_prev_ :=
      { st.az_prev_ with time := msg.header.stamp, val := msg.twist.angular.z } }

/-- Function `TwistFilter::updatePrevCtrl`. -/
def updatePrevCtrl (st : State K L) (msg : ControlCommandStamped K) : State K L :=
  { st with sa_prev_ :=
      { st.sa_prev_ with time := msg.header.stamp, val := msg.cmd.steering_angle } }

/-! ## The two command callbacks (lines 351-379) -/

/-- The member functions of `_lon_accel_limiter` that the callbacks call.  The class
`LongitudinalAccelLimiter` is not among the sources; its two functions are parameters of the
embedding.  Each takes the state of the limiter and a command, and returns the limited
command and the state of the limiter afterwards. -/
structure LongitudinalAccelLimiter (K L : Type) where
  longitudinalAccelLimitTwist : L → TwistStamped K → TwistStamped K × L
  longitudinalAccelLimitCtrl : L → ControlCommandStamped K → ControlCommandStamped K × L

/-- What a command callback leaves behind: the new state, the command published on
`twist_pub_` or `ctrl_pub_`, the `Float32` messages published, in order, and the calls of
`CHECK_MAX_VALUE`, in order. -/
structure CallbackRun (K L M : Type) where
  state : State K L
  cmd : M
  published : List (Float32Pub × K)
  checked : List (Diag K)

/-- Lines 357-358 of `TwistCmdCallback`: the sample as it reaches the lateral limiter, and
the state of the acceleration limiter afterwards. -/
def preLateralTwist (c : Constants K) (lim : LongitudinalAccelLimiter K L) (st : State K L)
    (msg : TwistStamped K) : TwistStamped K × L :=
  lim.longitudinalAccelLimitTwist st._lon_accel_limiter
    (longitudinalLimitTwist c msg st.longitudinal_velocity_limit_)

/-- Lines 372-373 of `CtrlCmdCallback`: the sample as it reaches the lateral limiter, and
the state of the acceleration limiter afterwards. -/
def preLateralCtrl (c : Constants K) (lim : LongitudinalAccelLimiter K L) (st : State K L)
    (msg : ControlCommandStamped K) : ControlCommandStamped K × L :=
  lim.longitudinalAccelLimitCtrl st._lon_accel_limiter
    (longitudinalLimitCtrl c msg st.longitudinal_velocity_limit_)

/-- Function `TwistFilter::TwistCmdCallback`.  The call `health_checker_.NODE_ACTIVATE()`
has no effect on the state modelled. -/
def TwistCmdCallback (c : Constants K) (lim : LongitudinalAccelLimiter K L) (DBL_MAX : K)
    (st : State K L) (msg : TwistStamped K) :
    Except Fault (CallbackRun K L (TwistStamped K)) := do
  let checked ← checkTwist c DBL_MAX st msg
  let pre := preLateralTwist c lim st msg
  let st1 : State K L := { st with _lon_accel_limiter := pre.2 }
  let lateral ← lateralLimitTwist c st1 pre.1
  let smooth := smoothTwist lateral.state lateral.ret
  let results ← publishLateralResultsWithTwist c smooth.state smooth.ret
  pure ⟨updatePrevTwist smooth.state smooth.ret, smooth.ret,
    lateral.published ++ smooth.published ++ results, checked⟩

/-- Function `TwistFilter::CtrlCmdCallback`.  The call `health_checker_.NODE_ACTIVATE()` has
no effect on the state modelled. -/
def CtrlCmdCallback (c : Constants K) (m : Libm K) (lim : LongitudinalAccelLimiter K L)
    (DBL_MAX : K) (st : State K L) (msg : ControlCommandStamped K) :
    Except Fault (CallbackRun K L (ControlCommandStamped K)) := do
  let checked ← checkCtrl c m DBL_MAX st msg
  let pre := preLateralCtrl c lim st msg
  let st1 : State K L := { st with _lon_accel_limiter := pre.2 }
  let lateral ← lateralLimitCtrl c m st1 pre.1
  let smooth := smoothCtrl lateral.state lateral.ret
  let results ← publishLateralResultsWithCtrl c m smooth.state smooth.ret
  pure ⟨updatePrevCtrl smooth.state smooth.ret, smooth.ret,
    lateral.published ++ smooth.published ++ results, checked⟩

/-! ## Sequences of callbacks -/

/-- A message delivered to the node: a turn-rate command, a steering command or a
configuration update. -/
inductive Event (K : Type) where
  | twist (msg : TwistStamped K)
  | ctrl (msg : ControlCommandStamped K)
  | config (msg : ConfigTwistFilter K)

/-- The state after the callback of one event has completed. -/
def step (c : Constants K) (m : Libm K) (lim : LongitudinalAccelLimiter K L) (DBL_MAX : K)
    (st : State K L) : Event K → Except Fault (State K L)
  | .twist msg => do
    let r ← TwistCmdCallback c lim DBL_MAX st msg
    pure r.state
  | .ctrl msg => do
    let r ← CtrlCmdCallback c m lim DBL_MAX st msg
    pure r.state
  | .config msg => pure (configCallback st msg)

/-- The state after the callbacks of a sequence of events have completed, one after the
other (section 5 of the specification: each event is processed to completion before the
next). -/
def runEvents (c : Constants K) (m : Libm K) (lim : LongitudinalAccelLimiter K L)
    (DBL_MAX : K) (st : State K L) : List (Event K) → Except Fault (State K L)
  | [] => pure st
  | e :: es => do
    let st1 ← step c m lim DBL_MAX st e
    runEvents c m lim DBL_MAX st1 es

/-! ## Sequences of calls of one lowpass filter -/

/-- The values returned by a sequence of calls of one closure, each call with its input and
its gain, and the closure afterwards. -/
def Lowpass.run (f : Lowpass K) : List (K × K) → List K × Lowpass K
  | [] => ([], f)
  | p :: rest =>
    let r := f.call p.1 p.2
    let rs := Lowpass.run r.2 rest
    (r.1 :: rs.1, rs.2)

/-! ## More sample inputs -/

/-- A sample acceleration limiter without state, which returns every command as it is. -/
def sampleLimiter : LongitudinalAccelLimiter K Unit :=
  { longitudinalAccelLimitTwist := fun l ts => (ts, l),
    longitudinalAccelLimitCtrl := fun l ccs => (ccs, l) }

/-! # Theorems -/

/-! ## Basic facts about faults -/

@[simp] theorem ok_bind {α β : Type} (a : α) (f : α → Except Fault β) :
    (Except.ok a >>= f) = f a := rfl

@[simp] theorem error_bind {α β : Type} (e : Fault) (f : α → Except Fault β) :
    ((Except.error e : Except Fault α) >>= f) = Except.error e := rfl

@[simp] theorem pure_eq_ok {α : Type} (a : α) : (pure a : Except Fault α) = Except.ok a := rfl

theorem divide_of_ne {a b : K} (h : b ≠ 0) : divide a b = .ok (a / b) := by
  simp [divide, h]

theorem divide_zero (a : K) : divide a 0 = .error .zeroDivisor := by
  simp [divide]

theorem ne_zero_of_le_abs {t d : K} (ht : 0 < t) (h : t ≤ |d|) : d ≠ 0 := by
  intro h0
  rw [h0, abs_zero] at h
  exact absurd ht (not_lt.mpr h)

theorem ne_zero_of_lt_abs {t d : K} (ht : 0 ≤ t) (h : t < |d|) : d ≠ 0 := by
  intro h0
  rw [h0, abs_zero] at h
  exact absurd h (not_lt.mpr ht)

/-- The quotient of `x` by its absolute value has absolute value one when `x` is not zero. -/
theorem abs_sgn {x : K} (h : x ≠ 0) : |x / (|x|)| = 1 := by
  rw [abs_div, abs_abs, div_self (abs_ne_zero.mpr h)]

/-! ## The turn-rate channel, step by step -/

@[simp] theorem stampTwist_dt (st : State K L) (msg : TwistStamped K) :
    (stampTwist st msg).az_prev_.dt = msg.header.stamp - st.az_prev_.time := rfl

@[simp] theorem stampTwist_val (st : State K L) (msg : TwistStamped K) :
    (stampTwist st msg).az_prev_.val = st.az_prev_.val := rfl

@[simp] theorem stampTwist_lacc_limit (st : State K L) (msg : TwistStamped K) :
    (stampTwist st msg).lateral_accel_limit_ = st.lateral_accel_limit_ := rfl

@[simp] theorem stampTwist_ljerk_limit (st : State K L) (msg : TwistStamped K) :
    (stampTwist st msg).lateral_jerk_limit_ = st.lateral_jerk_limit_ := rfl

@[simp] theorem stampTwist_init (st : State K L) (msg : TwistStamped K) :
    (stampTwist st msg).lateralLimitTwist_init = st.lateralLimitTwist_init := rfl

theorem calcLjerkWithAngularZ_ok (c : Constants K) (st : State K L) (lv az : K)
    (hD : 0 < c.MIN_DURATION) (hdt : c.MIN_DURATION ≤ |st.az_prev_.dt|) :
    calcLjerkWithAngularZ c st lv az
      = .ok (some ((az - st.az_prev_.val) * lv / st.az_prev_.dt)) := by
  simp [calcLjerkWithAngularZ, not_lt.mpr hdt, divide_of_ne (ne_zero_of_le_abs hD hdt)]

theorem calcLjerkWithAngularZ_none (c : Constants K) (st : State K L) (lv az : K)
    (hdt : |st.az_prev_.dt| < c.MIN_DURATION) :
    calcLjerkWithAngularZ c st lv az = .ok none := by
  simp [calcLjerkWithAngularZ, hdt]

theorem limitLaccTwist_ok (st : State K L) (lv az : K)
    (h : |az * lv| > st.lateral_accel_limit_ → az * lv ≠ 0) :
    limitLaccTwist st lv az false = .ok (azAfterLacc st.lateral_accel_limit_ lv az) := by
  unfold limitLaccTwist azAfterLacc
  simp only [calcLaccWithAngularZ, get, ok_bind]
  by_cases hx : |az * lv| > st.lateral_accel_limit_
  · have hne : az * lv ≠ 0 := h hx
    have hlv : lv ≠ 0 := right_ne_zero_of_mul hne
    simp [hx, divide_of_ne (abs_ne_zero.mpr hne), divide_of_ne hlv]
  · simp [hx]

theorem ljerkTestTwist_ok (c : Constants K) (st : State K L) (lv az : K)
    (hD : 0 < c.MIN_DURATION) (hdt : c.MIN_DURATION ≤ |st.az_prev_.dt|) :
    ljerkTestTwist c st lv az false
      = .ok ((az - st.az_prev_.val) * lv / st.az_prev_.dt,
          decide (|(az - st.az_prev_.val) * lv / st.az_prev_.dt| > st.lateral_jerk_limit_)) := by
  simp [ljerkTestTwist, calcLjerkWithAngularZ_ok c st lv az hD hdt, get]

theorem ljerkTestOfTwist_ok (c : Constants K) (st : State K L) (msg : TwistStamped K)
    (hD : 0 < c.MIN_DURATION)
    (hlv : c.MIN_LINEAR_X ≤ |msg.twist.linear.x|)
    (hdt : c.MIN_DURATION ≤ |msg.header.stamp - st.az_prev_.time|)
    (h : |msg.twist.angular.z * msg.twist.linear.x| > st.lateral_accel_limit_ →
      msg.twist.angular.z * msg.twist.linear.x ≠ 0) :
    ljerkTestOfTwist c st msg
      = .ok (twistLjerk st msg (twistAz1 st msg),
          decide (|twistLjerk st msg (twistAz1 st msg)| > st.lateral_jerk_limit_)) := by
  unfold ljerkTestOfTwist
  simp only [not_lt.mpr hlv, decide_False]
  rw [limitLaccTwist_ok (stampTwist st msg) _ _ h]
  simp only [ok_bind]
  rw [ljerkTestTwist_ok c (stampTwist st msg) _ _ hD hdt]
  rfl

/-- The run of `lateralLimitTwist` on a sample that is neither the first nor stopping, when
the jerk correction does not fire. -/
theorem lateralLimitTwist_lacc_only (c : Constants K) (st : State K L) (msg : TwistStamped K)
    (hD : 0 < c.MIN_DURATION)
    (hinit : st.lateralLimitTwist_init = true)
    (hlv : c.MIN_LINEAR_X ≤ |msg.twist.linear.x|)
    (hdt : c.MIN_DURATION ≤ |msg.header.stamp - st.az_prev_.time|)
    (h : |msg.twist.angular.z * msg.twist.linear.x| > st.lateral_accel_limit_ →
      msg.twist.angular.z * msg.twist.linear.x ≠ 0)
    (hj : ¬ |twistLjerk st msg (twistAz1 st msg)| > st.lateral_jerk_limit_) :
    lateralLimitTwist c st msg = .ok
      ⟨stampTwist st msg, msg.withAz (twistAz1 st msg),
       [(.twist_lacc_limit_debug_pub_, twistAz1 st msg * msg.twist.linear.x),
        (.twist_ljerk_limit_debug_pub_, twistLjerk st msg (twistAz1 st msg))]⟩ := by
  unfold twistLjerk twistAz1 at *
  unfold lateralLimitTwist
  simp only [stampTwist_init, hinit, not_lt.mpr hlv, decide_False, Bool.not_true, Bool.or_self,
    Bool.false_eq_true, if_false]
  rw [limitLaccTwist_ok (stampTwist st msg) _ _ h]
  simp only [ok_bind, limitLjerkTwist]
  rw [ljerkTestTwist_ok c (stampTwist st msg) _ _ hD hdt]
  simp only [ok_bind, stampTwist_ljerk_limit, stampTwist_lacc_limit, stampTwist_dt,
    stampTwist_val, hj, decide_False, Bool.false_eq_true, if_false, pure_eq_ok]
  rw [calcLjerkWithAngularZ_ok c (stampTwist st msg) _ _ hD hdt]
  simp [get, calcLaccWithAngularZ, TwistStamped.withAz]

/-- The run of `lateralLimitTwist` on a sample that is neither the first nor stopping, when
the jerk correction fires on a non-zero jerk. -/
theorem lateralLimitTwist_ljerk (c : Constants K) (st : State K L) (msg : TwistStamped K)
    (hD : 0 < c.MIN_DURATION)
    (hinit : st.lateralLimitTwist_init = true)
    (hlv : c.MIN_LINEAR_X ≤ |msg.twist.linear.x|)
    (hdt : c.MIN_DURATION ≤ |msg.header.stamp - st.az_prev_.time|)
    (h : |msg.twist.angular.z * msg.twist.linear.x| > st.lateral_accel_limit_ →
      msg.twist.angular.z * msg.twist.linear.x ≠ 0)
    (hj : |twistLjerk st msg (twistAz1 st msg)| > st.lateral_jerk_limit_)
    (hne : twistLjerk st msg (twistAz1 st msg) ≠ 0) :
    lateralLimitTwist c st msg = .ok
      ⟨stampTwist st msg,
       msg.withAz (twistAz2 st msg (twistLjerk st msg (twistAz1 st msg))),
       [(.twist_lacc_limit_debug_pub_,
          twistAz2 st msg (twistLjerk st msg (twistAz1 st msg)) * msg.twist.linear.x),
        (.twist_ljerk_limit_debug_pub_,
          twistLjerk st msg (twistAz2 st msg (twistLjerk st msg (twistAz1 st msg))))]⟩ := by
  have hlv0 : msg.twist.linear.x ≠ 0 := by
    intro h0
    apply hne
    simp [twistLjerk, h0]
  unfold twistAz2 twistLjerk twistAz1 at *
  unfold lateralLimitTwist
  simp only [stampTwist_init, hinit, not_lt.mpr hlv, decide_False, Bool.not_true, Bool.or_self,
    Bool.false_eq_true, if_false]
  rw [limitLaccTwist_ok (stampTwist st msg) _ _ h]
  simp only [ok_bind, limitLjerkTwist]
  rw [ljerkTestTwist_ok c (stampTwist st msg) _ _ hD hdt]
  simp only [ok_bind, stampTwist_ljerk_limit, stampTwist_lacc_limit, stampTwist_dt,
    stampTwist_val, hj, decide_True, if_true, pure_eq_ok]
  rw [divide_of_ne (abs_ne_zero.mpr hne)]
  simp only [ok_bind]
  rw [divide_of_ne hlv0]
  simp only [ok_bind]
  rw [calcLjerkWithAngularZ_ok c (stampTwist st msg) _ _ hD hdt]
  simp [get, calcLaccWithAngularZ, TwistStamped.withAz]


/-! ## Sign -/

theorem div_abs_eq_sgn {x : K} (h : x ≠ 0) : x / |x| = sgn x := by
  unfold sgn
  rcases lt_or_gt_of_ne h with hx | hx
  · rw [abs_of_neg hx, if_neg (not_lt.mpr hx.le), if_pos hx, div_neg, div_self h]
  · rw [abs_of_pos hx, if_pos hx, div_self h]

theorem abs_sgn_of_ne {x : K} (h : x ≠ 0) : |sgn x| = 1 := by
  rw [← div_abs_eq_sgn h]
  exact abs_sgn h

/-! ## Arithmetic of the two corrections of the turn-rate channel -/

theorem azAfterLacc_mul_of_gt {la lv az : K} (h : |az * lv| > la) (hne : az * lv ≠ 0) :
    azAfterLacc la lv az * lv = sgn (az * lv) * la := by
  have hlv : lv ≠ 0 := right_ne_zero_of_mul hne
  rw [azAfterLacc, if_pos h, div_abs_eq_sgn hne, div_mul_cancel₀ _ hlv]

theorem abs_azAfterLacc_mul_le {la lv az : K} (hla : 0 ≤ la) :
    |azAfterLacc la lv az * lv| ≤ la := by
  by_cases h : |az * lv| > la
  · have hne : az * lv ≠ 0 := ne_zero_of_lt_abs hla h
    rw [azAfterLacc_mul_of_gt h hne, abs_mul, abs_sgn_of_ne hne, one_mul, abs_of_nonneg hla]
  · rw [azAfterLacc, if_neg h]
    exact not_lt.mp h

/-- The jerk of the value that the jerk correction writes is the signed jerk limit. -/
theorem ljerk_of_corrected {prev lv dt j lj : K} (hlv : lv ≠ 0) (hdt : dt ≠ 0) (hj : j ≠ 0) :
    (prev + j / |j| * lj / lv * dt - prev) * lv / dt = sgn j * lj := by
  rw [div_abs_eq_sgn hj]
  field_simp
  ring


/-! ## The steering channel, step by step -/

@[simp] theorem stampCtrl_dt (st : State K L) (msg : ControlCommandStamped K) :
    (stampCtrl st msg).sa_prev_.dt = msg.header.stamp - st.sa_prev_.time := rfl

@[simp] theorem stampCtrl_val (st : State K L) (msg : ControlCommandStamped K) :
    (stampCtrl st msg).sa_prev_.val = st.sa_prev_.val := rfl

@[simp] theorem stampCtrl_wheel_base (st : State K L) (msg : ControlCommandStamped K) :
    (stampCtrl st msg).wheel_base_ = st.wheel_base_ := rfl

@[simp] theorem stampCtrl_lacc_limit (st : State K L) (msg : ControlCommandStamped K) :
    (stampCtrl st msg).lateral_accel_limit_ = st.lateral_accel_limit_ := rfl

@[simp] theorem stampCtrl_ljerk_limit (st : State K L) (msg : ControlCommandStamped K) :
    (stampCtrl st msg).lateral_jerk_limit_ = st.lateral_jerk_limit_ := rfl

@[simp] theorem stampCtrl_init (st : State K L) (msg : ControlCommandStamped K) :
    (stampCtrl st msg).lateralLimitCtrl_init = st.lateralLimitCtrl_init := rfl

theorem calcLaccWithSteeringAngle_ok (c : Constants K) (m : Libm K) (st : State K L)
    (lv sa : K) (hW : 0 < c.MIN_LENGTH) (hwb : c.MIN_LENGTH ≤ |st.wheel_base_|) :
    calcLaccWithSteeringAngle c m st lv sa
      = .ok (some (lv * lv * m.tan sa / st.wheel_base_)) := by
  simp [calcLaccWithSteeringAngle, not_lt.mpr hwb, divide_of_ne (ne_zero_of_le_abs hW hwb)]

theorem calcLaccWithSteeringAngle_none (c : Constants K) (m : Libm K) (st : State K L)
    (lv sa : K) (hwb : |st.wheel_base_| < c.MIN_LENGTH) :
    calcLaccWithSteeringAngle c m st lv sa = .ok none := by
  simp [calcLaccWithSteeringAngle, hwb]

theorem calcLjerkWithSteeringAngle_ok (c : Constants K) (m : Libm K) (st : State K L)
    (lv sa : K) (hD : 0 < c.MIN_DURATION) (hW : 0 < c.MIN_LENGTH)
    (hdt : c.MIN_DURATION ≤ |st.sa_prev_.dt|) (hwb : c.MIN_LENGTH ≤ |st.wheel_base_|) :
    calcLjerkWithSteeringAngle c m st lv sa
      = .ok (some (lv * lv * ((m.tan sa - m.tan st.sa_prev_.val) / st.sa_prev_.dt)
          / st.wheel_base_)) := by
  simp [calcLjerkWithSteeringAngle, not_lt.mpr hwb, not_lt.mpr hdt,
    divide_of_ne (ne_zero_of_le_abs hW hwb), divide_of_ne (ne_zero_of_le_abs hD hdt)]

theorem limitLaccCtrl_ok (c : Constants K) (m : Libm K) (st : State K L) (lv sa : K)
    (hW : 0 < c.MIN_LENGTH) (hwb : c.MIN_LENGTH ≤ |st.wheel_base_|)
    (h : |lv * lv * m.tan sa / st.wheel_base_| > st.lateral_accel_limit_ →
      lv * lv * m.tan sa / st.wheel_base_ ≠ 0) :
    limitLaccCtrl c m st lv sa false
      = .ok (if |lv * lv * m.tan sa / st.wheel_base_| > st.lateral_accel_limit_ then
          m.atan (lv * lv * m.tan sa / st.wheel_base_ / |lv * lv * m.tan sa / st.wheel_base_|
            * st.lateral_accel_limit_ * st.wheel_base_ / (lv * lv))
        else sa) := by
  unfold limitLaccCtrl
  rw [calcLaccWithSteeringAngle_ok c m st lv sa hW hwb]
  simp only [get, ok_bind]
  by_cases hx : |lv * lv * m.tan sa / st.wheel_base_| > st.lateral_accel_limit_
  · have hne : lv * lv * m.tan sa / st.wheel_base_ ≠ 0 := h hx
    have hll : lv * lv ≠ 0 := by
      intro h0
      apply hne
      rw [h0, zero_mul, zero_div]
    simp [hx, divide_of_ne (abs_ne_zero.mpr hne), divide_of_ne hll]
  · simp [hx]

theorem ljerkTestCtrl_ok (c : Constants K) (m : Libm K) (st : State K L) (lv sa : K)
    (hD : 0 < c.MIN_DURATION) (hW : 0 < c.MIN_LENGTH)
    (hdt : c.MIN_DURATION ≤ |st.sa_prev_.dt|) (hwb : c.MIN_LENGTH ≤ |st.wheel_base_|) :
    ljerkTestCtrl c m st lv sa false
      = .ok (lv * lv * ((m.tan sa - m.tan st.sa_prev_.val) / st.sa_prev_.dt) / st.wheel_base_,
          decide (|lv * lv * ((m.tan sa - m.tan st.sa_prev_.val) / st.sa_prev_.dt)
            / st.wheel_base_| > st.lateral_jerk_limit_)) := by
  simp [ljerkTestCtrl, calcLjerkWithSteeringAngle_ok c m st lv sa hD hW hdt hwb, get]

theorem ljerkTestOfCtrl_ok (c : Constants K) (m : Libm K) (st : State K L)
    (msg : ControlCommandStamped K)
    (hD : 0 < c.MIN_DURATION) (hW : 0 < c.MIN_LENGTH)
    (hlv : c.MIN_LINEAR_X ≤ |msg.cmd.linear_velocity|)
    (hwb : c.MIN_LENGTH ≤ |st.wheel_base_|)
    (hdt : c.MIN_DURATION ≤ |msg.header.stamp - st.sa_prev_.time|)
    (h : |ctrlLacc m st msg msg.cmd.steering_angle| > st.lateral_accel_limit_ →
      ctrlLacc m st msg msg.cmd.steering_angle ≠ 0) :
    ljerkTestOfCtrl c m st msg
      = .ok (ctrlLjerk m st msg (ctrlSa1 m st msg),
          decide (|ctrlLjerk m st msg (ctrlSa1 m st msg)| > st.lateral_jerk_limit_)) := by
  unfold ljerkTestOfCtrl
  simp only [not_lt.mpr hlv, decide_False]
  rw [limitLaccCtrl_ok c m (stampCtrl st msg) _ _ hW hwb h]
  simp only [ok_bind]
  rw [ljerkTestCtrl_ok c m (stampCtrl st msg) _ _ hD hW hdt hwb]
  rfl

/-- The run of `lateralLimitCtrl` on a sample that is neither the first nor stopping, when
the jerk correction does not fire. -/
theorem lateralLimitCtrl_lacc_only (c : Constants K) (m : Libm K) (st : State K L)
    (msg : ControlCommandStamped K)
    (hD : 0 < c.MIN_DURATION) (hW : 0 < c.MIN_LENGTH)
    (hinit : st.lateralLimitCtrl_init = true)
    (hlv : c.MIN_LINEAR_X ≤ |msg.cmd.linear_velocity|)
    (hwb : c.MIN_LENGTH ≤ |st.wheel_base_|)
    (hdt : c.MIN_DURATION ≤ |msg.header.stamp - st.sa_prev_.time|)
    (h : |ctrlLacc m st msg msg.cmd.steering_angle| > st.lateral_accel_limit_ →
      ctrlLacc m st msg msg.cmd.steering_angle ≠ 0)
    (hj : ¬ |ctrlLjerk m st msg (ctrlSa1 m st msg)| > st.lateral_jerk_limit_) :
    lateralLimitCtrl c m st msg = .ok
      ⟨stampCtrl st msg, msg.withSa (ctrlSa1 m st msg),
       [(.ctrl_lacc_limit_debug_pub_, ctrlLacc m st msg (ctrlSa1 m st msg)),
        (.ctrl_ljerk_limit_debug_pub_, ctrlLjerk m st msg (ctrlSa1 m st msg))]⟩ := by
  unfold ctrlLjerk ctrlSa1 ctrlLacc at *
  unfold lateralLimitCtrl
  simp only [stampCtrl_init, hinit, not_lt.mpr hlv, decide_False, Bool.not_true, Bool.or_self,
    Bool.false_eq_true, if_false]
  rw [limitLaccCtrl_ok c m (stampCtrl st msg) _ _ hW hwb h]
  simp only [ok_bind, limitLjerkCtrl]
  rw [ljerkTestCtrl_ok c m (stampCtrl st msg) _ _ hD hW hdt hwb]
  simp only [ok_bind, stampCtrl_ljerk_limit, stampCtrl_lacc_limit, stampCtrl_dt,
    stampCtrl_val, stampCtrl_wheel_base, hj, decide_False, Bool.false_eq_true, if_false,
    pure_eq_ok]
  rw [calcLaccWithSteeringAngle_ok c m (stampCtrl st msg) _ _ hW hwb,
    calcLjerkWithSteeringAngle_ok c m (stampCtrl st msg) _ _ hD hW hdt hwb]
  simp [get, ControlCommandStamped.withSa]

/-- The run of `lateralLimitCtrl` on a sample that is neither the first nor stopping, when
the jerk correction fires on a non-zero jerk. -/
theorem lateralLimitCtrl_ljerk (c : Constants K) (m : Libm K) (st : State K L)
    (msg : ControlCommandStamped K)
    (hD : 0 < c.MIN_DURATION) (hW : 0 < c.MIN_LENGTH)
    (hinit : st.lateralLimitCtrl_init = true)
    (hlv : c.MIN_LINEAR_X ≤ |msg.cmd.linear_velocity|)
    (hwb : c.MIN_LENGTH ≤ |st.wheel_base_|)
    (hdt : c.MIN_DURATION ≤ |msg.header.stamp - st.sa_prev_.time|)
    (h : |ctrlLacc m st msg msg.cmd.steering_angle| > st.lateral_accel_limit_ →
      ctrlLacc m st msg msg.cmd.steering_angle ≠ 0)
    (hj : |ctrlLjerk m st msg (ctrlSa1 m st msg)| > st.lateral_jerk_limit_)
    (hne : ctrlLjerk m st msg (ctrlSa1 m st msg) ≠ 0) :
    lateralLimitCtrl c m st msg = .ok
      ⟨stampCtrl st msg,
       msg.withSa (ctrlSa2 m st msg (ctrlLjerk m st msg (ctrlSa1 m st msg))),
       [(.ctrl_lacc_limit_debug_pub_,
          ctrlLacc m st msg (ctrlSa2 m st msg (ctrlLjerk m st msg (ctrlSa1 m st msg)))),
        (.ctrl_ljerk_limit_debug_pub_,
          ctrlLjerk m st msg (ctrlSa2 m st msg (ctrlLjerk m st msg (ctrlSa1 m st msg))))]⟩ := by
  have hll : msg.cmd.linear_velocity * msg.cmd.linear_velocity ≠ 0 := by
    intro h0
    apply hne
    simp [ctrlLjerk, h0]
  unfold ctrlSa2 ctrlLjerk ctrlSa1 ctrlLacc at *
  unfold lateralLimitCtrl
  simp only [stampCtrl_init, hinit, not_lt.mpr hlv, decide_False, Bool.not_true, Bool.or_self,
    Bool.false_eq_true, if_false]
  rw [limitLaccCtrl_ok c m (stampCtrl st msg) _ _ hW hwb h]
  simp only [ok_bind, limitLjerkCtrl]
  rw [ljerkTestCtrl_ok c m (stampCtrl st msg) _ _ hD hW hdt hwb]
  simp only [ok_bind, stampCtrl_ljerk_limit, stampCtrl_lacc_limit, stampCtrl_dt,
    stampCtrl_val, stampCtrl_wheel_base, hj, decide_True, if_true, pure_eq_ok]
  rw [divide_of_ne (abs_ne_zero.mpr hne)]
  simp only [ok_bind]
  rw [divide_of_ne hll]
  simp only [ok_bind]
  rw [calcLaccWithSteeringAngle_ok c m (stampCtrl st msg) _ _ hW hwb,
    calcLjerkWithSteeringAngle_ok c m (stampCtrl st msg) _ _ hD hW hdt hwb]
  simp [get, ControlCommandStamped.withSa]


/-! ## Arithmetic of the two corrections of the steering channel -/

theorem ljerkTestOfCtrl_zero_lacc (c : Constants K) (m : Libm K) (st : State K L)
    (msg : ControlCommandStamped K) (hW : 0 < c.MIN_LENGTH)
    (hlv : c.MIN_LINEAR_X ≤ |msg.cmd.linear_velocity|)
    (hwb : c.MIN_LENGTH ≤ |st.wheel_base_|)
    (h0 : ctrlLacc m st msg msg.cmd.steering_angle = 0)
    (hgt : |ctrlLacc m st msg msg.cmd.steering_angle| > st.lateral_accel_limit_) :
    ljerkTestOfCtrl c m st msg = .error .zeroDivisor := by
  unfold ctrlLacc at h0 hgt
  unfold ljerkTestOfCtrl limitLaccCtrl
  simp only [not_lt.mpr hlv, decide_False]
  rw [calcLaccWithSteeringAngle_ok c m (stampCtrl st msg) _ _ hW hwb]
  simp only [get, ok_bind, stampCtrl_wheel_base, stampCtrl_lacc_limit, h0] at hgt ⊢
  rw [abs_zero] at hgt
  simp [hgt, divide_zero]

theorem ctrlLacc_of_corrected {m : Libm K} (hm : ∀ x, m.tan (m.atan x) = x) {lv wb la s : K}
    (hlv : lv * lv ≠ 0) (hwb : wb ≠ 0) :
    lv * lv * m.tan (m.atan (s * la * wb / (lv * lv))) / wb = s * la := by
  rw [hm]
  field_simp

theorem ctrlLjerk_of_corrected {m : Libm K} (hm : ∀ x, m.tan (m.atan x) = x)
    {lv wb lj s prev dt : K} (hlv : lv * lv ≠ 0) (hwb : wb ≠ 0) (hdt : dt ≠ 0) :
    lv * lv * ((m.tan (m.atan (m.tan prev + s * (lj * wb / (lv * lv)) * dt)) - m.tan prev) / dt)
      / wb = s * lj := by
  rw [hm]
  field_simp
  ring

/-- The acceleration correction of the steering channel, for any pair of functions `tan` and
`atan` with `tan (atan x) = x`. -/
theorem lateralLimitCtrl_lacc_correction_of (c : Constants K) (m : Libm K)
    (hm : ∀ x, m.tan (m.atan x) = x) (st : State K L) (msg : ControlCommandStamped K)
    (hD : 0 < c.MIN_DURATION) (hW : 0 < c.MIN_LENGTH)
    (hinit : st.lateralLimitCtrl_init = true)
    (hlv : c.MIN_LINEAR_X ≤ |msg.cmd.linear_velocity|)
    (hwb : c.MIN_LENGTH ≤ |st.wheel_base_|)
    (hdt : c.MIN_DURATION ≤ |msg.header.stamp - st.sa_prev_.time|)
    (hne : ctrlLacc m st msg msg.cmd.steering_angle ≠ 0)
    (hgt : |ctrlLacc m st msg msg.cmd.steering_angle| > st.lateral_accel_limit_)
    (hjerk : ∀ j, ljerkTestOfCtrl c m st msg ≠ .ok (j, true)) :
    ∃ r, lateralLimitCtrl c m st msg = .ok r ∧
      r.ret = msg.withSa (m.atan (sgn (ctrlLacc m st msg msg.cmd.steering_angle)
        * st.lateral_accel_limit_ * st.wheel_base_
        / (msg.cmd.linear_velocity * msg.cmd.linear_velocity))) ∧
      calcLaccWithSteeringAngle c m r.state r.ret.cmd.linear_velocity r.ret.cmd.steering_angle
        = .ok (some (sgn (ctrlLacc m st msg msg.cmd.steering_angle)
            * st.lateral_accel_limit_)) := by
  have hj : ¬ |ctrlLjerk m st msg (ctrlSa1 m st msg)| > st.lateral_jerk_limit_ := by
    intro hgt2
    apply hjerk (ctrlLjerk m st msg (ctrlSa1 m st msg))
    rw [ljerkTestOfCtrl_ok c m st msg hD hW hlv hwb hdt (fun _ => hne), decide_eq_true hgt2]
  have hsa : ctrlSa1 m st msg = m.atan (sgn (ctrlLacc m st msg msg.cmd.steering_angle)
        * st.lateral_accel_limit_ * st.wheel_base_
        / (msg.cmd.linear_velocity * msg.cmd.linear_velocity)) := by
    rw [ctrlSa1, if_pos hgt, div_abs_eq_sgn hne]
  have hll : msg.cmd.linear_velocity * msg.cmd.linear_velocity ≠ 0 := by
    intro h0
    apply hne
    simp [ctrlLacc, h0]
  have hwb0 : st.wheel_base_ ≠ 0 := ne_zero_of_le_abs hW hwb
  refine ⟨_, lateralLimitCtrl_lacc_only c m st msg hD hW hinit hlv hwb hdt (fun _ => hne) hj,
    ?_, ?_⟩
  · rw [hsa]
  · rw [calcLaccWithSteeringAngle_ok c m (stampCtrl st msg) _ _ hW hwb]
    show Except.ok (some (msg.cmd.linear_velocity * msg.cmd.linear_velocity
      * m.tan (ctrlSa1 m st msg) / st.wheel_base_)) = _
    rw [hsa, ctrlLacc_of_corrected hm hll hwb0]

/-- The jerk correction of the steering channel, for any pair of functions `tan` and `atan`
with `tan (atan x) = x`. -/
theorem lateralLimitCtrl_ljerk_correction_of (c : Constants K) (m : Libm K)
    (hm : ∀ x, m.tan (m.atan x) = x) (st : State K L) (msg : ControlCommandStamped K)
    (hD : 0 < c.MIN_DURATION) (hW : 0 < c.MIN_LENGTH)
    (hinit : st.lateralLimitCtrl_init = true)
    (hlv : c.MIN_LINEAR_X ≤ |msg.cmd.linear_velocity|)
    (hwb : c.MIN_LENGTH ≤ |st.wheel_base_|)
    (hdt : c.MIN_DURATION ≤ |msg.header.stamp - st.sa_prev_.time|)
    (j0 : K) (hfire : ljerkTestOfCtrl c m st msg = .ok (j0, true)) (hj0 : j0 ≠ 0) :
    ∃ r, lateralLimitCtrl c m st msg = .ok r ∧
      r.ret = msg.withSa (m.atan (m.tan st.sa_prev_.val
        + sgn j0 * (st.lateral_jerk_limit_ * st.wheel_base_
            / (msg.cmd.linear_velocity * msg.cmd.linear_velocity))
          * (msg.header.stamp - st.sa_prev_.time))) ∧
      calcLjerkWithSteeringAngle c m r.state r.ret.cmd.linear_velocity r.ret.cmd.steering_angle
        = .ok (some (sgn j0 * st.lateral_jerk_limit_)) := by
  have h : |ctrlLacc m st msg msg.cmd.steering_angle| > st.lateral_accel_limit_ →
      ctrlLacc m st msg msg.cmd.steering_angle ≠ 0 := by
    intro hgt h0
    rw [ljerkTestOfCtrl_zero_lacc c m st msg hW hlv hwb h0 hgt] at hfire
    exact absurd hfire (by simp)
  rw [ljerkTestOfCtrl_ok c m st msg hD hW hlv hwb hdt h] at hfire
  have hpair := Except.ok.inj hfire
  have hjeq : ctrlLjerk m st msg (ctrlSa1 m st msg) = j0 := congrArg Prod.fst hpair
  have hj : |ctrlLjerk m st msg (ctrlSa1 m st msg)| > st.lateral_jerk_limit_ :=
    of_decide_eq_true (congrArg Prod.snd hpair)
  have hne : ctrlLjerk m st msg (ctrlSa1 m st msg) ≠ 0 := by
    rw [hjeq]
    exact hj0
  have hll : msg.cmd.linear_velocity * msg.cmd.linear_velocity ≠ 0 := by
    intro h0
    apply hne
    simp [ctrlLjerk, h0]
  have hwb0 : st.wheel_base_ ≠ 0 := ne_zero_of_le_abs hW hwb
  have hdt0 : msg.header.stamp - st.sa_prev_.time ≠ 0 := ne_zero_of_le_abs hD hdt
  have hsa : ctrlSa2 m st msg (ctrlLjerk m st msg (ctrlSa1 m st msg))
      = m.atan (m.tan st.sa_prev_.val
        + sgn j0 * (st.lateral_jerk_limit_ * st.wheel_base_
            / (msg.cmd.linear_velocity * msg.cmd.linear_velocity))
          * (msg.header.stamp - st.sa_prev_.time)) := by
    rw [ctrlSa2, div_abs_eq_sgn hne, hjeq]
  refine ⟨_, lateralLimitCtrl_ljerk c m st msg hD hW hinit hlv hwb hdt h hj hne, ?_, ?_⟩
  · rw [hsa]
  · rw [calcLjerkWithSteeringAngle_ok c m (stampCtrl st msg) _ _ hD hW hdt hwb]
    show Except.ok (some (msg.cmd.linear_velocity * msg.cmd.linear_velocity
      * ((m.tan (ctrlSa2 m st msg (ctrlLjerk m st msg (ctrlSa1 m st msg)))
          - m.tan st.sa_prev_.val) / (msg.header.stamp - st.sa_prev_.time))
      / st.wheel_base_)) = _
    rw [hsa, ctrlLjerk_of_corrected hm hll hwb0 hdt0]


/-! ## Claims about the lateral limiter of the turn-rate channel -/

/-- C1: on a sample that is not the first, with `|linear velocity| ≥ MIN_LINEAR_X`, a valid
previous state (`|dt| ≥ MIN_DURATION`) and a non-negative `lateral_accel_limit_`, if the jerk
correction does not fire then `lateralLimitTwist` returns a sample whose recomputed lateral
acceleration `angular_z * linear_velocity` has magnitude at most `lateral_accel_limit_`. -/
theorem lateralLimitTwist_lacc_within_limit (c : Constants K) (st : State K L)
    (msg : TwistStamped K)
    (hD : 0 < c.MIN_DURATION)
    (hinit : st.lateralLimitTwist_init = true)
    (hlv : c.MIN_LINEAR_X ≤ |msg.twist.linear.x|)
    (hdt : c.MIN_DURATION ≤ |msg.header.stamp - st.az_prev_.time|)
    (hla : 0 ≤ st.lateral_accel_limit_)
    (hjerk : ∀ j, ljerkTestOfTwist c st msg ≠ .ok (j, true)) :
    ∃ r lacc, lateralLimitTwist c st msg = .ok r ∧
      calcLaccWithAngularZ r.ret.twist.linear.x r.ret.twist.angular.z = some lacc ∧
      lacc = r.ret.twist.angular.z * msg.twist.linear.x ∧
      |lacc| ≤ st.lateral_accel_limit_ := by
  have h : |msg.twist.angular.z * msg.twist.linear.x| > st.lateral_accel_limit_ →
      msg.twist.angular.z * msg.twist.linear.x ≠ 0 := ne_zero_of_lt_abs hla
  have hj : ¬ |twistLjerk st msg (twistAz1 st msg)| > st.lateral_jerk_limit_ := by
    intro hgt
    apply hjerk (twistLjerk st msg (twistAz1 st msg))
    rw [ljerkTestOfTwist_ok c st msg hD hlv hdt h, decide_eq_true hgt]
  refine ⟨_, _, lateralLimitTwist_lacc_only c st msg hD hinit hlv hdt h hj, rfl, rfl, ?_⟩
  exact abs_azAfterLacc_mul_le hla

/-- C2, as amended: on a sample that is neither the first nor stopping, with a valid previous
state (`|dt| ≥ MIN_DURATION`), whose lateral acceleration `angular_z * linear_velocity` is not
zero and exceeds `lateral_accel_limit_` in magnitude, and for which the jerk correction does
not fire, `lateralLimitTwist` returns the sample with `angular_z` replaced by
`sign(angular_z * linear_velocity) * lateral_accel_limit_ / linear_velocity`, whose lateral
acceleration is exactly `sign * lateral_accel_limit_`; every other field, the linear velocity
and the timestamp among them, is the input's. -/
theorem lateralLimitTwist_lacc_correction (c : Constants K) (st : State K L)
    (msg : TwistStamped K)
    (hD : 0 < c.MIN_DURATION)
    (hinit : st.lateralLimitTwist_init = true)
    (hlv : c.MIN_LINEAR_X ≤ |msg.twist.linear.x|)
    (hdt : c.MIN_DURATION ≤ |msg.header.stamp - st.az_prev_.time|)
    (hne : msg.twist.angular.z * msg.twist.linear.x ≠ 0)
    (hgt : |msg.twist.angular.z * msg.twist.linear.x| > st.lateral_accel_limit_)
    (hjerk : ∀ j, ljerkTestOfTwist c st msg ≠ .ok (j, true)) :
    ∃ r, lateralLimitTwist c st msg = .ok r ∧
      r.ret = msg.withAz (sgn (msg.twist.angular.z * msg.twist.linear.x)
        * st.lateral_accel_limit_ / msg.twist.linear.x) ∧
      calcLaccWithAngularZ r.ret.twist.linear.x r.ret.twist.angular.z
        = some (sgn (msg.twist.angular.z * msg.twist.linear.x) * st.lateral_accel_limit_) ∧
      r.ret.twist.linear.x = msg.twist.linear.x ∧
      r.ret.header.stamp = msg.header.stamp := by
  have hj : ¬ |twistLjerk st msg (twistAz1 st msg)| > st.lateral_jerk_limit_ := by
    intro hgt2
    apply hjerk (twistLjerk st msg (twistAz1 st msg))
    rw [ljerkTestOfTwist_ok c st msg hD hlv hdt (fun _ => hne), decide_eq_true hgt2]
  have haz : twistAz1 st msg = sgn (msg.twist.angular.z * msg.twist.linear.x)
      * st.lateral_accel_limit_ / msg.twist.linear.x := by
    rw [twistAz1, azAfterLacc, if_pos hgt, div_abs_eq_sgn hne]
  refine ⟨_, lateralLimitTwist_lacc_only c st msg hD hinit hlv hdt (fun _ => hne) hj,
    ?_, ?_, rfl, rfl⟩
  · rw [haz]
  · show some (twistAz1 st msg * msg.twist.linear.x) = _
    rw [twistAz1, azAfterLacc_mul_of_gt hgt hne]

/-- C4, as amended: on a sample that is neither the first nor stopping, with
`|dt| ≥ MIN_DURATION`, a non-negative `lateral_jerk_limit_`, and a `lateral_accel_limit_`
that is non-negative or a raw lateral acceleration `angular_z * linear_velocity` that is not
zero, `lateralLimitTwist` returns a sample whose lateral jerk
`(angular_z_out - az_prev_.val) * linear_velocity / dt` has magnitude at most
`lateral_jerk_limit_`, whether or not the acceleration correction fired; when the jerk
correction fires, that jerk is `sign(jerk) * lateral_jerk_limit_` exactly, `jerk` being the
jerk that the correction tested. -/
theorem lateralLimitTwist_ljerk_within_limit (c : Constants K) (st : State K L)
    (msg : TwistStamped K)
    (hD : 0 < c.MIN_DURATION)
    (hinit : st.lateralLimitTwist_init = true)
    (hlv : c.MIN_LINEAR_X ≤ |msg.twist.linear.x|)
    (hdt : c.MIN_DURATION ≤ |msg.header.stamp - st.az_prev_.time|)
    (hlj : 0 ≤ st.lateral_jerk_limit_)
    (hla : 0 ≤ st.lateral_accel_limit_ ∨ msg.twist.angular.z * msg.twist.linear.x ≠ 0) :
    ∃ r j0 fires ljerk, ljerkTestOfTwist c st msg = .ok (j0, fires) ∧
      lateralLimitTwist c st msg = .ok r ∧
      calcLjerkWithAngularZ c r.state r.ret.twist.linear.x r.ret.twist.angular.z
        = .ok (some ljerk) ∧
      ljerk = (r.ret.twist.angular.z - st.az_prev_.val) * msg.twist.linear.x
        / (msg.header.stamp - st.az_prev_.time) ∧
      |ljerk| ≤ st.lateral_jerk_limit_ ∧
      (fires = true → ljerk = sgn j0 * st.lateral_jerk_limit_) := by
  have h : |msg.twist.angular.z * msg.twist.linear.x| > st.lateral_accel_limit_ →
      msg.twist.angular.z * msg.twist.linear.x ≠ 0 := by
    intro hgt
    rcases hla with hla | hla
    · exact ne_zero_of_lt_abs hla hgt
    · exact hla
  have hdt0 : msg.header.stamp - st.az_prev_.time ≠ 0 := ne_zero_of_le_abs hD hdt
  have hcalc : ∀ az, calcLjerkWithAngularZ c (stampTwist st msg) msg.twist.linear.x az
      = .ok (some (twistLjerk st msg az)) := fun az =>
    calcLjerkWithAngularZ_ok c (stampTwist st msg) _ az hD hdt
  by_cases hj : |twistLjerk st msg (twistAz1 st msg)| > st.lateral_jerk_limit_
  · have hne : twistLjerk st msg (twistAz1 st msg) ≠ 0 := ne_zero_of_lt_abs hlj hj
    have hlv0 : msg.twist.linear.x ≠ 0 := by
      intro h0
      apply hne
      simp [twistLjerk, h0]
    have hval : twistLjerk st msg (twistAz2 st msg (twistLjerk st msg (twistAz1 st msg)))
        = sgn (twistLjerk st msg (twistAz1 st msg)) * st.lateral_jerk_limit_ :=
      ljerk_of_corrected hlv0 hdt0 hne
    refine ⟨_, _, _, _, ljerkTestOfTwist_ok c st msg hD hlv hdt h,
      lateralLimitTwist_ljerk c st msg hD hinit hlv hdt h hj hne, hcalc _, rfl, ?_, ?_⟩
    · have hle : |sgn (twistLjerk st msg (twistAz1 st msg)) * st.lateral_jerk_limit_|
          ≤ st.lateral_jerk_limit_ := by
        rw [abs_mul, abs_sgn_of_ne hne, one_mul, abs_of_nonneg hlj]
      rw [← hval] at hle
      exact hle
    · intro _
      exact hval
  · refine ⟨_, _, _, _, ljerkTestOfTwist_ok c st msg hD hlv hdt h,
      lateralLimitTwist_lacc_only c st msg hD hinit hlv hdt h hj, hcalc _, rfl, ?_, ?_⟩
    · exact not_lt.mp hj
    · intro hf
      exact absurd (of_decide_eq_true hf) hj


/-! ## Claims about the lateral limiter of the steering channel -/

/-- C3, as amended: on a steering sample that is neither the first nor stopping, with
`|wheel_base_| ≥ MIN_LENGTH` and `|dt| ≥ MIN_DURATION`, whose lateral acceleration
`v² * tan(sa) / wheel_base_` is not zero and exceeds `lateral_accel_limit_` in magnitude, and
for which the jerk correction does not fire, `lateralLimitCtrl` returns the sample with
`steering_angle = atan(sign * lateral_accel_limit_ * wheel_base_ / v²)`, and
`calcLaccWithSteeringAngle` of that output is `sign * lateral_accel_limit_` exactly. -/
theorem lateralLimitCtrl_lacc_correction (c : Constants ℝ) (st : State ℝ L)
    (msg : ControlCommandStamped ℝ)
    (hD : 0 < c.MIN_DURATION) (hW : 0 < c.MIN_LENGTH)
    (hinit : st.lateralLimitCtrl_init = true)
    (hlv : c.MIN_LINEAR_X ≤ |msg.cmd.linear_velocity|)
    (hwb : c.MIN_LENGTH ≤ |st.wheel_base_|)
    (hdt : c.MIN_DURATION ≤ |msg.header.stamp - st.sa_prev_.time|)
    (hne : msg.cmd.linear_velocity ^ 2 * Real.tan msg.cmd.steering_angle / st.wheel_base_ ≠ 0)
    (hgt : |msg.cmd.linear_velocity ^ 2 * Real.tan msg.cmd.steering_angle / st.wheel_base_|
      > st.lateral_accel_limit_)
    (hjerk : ∀ j, ljerkTestOfCtrl c ⟨Real.tan, Real.arctan⟩ st msg ≠ .ok (j, true)) :
    ∃ r, lateralLimitCtrl c ⟨Real.tan, Real.arctan⟩ st msg = .ok r ∧
      r.ret = msg.withSa (Real.arctan
        (sgn (msg.cmd.linear_velocity ^ 2 * Real.tan msg.cmd.steering_angle / st.wheel_base_)
          * st.lateral_accel_limit_ * st.wheel_base_ / msg.cmd.linear_velocity ^ 2)) ∧
      calcLaccWithSteeringAngle c ⟨Real.tan, Real.arctan⟩ r.state r.ret.cmd.linear_velocity
          r.ret.cmd.steering_angle
        = .ok (some
          (sgn (msg.cmd.linear_velocity ^ 2 * Real.tan msg.cmd.steering_angle / st.wheel_base_)
            * st.lateral_accel_limit_)) := by
  have key := lateralLimitCtrl_lacc_correction_of c ⟨Real.tan, Real.arctan⟩ Real.tan_arctan
    st msg hD hW hinit hlv hwb hdt (by simpa only [ctrlLacc, sq] using hne)
    (by simpa only [ctrlLacc, sq] using hgt) hjerk
  simpa only [ctrlLacc, sq] using key

/-- C5, as amended: on a steering sample that is neither the first nor stopping, with
`|wheel_base_| ≥ MIN_LENGTH` and `|dt| ≥ MIN_DURATION`, for which the jerk correction of
`lateralLimitCtrl` fires on a jerk that is not zero, the returned `steering_angle` is
`atan(tan(sa_prev_.val) + sign * lateral_jerk_limit_ * wheel_base_ / v² * dt)`, and
`calcLjerkWithSteeringAngle` of that output is `sign * lateral_jerk_limit_` exactly, `sign`
being the sign of the jerk that the correction tested. -/
theorem lateralLimitCtrl_ljerk_correction (c : Constants ℝ) (st : State ℝ L)
    (msg : ControlCommandStamped ℝ)
    (hD : 0 < c.MIN_DURATION) (hW : 0 < c.MIN_LENGTH)
    (hinit : st.lateralLimitCtrl_init = true)
    (hlv : c.MIN_LINEAR_X ≤ |msg.cmd.linear_velocity|)
    (hwb : c.MIN_LENGTH ≤ |st.wheel_base_|)
    (hdt : c.MIN_DURATION ≤ |msg.header.stamp - st.sa_prev_.time|)
    (j0 : ℝ) (hfire : ljerkTestOfCtrl c ⟨Real.tan, Real.arctan⟩ st msg = .ok (j0, true))
    (hj0 : j0 ≠ 0) :
    ∃ r, lateralLimitCtrl c ⟨Real.tan, Real.arctan⟩ st msg = .ok r ∧
      r.ret = msg.withSa (Real.arctan (Real.tan st.sa_prev_.val
        + sgn j0 * st.lateral_jerk_limit_ * st.wheel_base_ / msg.cmd.linear_velocity ^ 2
          * (msg.header.stamp - st.sa_prev_.time))) ∧
      calcLjerkWithSteeringAngle c ⟨Real.tan, Real.arctan⟩ r.state r.ret.cmd.linear_velocity
          r.ret.cmd.steering_angle
        = .ok (some (sgn j0 * st.lateral_jerk_limit_)) := by
  obtain ⟨r, hr, hret, hjerk⟩ := lateralLimitCtrl_ljerk_correction_of c
    ⟨Real.tan, Real.arctan⟩ Real.tan_arctan st msg hD hW hinit hlv hwb hdt j0 hfire hj0
  have harg : Real.tan st.sa_prev_.val
      + sgn j0 * (st.lateral_jerk_limit_ * st.wheel_base_
          / (msg.cmd.linear_velocity * msg.cmd.linear_velocity))
        * (msg.header.stamp - st.sa_prev_.time)
      = Real.tan st.sa_prev_.val
        + sgn j0 * st.lateral_jerk_limit_ * st.wheel_base_ / msg.cmd.linear_velocity ^ 2
          * (msg.header.stamp - st.sa_prev_.time) := by
    rw [sq]
    ring
  refine ⟨r, hr, ?_, hjerk⟩
  rw [hret, harg]

/-! ## Claims about first and stopping samples -/

/-- C6: `lateralLimitTwist` and `lateralLimitCtrl` return their input sample, every field
equal, and publish nothing on the limitation-debug topics, whenever the call is the first one
(the static `init` is still false), for any input values, or whenever
`|linear velocity| < MIN_LINEAR_X`, for any previous state, limits, wheelbase and `dt`; a
linear velocity of zero is such a sample as soon as `MIN_LINEAR_X` is positive. -/
theorem lateralLimit_passthrough (c : Constants K) (m : Libm K) (st : State K L)
    (ts : TwistStamped K) (ccs : ControlCommandStamped K) :
    ((st.lateralLimitTwist_init = false ∨ |ts.twist.linear.x| < c.MIN_LINEAR_X ∨
        (0 < c.MIN_LINEAR_X ∧ ts.twist.linear.x = 0)) →
      ∃ r, lateralLimitTwist c st ts = .ok r ∧ r.ret = ts ∧ r.published = []) ∧
    ((st.lateralLimitCtrl_init = false ∨ |ccs.cmd.linear_velocity| < c.MIN_LINEAR_X ∨
        (0 < c.MIN_LINEAR_X ∧ ccs.cmd.linear_velocity = 0)) →
      ∃ r, lateralLimitCtrl c m st ccs = .ok r ∧ r.ret = ccs ∧ r.published = []) := by
  constructor
  · intro h
    have hc : (!(stampTwist st ts).lateralLimitTwist_init
        || decide (|ts.twist.linear.x| < c.MIN_LINEAR_X)) = true := by
      rcases h with h | h | ⟨h, h0⟩
      · simp [h]
      · simp [h]
      · simp [h0, h]
    refine ⟨⟨{ stampTwist st ts with lateralLimitTwist_init := true }, ts, []⟩, ?_, rfl, rfl⟩
    unfold lateralLimitTwist
    simp only [hc, if_true, pure_eq_ok]
  · intro h
    have hc : (!(stampCtrl st ccs).lateralLimitCtrl_init
        || decide (|ccs.cmd.linear_velocity| < c.MIN_LINEAR_X)) = true := by
      rcases h with h | h | ⟨h, h0⟩
      · simp [h]
      · simp [h]
      · simp [h0, h]
    refine ⟨⟨{ stampCtrl st ccs with lateralLimitCtrl_init := true }, ccs, []⟩, ?_, rfl, rfl⟩
    unfold lateralLimitCtrl
    simp only [hc, if_true, pure_eq_ok]

/-! ## Claims about the longitudinal speed limiter -/

theorem abs_longitudinalLimit_le (c : Constants K) (v limit : K)
    (hb : 0 ≤ min limit c.MAX_LONGITUDINAL_VELOCITY_HARDCODED_LIMIT_M_S) :
    |longitudinalLimit c v limit| ≤ min limit c.MAX_LONGITUDINAL_VELOCITY_HARDCODED_LIMIT_M_S := by
  unfold longitudinalLimit
  simp only
  split_ifs with h1 h2
  · exact h1
  · rw [abs_of_nonneg hb]
  · rw [abs_neg, abs_of_nonneg hb]

theorem sgn_longitudinalLimit (c : Constants K) (v limit : K)
    (hb : 0 < min limit c.MAX_LONGITUDINAL_VELOCITY_HARDCODED_LIMIT_M_S) :
    sgn (longitudinalLimit c v limit) = sgn v := by
  unfold longitudinalLimit
  simp only
  split_ifs with h1 h2
  · rfl
  · have hv : 0 < v := by
      rw [abs_of_nonneg h2] at h1
      exact lt_trans hb (not_le.mp h1)
    simp [sgn, hb, hv]
  · have hv : v < 0 := not_le.mp h2
    simp [sgn, hb, hv, not_lt.mpr hb.le, not_lt.mpr hv.le]


/-- C8, as amended: for every input `v` and every configured limit such that
`min(limit, MAX_LONGITUDINAL_VELOCITY_HARDCODED_LIMIT_M_S)` is non-negative, the longitudinal
speed limiter (`longitudinalLimitTwist`, and identically `longitudinalLimitCtrl`) returns a
copy of the message whose linear velocity has magnitude at most that minimum, all other fields
unchanged; when the minimum is positive, the linear velocity returned has the sign of `v`. -/
theorem longitudinalLimit_bounded (c : Constants K) (ts : TwistStamped K)
    (ccs : ControlCommandStamped K) (limit : K)
    (hb : 0 ≤ min limit c.MAX_LONGITUDINAL_VELOCITY_HARDCODED_LIMIT_M_S) :
    (|(longitudinalLimitTwist c ts limit).twist.linear.x|
        ≤ min limit c.MAX_LONGITUDINAL_VELOCITY_HARDCODED_LIMIT_M_S ∧
      (0 < min limit c.MAX_LONGITUDINAL_VELOCITY_HARDCODED_LIMIT_M_S →
        sgn (longitudinalLimitTwist c ts limit).twist.linear.x = sgn ts.twist.linear.x) ∧
      (longitudinalLimitTwist c ts limit).header = ts.header ∧
      (longitudinalLimitTwist c ts limit).twist.linear.y = ts.twist.linear.y ∧
      (longitudinalLimitTwist c ts limit).twist.linear.z = ts.twist.linear.z ∧
      (longitudinalLimitTwist c ts limit).twist.angular = ts.twist.angular) ∧
    (|(longitudinalLimitCtrl c ccs limit).cmd.linear_velocity|
        ≤ min limit c.MAX_LONGITUDINAL_VELOCITY_HARDCODED_LIMIT_M_S ∧
      (0 < min limit c.MAX_LONGITUDINAL_VELOCITY_HARDCODED_LIMIT_M_S →
        sgn (longitudinalLimitCtrl c ccs limit).cmd.linear_velocity
          = sgn ccs.cmd.linear_velocity) ∧
      (longitudinalLimitCtrl c ccs limit).header = ccs.header ∧
      (longitudinalLimitCtrl c ccs limit).cmd.linear_acceleration
        = ccs.cmd.linear_acceleration ∧
      (longitudinalLimitCtrl c ccs limit).cmd.steering_angle = ccs.cmd.steering_angle) :=
  ⟨⟨abs_longitudinalLimit_le c _ limit hb, sgn_longitudinalLimit c _ limit, rfl, rfl, rfl, rfl⟩,
    ⟨abs_longitudinalLimit_le c _ limit hb, sgn_longitudinalLimit c _ limit, rfl, rfl, rfl⟩⟩

/-! ## Claims about the lowpass filter and the smoothing stage -/

theorem Lowpass.output_succ (f : Lowpass K) (x gain : K) (n : Nat) :
    f.output x gain (n + 1) = gain * f.output x gain n + (1 - gain) * x := rfl

theorem Lowpass.output_sub (f : Lowpass K) (x gain : K) (n : Nat) :
    f.output x gain n - x = gain ^ n * (f.y - x) := by
  induction n with
  | zero => simp [Lowpass.output, Lowpass.iterate]
  | succ k ih =>
    rw [Lowpass.output_succ, pow_succ]
    have hk : f.output x gain k = gain ^ k * (f.y - x) + x := by rw [← ih]; ring
    rw [hk]
    ring

theorem Lowpass.abs_output_succ_sub (f : Lowpass K) (x gain : K) (n : Nat) :
    |f.output x gain (n + 1) - x| = |gain| * |f.output x gain n - x| := by
  rw [Lowpass.output_sub, Lowpass.output_sub, pow_succ, ← abs_mul]
  congr 1
  ring

/-- C9, as amended: for every sequence of calls to one lowpass filter made with the same
input `x` and the same gain with `|gain| < 1`, the outputs `y_n` contract towards `x`,
`|y_(n+1) - x| ≤ |y_n - x|` for every `n`, and `y_n` converges to `x`. -/
theorem lowpass_contracts (f : Lowpass ℝ) (x gain : ℝ) (hg : |gain| < 1) :
    (∀ n, |f.output x gain (n + 1) - x| ≤ |f.output x gain n - x|) ∧
    Filter.Tendsto (fun n => f.output x gain n) Filter.atTop (nhds x) := by
  constructor
  · intro n
    rw [Lowpass.abs_output_succ_sub]
    exact mul_le_of_le_one_left (abs_nonneg _) hg.le
  · have hform : (fun n => f.output x gain n) = fun n => gain ^ n * (f.y - x) + x := by
      funext n
      rw [← Lowpass.output_sub]
      ring
    rw [hform]
    have hpow := tendsto_pow_atTop_nhds_zero_of_abs_lt_one hg
    have hlim := (hpow.mul_const (f.y - x)).add_const x
    simpa using hlim

/-- C10: with gain `0`, a call of a lowpass filter returns exactly its input `x`, whatever the
value that the filter stores; consequently `smoothTwist` and `smoothCtrl` with all gains `0`
return their input sample unchanged. -/
theorem lowpass_gain_zero (f : Lowpass K) (x : K) (st : State K L) (ts : TwistStamped K)
    (ccs : ControlCommandStamped K) :
    (f.call x 0).1 = x ∧
    (st.lowpass_gain_linear_x_ = 0 → st.lowpass_gain_angular_z_ = 0 →
      (smoothTwist st ts).ret = ts) ∧
    (st.lowpass_gain_linear_x_ = 0 → st.lowpass_gain_steering_angle_ = 0 →
      (smoothCtrl st ccs).ret = ccs) := by
  refine ⟨by simp [Lowpass.call], ?_, ?_⟩
  · intro hx hz
    simp [smoothTwist, Lowpass.call, hx, hz]
  · intro hx hs
    simp [smoothCtrl, Lowpass.call, hx, hs]


/-! ## The claims at sample inputs -/

/-- The jerk test on the sample of section 8 of the specification (`v = 10`, `az = 1`,
limit `5`), the previous turn rate being `1/2` one second earlier: the jerk is zero. -/
theorem ljerkTestOfTwist_sample :
    ljerkTestOfTwist (sampleConstants : Constants ℚ)
      (sampleState (27 / 10) 5 5 ⟨0, 0, 1 / 2⟩ ⟨0, 0, 0⟩ true) (sampleTwist 1 10 1)
      = .ok (0, false) := by
  rw [ljerkTestOfTwist_ok _ _ _ (by norm_num [sampleConstants])
    (by norm_num [sampleConstants, sampleTwist])
    (by norm_num [sampleConstants, sampleTwist, sampleState])
    (by norm_num [sampleTwist, sampleState])]
  norm_num [twistLjerk, twistAz1, azAfterLacc, sampleTwist, sampleState]

/-- C1 at the sample `v = 10`, `az = 1`, limit `5`. -/
theorem lateralLimitTwist_lacc_within_limit_witness :
    ∃ r lacc, lateralLimitTwist (sampleConstants : Constants ℚ)
        (sampleState (27 / 10) 5 5 ⟨0, 0, 1 / 2⟩ ⟨0, 0, 0⟩ true) (sampleTwist 1 10 1) = .ok r ∧
      calcLaccWithAngularZ r.ret.twist.linear.x r.ret.twist.angular.z = some lacc ∧
      lacc = r.ret.twist.angular.z * (sampleTwist 1 10 1 : TwistStamped ℚ).twist.linear.x ∧
      |lacc| ≤ (sampleState (27 / 10) 5 5 ⟨0, 0, 1 / 2⟩ ⟨0, 0, 0⟩ true
        : State ℚ Unit).lateral_accel_limit_ :=
  lateralLimitTwist_lacc_within_limit sampleConstants _ _
    (by norm_num [sampleConstants]) rfl
    (by norm_num [sampleConstants, sampleTwist])
    (by norm_num [sampleConstants, sampleTwist, sampleState])
    (by norm_num [sampleState])
    (by rw [ljerkTestOfTwist_sample]; simp)


/-- C2 as stated fails at two samples that are neither first nor stopping, whose raw lateral
acceleration exceeds the limit in magnitude and for which the jerk correction does not fire.
At the first (`v = 10`, `az = 1`, limit `5`, `dt = 0`) the jerk is undefined and
`lateralLimitTwist` calls `get()` on `boost::none`; at the second (`v = 1`, `az = 0`, limit
`-1`, `dt = 1`) the sign quotient is evaluated on the lateral acceleration `0`.  Neither run
returns a sample. -/
theorem lateralLimitTwist_lacc_correction_fails :
    ((sampleState (27 / 10) 5 5 ⟨0, 0, 0⟩ ⟨0, 0, 0⟩ true : State ℚ Unit).lateralLimitTwist_init
        = true ∧
      ¬ |(sampleTwist 0 10 1 : TwistStamped ℚ).twist.linear.x|
        < (sampleConstants : Constants ℚ).MIN_LINEAR_X ∧
      |(sampleTwist 0 10 1 : TwistStamped ℚ).twist.angular.z
        * (sampleTwist 0 10 1 : TwistStamped ℚ).twist.linear.x| > 5 ∧
      ljerkTestOfTwist (sampleConstants : Constants ℚ)
        (sampleState (27 / 10) 5 5 ⟨0, 0, 0⟩ ⟨0, 0, 0⟩ true) (sampleTwist 0 10 1)
        = .error .emptyOptional ∧
      lateralLimitTwist (sampleConstants : Constants ℚ)
        (sampleState (27 / 10) 5 5 ⟨0, 0, 0⟩ ⟨0, 0, 0⟩ true) (sampleTwist 0 10 1)
        = .error .emptyOptional) ∧
    ((sampleState (27 / 10) (-1) 5 ⟨0, 0, 0⟩ ⟨0, 0, 0⟩ true
        : State ℚ Unit).lateralLimitTwist_init = true ∧
      ¬ |(sampleTwist 1 1 0 : TwistStamped ℚ).twist.linear.x|
        < (sampleConstants : Constants ℚ).MIN_LINEAR_X ∧
      |(sampleTwist 1 1 0 : TwistStamped ℚ).twist.angular.z
        * (sampleTwist 1 1 0 : TwistStamped ℚ).twist.linear.x| > -1 ∧
      ljerkTestOfTwist (sampleConstants : Constants ℚ)
        (sampleState (27 / 10) (-1) 5 ⟨0, 0, 0⟩ ⟨0, 0, 0⟩ true) (sampleTwist 1 1 0)
        = .error .zeroDivisor ∧
      lateralLimitTwist (sampleConstants : Constants ℚ)
        (sampleState (27 / 10) (-1) 5 ⟨0, 0, 0⟩ ⟨0, 0, 0⟩ true) (sampleTwist 1 1 0)
        = .error .zeroDivisor) := by
  refine ⟨⟨rfl, ?_, ?_, ?_, ?_⟩, ⟨rfl, ?_, ?_, ?_, ?_⟩⟩
  · norm_num [sampleConstants, sampleTwist]
  · norm_num [sampleTwist]
  · simp [ljerkTestOfTwist, limitLaccTwist, ljerkTestTwist, calcLaccWithAngularZ,
      calcLjerkWithAngularZ, get, divide, stampTwist, sampleConstants, sampleState, sampleTwist]
    norm_num
  · simp [lateralLimitTwist, limitLaccTwist, limitLjerkTwist, ljerkTestTwist,
      calcLaccWithAngularZ, calcLjerkWithAngularZ, get, divide, stampTwist, sampleConstants,
      sampleState, sampleTwist]
    norm_num
  · norm_num [sampleConstants, sampleTwist]
  · norm_num [sampleTwist]
  · simp [ljerkTestOfTwist, limitLaccTwist, ljerkTestTwist, calcLaccWithAngularZ,
      calcLjerkWithAngularZ, get, divide, stampTwist, sampleConstants, sampleState, sampleTwist]
    norm_num
  · simp [lateralLimitTwist, limitLaccTwist, limitLjerkTwist, ljerkTestTwist,
      calcLaccWithAngularZ, calcLjerkWithAngularZ, get, divide, stampTwist, sampleConstants,
      sampleState, sampleTwist]
    norm_num

/-- C2 as amended, at the sample of section 8 of the specification: `v = 10`, `az = 1` and
limit `5` give `az = 1/2`, that is lateral acceleration `5`, with the linear velocity and the
timestamp of the input. -/
theorem lateralLimitTwist_lacc_correction_witness :
    ∃ r, lateralLimitTwist (sampleConstants : Constants ℚ)
        (sampleState (27 / 10) 5 5 ⟨0, 0, 1 / 2⟩ ⟨0, 0, 0⟩ true) (sampleTwist 1 10 1) = .ok r ∧
      r.ret.twist.angular.z = 1 / 2 ∧
      calcLaccWithAngularZ r.ret.twist.linear.x r.ret.twist.angular.z = some 5 ∧
      r.ret.twist.linear.x = 10 ∧ r.ret.header.stamp = 1 := by
  obtain ⟨r, hr, hret, hlacc, hlv, hstamp⟩ :=
    lateralLimitTwist_lacc_correction (sampleConstants : Constants ℚ)
      (sampleState (27 / 10) 5 5 ⟨0, 0, 1 / 2⟩ ⟨0, 0, 0⟩ true) (sampleTwist 1 10 1)
      (by norm_num [sampleConstants]) rfl
      (by norm_num [sampleConstants, sampleTwist])
      (by norm_num [sampleConstants, sampleTwist, sampleState])
      (by norm_num [sampleTwist])
      (by norm_num [sampleTwist, sampleState])
      (by intro j; rw [ljerkTestOfTwist_sample]; simp)
  refine ⟨r, hr, ?_, ?_, hlv, hstamp⟩
  · rw [hret]
    norm_num [TwistStamped.withAz, sampleTwist, sampleState, sgn]
  · rw [hlacc]
    norm_num [sampleTwist, sampleState, sgn]

/-- C4 as stated fails at a sample that is neither first nor stopping, with `dt = 1`,
`lateral_jerk_limit_ = 5`, `lateral_accel_limit_ = -1`, `v = 1` and `az = 0`: the acceleration
correction fires on the lateral acceleration `0`, the sign quotient has divisor zero, and no
sample with a lateral jerk within the limit is returned. -/
theorem lateralLimitTwist_ljerk_within_limit_fails :
    (sampleState (27 / 10) (-1) 5 ⟨0, 0, 0⟩ ⟨0, 0, 0⟩ true
        : State ℚ Unit).lateralLimitTwist_init = true ∧
    ¬ |(sampleTwist 1 1 0 : TwistStamped ℚ).twist.linear.x|
      < (sampleConstants : Constants ℚ).MIN_LINEAR_X ∧
    (sampleConstants : Constants ℚ).MIN_DURATION
      ≤ |(sampleTwist 1 1 0 : TwistStamped ℚ).header.stamp
        - (sampleState (27 / 10) (-1) 5 ⟨0, 0, 0⟩ ⟨0, 0, 0⟩ true : State ℚ Unit).az_prev_.time| ∧
    0 ≤ (sampleState (27 / 10) (-1) 5 ⟨0, 0, 0⟩ ⟨0, 0, 0⟩ true
        : State ℚ Unit).lateral_jerk_limit_ ∧
    lateralLimitTwist (sampleConstants : Constants ℚ)
      (sampleState (27 / 10) (-1) 5 ⟨0, 0, 0⟩ ⟨0, 0, 0⟩ true) (sampleTwist 1 1 0)
      = .error .zeroDivisor := by
  refine ⟨rfl, ?_, ?_, ?_, ?_⟩
  · norm_num [sampleConstants, sampleTwist]
  · norm_num [sampleConstants, sampleTwist, sampleState]
  · norm_num [sampleState]
  · simp [lateralLimitTwist, limitLaccTwist, limitLjerkTwist, ljerkTestTwist,
      calcLaccWithAngularZ, calcLjerkWithAngularZ, get, divide, stampTwist, sampleConstants,
      sampleState, sampleTwist]
    norm_num

/-- C4 as amended, at a sample on which both corrections fire: previous turn rate `10`,
`dt = 1/10`, `v = 1`, `az = 10`, both limits `5`.  The jerk tested is `-50` and the returned
sample has the lateral jerk `-5`. -/
theorem lateralLimitTwist_ljerk_within_limit_witness :
    ∃ r ljerk, ljerkTestOfTwist (sampleConstants : Constants ℚ)
        (sampleState (27 / 10) 5 5 ⟨0, 0, 10⟩ ⟨0, 0, 0⟩ true) (sampleTwist (1 / 10) 1 10)
        = .ok (-50, true) ∧
      lateralLimitTwist (sampleConstants : Constants ℚ)
        (sampleState (27 / 10) 5 5 ⟨0, 0, 10⟩ ⟨0, 0, 0⟩ true) (sampleTwist (1 / 10) 1 10)
        = .ok r ∧
      calcLjerkWithAngularZ (sampleConstants : Constants ℚ) r.state r.ret.twist.linear.x
        r.ret.twist.angular.z = .ok (some ljerk) ∧
      |ljerk| ≤ 5 ∧ ljerk = -5 := by
  obtain ⟨r, j0, fires, ljerk, htest, hr, hcalc, -, hle, hfire⟩ :=
    lateralLimitTwist_ljerk_within_limit (sampleConstants : Constants ℚ)
      (sampleState (27 / 10) 5 5 ⟨0, 0, 10⟩ ⟨0, 0, 0⟩ true) (sampleTwist (1 / 10) 1 10)
      (by norm_num [sampleConstants]) rfl
      (by norm_num [sampleConstants, sampleTwist])
      (by norm_num [sampleConstants, sampleTwist, sampleState, abs_of_pos])
      (by norm_num [sampleState])
      (Or.inl (by norm_num [sampleState]))
  have hval : ljerkTestOfTwist (sampleConstants : Constants ℚ)
      (sampleState (27 / 10) 5 5 ⟨0, 0, 10⟩ ⟨0, 0, 0⟩ true) (sampleTwist (1 / 10) 1 10)
      = .ok (-50, true) := by
    rw [ljerkTestOfTwist_ok _ _ _ (by norm_num [sampleConstants])
      (by norm_num [sampleConstants, sampleTwist])
      (by norm_num [sampleConstants, sampleTwist, sampleState, abs_of_pos])
      (by norm_num [sampleTwist, sampleState])]
    norm_num [twistLjerk, twistAz1, azAfterLacc, sampleTwist, sampleState]
  rw [hval] at htest
  have hpair := Except.ok.inj htest
  have hj0 : j0 = -50 := (congrArg Prod.fst hpair).symm
  have hf : fires = true := (congrArg Prod.snd hpair).symm
  refine ⟨r, ljerk, hval, hr, hcalc, hle, ?_⟩
  rw [hfire hf, hj0]
  norm_num [sgn, sampleState]


/-! ## The steering channel at sample inputs -/

theorem tan_three_tenths : (3 / 10 : ℝ) < Real.tan (3 / 10) := by
  apply Real.lt_tan (by norm_num)
  have hpi := Real.pi_gt_three
  linarith

/-- The raw lateral acceleration of the sample of section 8 of the specification (`v = 5`,
wheelbase `2.7`, `sa = 0.3`) exceeds `2`. -/
theorem ctrlLacc_sample :
    (2 : ℝ) < (5 : ℝ) ^ 2 * Real.tan (3 / 10) / (27 / 10) := by
  have h := tan_three_tenths
  rw [lt_div_iff₀ (by norm_num)]
  nlinarith

/-- C3 as stated fails at a steering sample that is neither first nor stopping, with
wheelbase `2.7`, `dt = 1`, `v = 5`, `sa = 0` and `lateral_accel_limit_ = -1`: the lateral
acceleration `0` exceeds the limit in magnitude, the jerk correction does not fire, the sign
quotient has divisor zero and no steering angle is returned. -/
theorem lateralLimitCtrl_lacc_correction_fails :
    (sampleState (27 / 10) (-1) 5 ⟨0, 0, 0⟩ ⟨0, 0, 0⟩ true
        : State ℝ Unit).lateralLimitCtrl_init = true ∧
    ¬ |(sampleCtrl 1 5 0 : ControlCommandStamped ℝ).cmd.linear_velocity|
      < (sampleConstants : Constants ℝ).MIN_LINEAR_X ∧
    (sampleConstants : Constants ℝ).MIN_LENGTH
      ≤ |(sampleState (27 / 10) (-1) 5 ⟨0, 0, 0⟩ ⟨0, 0, 0⟩ true : State ℝ Unit).wheel_base_| ∧
    (sampleConstants : Constants ℝ).MIN_DURATION
      ≤ |(sampleCtrl 1 5 0 : ControlCommandStamped ℝ).header.stamp
        - (sampleState (27 / 10) (-1) 5 ⟨0, 0, 0⟩ ⟨0, 0, 0⟩ true : State ℝ Unit).sa_prev_.time| ∧
    |(5 : ℝ) ^ 2 * Real.tan 0 / (27 / 10)| > -1 ∧
    ljerkTestOfCtrl (sampleConstants : Constants ℝ) ⟨Real.tan, Real.arctan⟩
      (sampleState (27 / 10) (-1) 5 ⟨0, 0, 0⟩ ⟨0, 0, 0⟩ true) (sampleCtrl 1 5 0)
      = .error .zeroDivisor ∧
    lateralLimitCtrl (sampleConstants : Constants ℝ) ⟨Real.tan, Real.arctan⟩
      (sampleState (27 / 10) (-1) 5 ⟨0, 0, 0⟩ ⟨0, 0, 0⟩ true) (sampleCtrl 1 5 0)
      = .error .zeroDivisor := by
  refine ⟨rfl, ?_, ?_, ?_, ?_, ?_, ?_⟩
  · norm_num [sampleConstants, sampleCtrl]
  · norm_num [sampleConstants, sampleState, abs_of_pos]
  · norm_num [sampleConstants, sampleCtrl, sampleState]
  · norm_num [Real.tan_zero]
  · simp [ljerkTestOfCtrl, limitLaccCtrl, ljerkTestCtrl, calcLaccWithSteeringAngle,
      calcLjerkWithSteeringAngle, get, divide, stampCtrl, sampleConstants, sampleState,
      sampleCtrl, Real.tan_zero]
    norm_num [abs_of_pos]
  · simp [lateralLimitCtrl, limitLaccCtrl, limitLjerkCtrl, ljerkTestCtrl,
      calcLaccWithSteeringAngle, calcLjerkWithSteeringAngle, get, divide, stampCtrl,
      sampleConstants, sampleState, sampleCtrl, Real.tan_zero]
    norm_num [abs_of_pos]

/-- C3 as amended, at the sample of section 8 of the specification: `v = 5`, wheelbase
`2.7`, `sa = 0.3` and limit `2.0` give `sa = atan(2.0 * 2.7 / 25)`, whose lateral
acceleration is `2`; the previous steering angle is that same angle, one second earlier. -/
theorem lateralLimitCtrl_lacc_correction_witness :
    ∃ r, lateralLimitCtrl (sampleConstants : Constants ℝ) ⟨Real.tan, Real.arctan⟩
        (sampleState (27 / 10) 2 5 ⟨0, 0, 0⟩ ⟨0, 0, Real.arctan (2 * (27 / 10) / 25)⟩ true)
        (sampleCtrl 1 5 (3 / 10)) = .ok r ∧
      r.ret.cmd.steering_angle = Real.arctan (2 * (27 / 10) / 25) ∧
      calcLaccWithSteeringAngle (sampleConstants : Constants ℝ) ⟨Real.tan, Real.arctan⟩
        r.state r.ret.cmd.linear_velocity r.ret.cmd.steering_angle = .ok (some 2) := by
  have hlacc := ctrlLacc_sample
  have hpos : (0 : ℝ) < (5 : ℝ) ^ 2 * Real.tan (3 / 10) / (27 / 10) := by linarith
  have hD : 0 < (sampleConstants : Constants ℝ).MIN_DURATION := by norm_num [sampleConstants]
  have hW : 0 < (sampleConstants : Constants ℝ).MIN_LENGTH := by norm_num [sampleConstants]
  have hlv : (sampleConstants : Constants ℝ).MIN_LINEAR_X
      ≤ |(sampleCtrl 1 5 (3 / 10) : ControlCommandStamped ℝ).cmd.linear_velocity| := by
    norm_num [sampleConstants, sampleCtrl]
  have hwb : (sampleConstants : Constants ℝ).MIN_LENGTH
      ≤ |(sampleState (27 / 10) 2 5 ⟨0, 0, 0⟩ ⟨0, 0, Real.arctan (2 * (27 / 10) / 25)⟩ true
        : State ℝ Unit).wheel_base_| := by
    norm_num [sampleConstants, sampleState, abs_of_pos]
  have hdt : (sampleConstants : Constants ℝ).MIN_DURATION
      ≤ |(sampleCtrl 1 5 (3 / 10) : ControlCommandStamped ℝ).header.stamp
        - (sampleState (27 / 10) 2 5 ⟨0, 0, 0⟩ ⟨0, 0, Real.arctan (2 * (27 / 10) / 25)⟩ true
          : State ℝ Unit).sa_prev_.time| := by
    norm_num [sampleConstants, sampleCtrl, sampleState]
  have hne : (sampleCtrl 1 5 (3 / 10) : ControlCommandStamped ℝ).cmd.linear_velocity ^ 2
      * Real.tan (sampleCtrl 1 5 (3 / 10) : ControlCommandStamped ℝ).cmd.steering_angle
      / (sampleState (27 / 10) 2 5 ⟨0, 0, 0⟩ ⟨0, 0, Real.arctan (2 * (27 / 10) / 25)⟩ true
          : State ℝ Unit).wheel_base_ ≠ 0 := ne_of_gt hpos
  have hgt : |(sampleCtrl 1 5 (3 / 10) : ControlCommandStamped ℝ).cmd.linear_velocity ^ 2
      * Real.tan (sampleCtrl 1 5 (3 / 10) : ControlCommandStamped ℝ).cmd.steering_angle
      / (sampleState (27 / 10) 2 5 ⟨0, 0, 0⟩ ⟨0, 0, Real.arctan (2 * (27 / 10) / 25)⟩ true
          : State ℝ Unit).wheel_base_|
      > (sampleState (27 / 10) 2 5 ⟨0, 0, 0⟩ ⟨0, 0, Real.arctan (2 * (27 / 10) / 25)⟩ true
          : State ℝ Unit).lateral_accel_limit_ := by
    show (2 : ℝ) < |(5 : ℝ) ^ 2 * Real.tan (3 / 10) / (27 / 10)|
    rw [abs_of_pos hpos]
    exact hlacc
  have hsgn : sgn ((5 : ℝ) ^ 2 * Real.tan (3 / 10) / (27 / 10)) = 1 := by
    rw [sgn, if_pos hpos]
  have hctrl : ctrlLacc ⟨Real.tan, Real.arctan⟩
      (sampleState (27 / 10) 2 5 ⟨0, 0, 0⟩ ⟨0, 0, Real.arctan (2 * (27 / 10) / 25)⟩ true
        : State ℝ Unit) (sampleCtrl 1 5 (3 / 10)) (3 / 10)
      = (5 : ℝ) ^ 2 * Real.tan (3 / 10) / (27 / 10) := by
    simp [ctrlLacc, sampleCtrl, sampleState, sq]
  have hjerk : ∀ j, ljerkTestOfCtrl (sampleConstants : Constants ℝ) ⟨Real.tan, Real.arctan⟩
      (sampleState (27 / 10) 2 5 ⟨0, 0, 0⟩ ⟨0, 0, Real.arctan (2 * (27 / 10) / 25)⟩ true)
      (sampleCtrl 1 5 (3 / 10)) ≠ .ok (j, true) := by
    intro j
    rw [ljerkTestOfCtrl_ok _ _ _ _ hD hW hlv hwb hdt
      (fun _ => by rw [show (sampleCtrl 1 5 (3 / 10) : ControlCommandStamped ℝ).cmd.steering_angle
        = 3 / 10 from rfl, hctrl]; exact ne_of_gt hpos)]
    have hsa : ctrlSa1 ⟨Real.tan, Real.arctan⟩
        (sampleState (27 / 10) 2 5 ⟨0, 0, 0⟩ ⟨0, 0, Real.arctan (2 * (27 / 10) / 25)⟩ true
          : State ℝ Unit) (sampleCtrl 1 5 (3 / 10))
        = Real.arctan (2 * (27 / 10) / 25) := by
      rw [ctrlSa1, show (sampleCtrl 1 5 (3 / 10) : ControlCommandStamped ℝ).cmd.steering_angle
        = 3 / 10 from rfl, hctrl, if_pos (by rw [abs_of_pos hpos]; exact hlacc),
        abs_of_pos hpos, div_self (ne_of_gt hpos)]
      norm_num [sampleState, sampleCtrl]
    rw [hsa]
    simp [ctrlLjerk, sampleState, sampleCtrl]
  obtain ⟨r, hr, hret, hval⟩ := lateralLimitCtrl_lacc_correction (sampleConstants : Constants ℝ)
    (sampleState (27 / 10) 2 5 ⟨0, 0, 0⟩ ⟨0, 0, Real.arctan (2 * (27 / 10) / 25)⟩ true)
    (sampleCtrl 1 5 (3 / 10)) hD hW rfl hlv hwb hdt hne hgt hjerk
  refine ⟨r, hr, ?_, ?_⟩
  · rw [hret]
    show Real.arctan (sgn ((5 : ℝ) ^ 2 * Real.tan (3 / 10) / (27 / 10)) * 2 * (27 / 10)
      / (5 : ℝ) ^ 2) = _
    rw [hsgn]
    norm_num
  · rw [hval]
    show Except.ok (some (sgn ((5 : ℝ) ^ 2 * Real.tan (3 / 10) / (27 / 10)) * 2)) = _
    rw [hsgn, one_mul]


/-- C5 as stated fails at a steering sample that is neither first nor stopping, with
wheelbase `2.7`, `dt = 1`, `v = 5`, `sa = 0`, previous steering angle `0` and
`lateral_jerk_limit_ = -1`: the jerk correction fires on the lateral jerk `0`, the sign
quotient has divisor zero and no steering angle is returned. -/
theorem lateralLimitCtrl_ljerk_correction_fails :
    (sampleState (27 / 10) 100 (-1) ⟨0, 0, 0⟩ ⟨0, 0, 0⟩ true
        : State ℝ Unit).lateralLimitCtrl_init = true ∧
    ¬ |(sampleCtrl 1 5 0 : ControlCommandStamped ℝ).cmd.linear_velocity|
      < (sampleConstants : Constants ℝ).MIN_LINEAR_X ∧
    (sampleConstants : Constants ℝ).MIN_LENGTH
      ≤ |(sampleState (27 / 10) 100 (-1) ⟨0, 0, 0⟩ ⟨0, 0, 0⟩ true : State ℝ Unit).wheel_base_| ∧
    (sampleConstants : Constants ℝ).MIN_DURATION
      ≤ |(sampleCtrl 1 5 0 : ControlCommandStamped ℝ).header.stamp
        - (sampleState (27 / 10) 100 (-1) ⟨0, 0, 0⟩ ⟨0, 0, 0⟩ true
          : State ℝ Unit).sa_prev_.time| ∧
    ljerkTestOfCtrl (sampleConstants : Constants ℝ) ⟨Real.tan, Real.arctan⟩
      (sampleState (27 / 10) 100 (-1) ⟨0, 0, 0⟩ ⟨0, 0, 0⟩ true) (sampleCtrl 1 5 0)
      = .ok (0, true) ∧
    lateralLimitCtrl (sampleConstants : Constants ℝ) ⟨Real.tan, Real.arctan⟩
      (sampleState (27 / 10) 100 (-1) ⟨0, 0, 0⟩ ⟨0, 0, 0⟩ true) (sampleCtrl 1 5 0)
      = .error .zeroDivisor := by
  refine ⟨rfl, ?_, ?_, ?_, ?_, ?_⟩
  · norm_num [sampleConstants, sampleCtrl]
  · norm_num [sampleConstants, sampleState, abs_of_pos]
  · norm_num [sampleConstants, sampleCtrl, sampleState]
  · simp [ljerkTestOfCtrl, limitLaccCtrl, ljerkTestCtrl, calcLaccWithSteeringAngle,
      calcLjerkWithSteeringAngle, get, divide, stampCtrl, sampleConstants, sampleState,
      sampleCtrl, Real.tan_zero]
    norm_num [abs_of_pos]
  · simp [lateralLimitCtrl, limitLaccCtrl, limitLjerkCtrl, ljerkTestCtrl,
      calcLaccWithSteeringAngle, calcLjerkWithSteeringAngle, get, divide, stampCtrl,
      sampleConstants, sampleState, sampleCtrl, Real.tan_zero]
    norm_num [abs_of_pos]

/-- The jerk test on a steering sample with `v = 5`, `sa = atan 1`, wheelbase `2.7`, previous
steering angle `0` one second earlier and limits `100` and `5`: the jerk is `250 / 27` and
the correction fires. -/
theorem ljerkTestOfCtrl_sample :
    ljerkTestOfCtrl (sampleConstants : Constants ℝ) ⟨Real.tan, Real.arctan⟩
      (sampleState (27 / 10) 100 5 ⟨0, 0, 0⟩ ⟨0, 0, 0⟩ true) (sampleCtrl 1 5 (Real.arctan 1))
      = .ok (250 / 27, true) := by
  simp [ljerkTestOfCtrl, limitLaccCtrl, ljerkTestCtrl, calcLaccWithSteeringAngle,
    calcLjerkWithSteeringAngle, get, divide, stampCtrl, sampleConstants, sampleState,
    sampleCtrl, Real.tan_zero, Real.tan_arctan]
  norm_num [abs_of_pos]

/-- C5 as amended, at a sample on which the jerk correction fires: `v = 5`, `sa = atan 1`,
wheelbase `2.7`, previous steering angle `0` one second earlier, jerk limit `5`.  The
returned steering angle is `atan(5 * 2.7 / 25)` and its lateral jerk is `5`. -/
theorem lateralLimitCtrl_ljerk_correction_witness :
    ∃ r, lateralLimitCtrl (sampleConstants : Constants ℝ) ⟨Real.tan, Real.arctan⟩
        (sampleState (27 / 10) 100 5 ⟨0, 0, 0⟩ ⟨0, 0, 0⟩ true) (sampleCtrl 1 5 (Real.arctan 1))
        = .ok r ∧
      r.ret.cmd.steering_angle = Real.arctan (5 * (27 / 10) / 25) ∧
      calcLjerkWithSteeringAngle (sampleConstants : Constants ℝ) ⟨Real.tan, Real.arctan⟩
        r.state r.ret.cmd.linear_velocity r.ret.cmd.steering_angle = .ok (some 5) := by
  obtain ⟨r, hr, hret, hval⟩ := lateralLimitCtrl_ljerk_correction
    (sampleConstants : Constants ℝ)
    (sampleState (27 / 10) 100 5 ⟨0, 0, 0⟩ ⟨0, 0, 0⟩ true) (sampleCtrl 1 5 (Real.arctan 1))
    (by norm_num [sampleConstants]) (by norm_num [sampleConstants]) rfl
    (by norm_num [sampleConstants, sampleCtrl])
    (by norm_num [sampleConstants, sampleState, abs_of_pos])
    (by norm_num [sampleConstants, sampleCtrl, sampleState])
    (250 / 27) ljerkTestOfCtrl_sample (by norm_num)
  have hsgn : sgn (250 / 27 : ℝ) = 1 := by norm_num [sgn]
  refine ⟨r, hr, ?_, ?_⟩
  · rw [hret, hsgn]
    simp [ControlCommandStamped.withSa, sampleState, sampleCtrl, Real.tan_zero]
    norm_num
  · rw [hval, hsgn]
    simp [sampleState]

/-! ## First and stopping samples, and undefined estimates, at sample inputs -/

/-- C6 at two samples: a first turn-rate sample with `v = 10` and `az = 100`, and a steering
sample with `v = 0` that is not the first. -/
theorem lateralLimit_passthrough_witness :
    (∃ r, lateralLimitTwist (sampleConstants : Constants ℝ)
        (sampleState (27 / 10) 5 5 ⟨0, 0, 0⟩ ⟨0, 0, 0⟩ false) (sampleTwist 1 10 100) = .ok r ∧
      r.ret = sampleTwist 1 10 100 ∧ r.published = []) ∧
    (∃ r, lateralLimitCtrl (sampleConstants : Constants ℝ) ⟨Real.tan, Real.arctan⟩
        (sampleState (27 / 10) 5 5 ⟨0, 0, 0⟩ ⟨0, 0, 0⟩ true) (sampleCtrl 1 0 1) = .ok r ∧
      r.ret = sampleCtrl 1 0 1 ∧ r.published = []) :=
  ⟨(lateralLimit_passthrough (sampleConstants : Constants ℝ) ⟨Real.tan, Real.arctan⟩
      (sampleState (27 / 10) 5 5 ⟨0, 0, 0⟩ ⟨0, 0, 0⟩ false) (sampleTwist 1 10 100)
      (sampleCtrl 1 0 1)).1 (Or.inl rfl),
   (lateralLimit_passthrough (sampleConstants : Constants ℝ) ⟨Real.tan, Real.arctan⟩
      (sampleState (27 / 10) 5 5 ⟨0, 0, 0⟩ ⟨0, 0, 0⟩ true) (sampleTwist 1 10 100)
      (sampleCtrl 1 0 1)).2 (Or.inr (Or.inr ⟨by norm_num [sampleConstants], rfl⟩))⟩

/-- C7: the code at two samples that are neither first nor stopping.  On the turn-rate sample
`dt = 0 < MIN_DURATION`, the jerk is undefined and `lateralLimitTwist` calls `get()` on it
(line 201); on the steering sample the wheelbase is `0 < MIN_LENGTH`, the lateral
acceleration is undefined and `lateralLimitCtrl` calls `get()` on it (line 268).  Neither run
returns a sample. -/
theorem lateralLimit_get_on_none :
    calcLjerkWithAngularZ (sampleConstants : Constants ℝ)
      (stampTwist (sampleState (27 / 10) 5 5 ⟨1, 0, 0⟩ ⟨1, 0, 0⟩ true : State ℝ Unit)
        (sampleTwist 1 1 0)) 1 0 = .ok none ∧
    lateralLimitTwist (sampleConstants : Constants ℝ)
      (sampleState (27 / 10) 5 5 ⟨1, 0, 0⟩ ⟨1, 0, 0⟩ true) (sampleTwist 1 1 0)
      = .error .emptyOptional ∧
    calcLaccWithSteeringAngle (sampleConstants : Constants ℝ) ⟨Real.tan, Real.arctan⟩
      (stampCtrl (sampleState 0 5 5 ⟨0, 0, 0⟩ ⟨0, 0, 0⟩ true : State ℝ Unit)
        (sampleCtrl 1 5 0)) 5 0 = .ok none ∧
    lateralLimitCtrl (sampleConstants : Constants ℝ) ⟨Real.tan, Real.arctan⟩
      (sampleState 0 5 5 ⟨0, 0, 0⟩ ⟨0, 0, 0⟩ true) (sampleCtrl 1 5 0)
      = .error .emptyOptional := by
  refine ⟨?_, ?_, ?_, ?_⟩
  · simp [calcLjerkWithAngularZ, stampTwist, sampleConstants, sampleState, sampleTwist]
  · simp [lateralLimitTwist, limitLaccTwist, limitLjerkTwist, ljerkTestTwist,
      calcLaccWithAngularZ, calcLjerkWithAngularZ, get, divide, stampTwist, sampleConstants,
      sampleState, sampleTwist]
    norm_num
  · simp [calcLaccWithSteeringAngle, stampCtrl, sampleConstants, sampleState, sampleCtrl]
  · simp [lateralLimitCtrl, limitLaccCtrl, limitLjerkCtrl, ljerkTestCtrl,
      calcLaccWithSteeringAngle, calcLjerkWithSteeringAngle, get, divide, stampCtrl,
      sampleConstants, sampleState, sampleCtrl]
    norm_num


/-! ## The longitudinal speed limiter and the lowpass filter at sample inputs -/

/-- C8 as stated fails for configured limits that are not positive.  With the limit `0` and
`v = 1` the returned velocity is `0`, whose sign is not the sign of `v`; with the limit `-1`
no magnitude is at most `min(limit, hardcoded limit) = -1`. -/
theorem longitudinalLimit_bounded_fails :
    ¬ (|(longitudinalLimitTwist (sampleConstants : Constants ℚ) (sampleTwist 0 1 0) 0).twist.linear.x|
          ≤ min 0 (sampleConstants : Constants ℚ).MAX_LONGITUDINAL_VELOCITY_HARDCODED_LIMIT_M_S ∧
        sgn (longitudinalLimitTwist (sampleConstants : Constants ℚ) (sampleTwist 0 1 0) 0).twist.linear.x
          = sgn (sampleTwist 0 1 0 : TwistStamped ℚ).twist.linear.x) ∧
    ¬ |(longitudinalLimitTwist (sampleConstants : Constants ℚ) (sampleTwist 0 1 0) (-1)).twist.linear.x|
        ≤ min (-1) (sampleConstants : Constants ℚ).MAX_LONGITUDINAL_VELOCITY_HARDCODED_LIMIT_M_S := by
  constructor
  · norm_num [longitudinalLimitTwist, longitudinalLimit, sampleConstants, sampleTwist, sgn]
  · norm_num [longitudinalLimitTwist, longitudinalLimit, sampleConstants, sampleTwist]

/-- C8 as amended, at the limit `20`: the velocities `50` and `-50` are limited to a
magnitude of at most `min(20, 35)`, and keep their sign. -/
theorem longitudinalLimit_bounded_witness :
    (|(longitudinalLimitTwist (sampleConstants : Constants ℚ) (sampleTwist 0 50 0) 20).twist.linear.x|
        ≤ min 20 (sampleConstants : Constants ℚ).MAX_LONGITUDINAL_VELOCITY_HARDCODED_LIMIT_M_S ∧
      sgn (longitudinalLimitTwist (sampleConstants : Constants ℚ) (sampleTwist 0 50 0) 20).twist.linear.x
        = sgn (sampleTwist 0 50 0 : TwistStamped ℚ).twist.linear.x) ∧
    (|(longitudinalLimitCtrl (sampleConstants : Constants ℚ) (sampleCtrl 0 (-50) 0) 20).cmd.linear_velocity|
        ≤ min 20 (sampleConstants : Constants ℚ).MAX_LONGITUDINAL_VELOCITY_HARDCODED_LIMIT_M_S ∧
      sgn (longitudinalLimitCtrl (sampleConstants : Constants ℚ) (sampleCtrl 0 (-50) 0) 20).cmd.linear_velocity
        = sgn (sampleCtrl 0 (-50) 0 : ControlCommandStamped ℚ).cmd.linear_velocity) :=
  have h := longitudinalLimit_bounded (sampleConstants : Constants ℚ) (sampleTwist 0 50 0)
    (sampleCtrl 0 (-50) 0) 20 (by norm_num [sampleConstants])
  ⟨⟨h.1.1, h.1.2.1 (by norm_num [sampleConstants])⟩,
    ⟨h.2.1, h.2.2.1 (by norm_num [sampleConstants])⟩⟩

/-- C9 as stated fails for the gain `-2 < 1`: a fresh filter called with the input `1`
returns `3`, then `-3`, and the second output is farther from the input than the first. -/
theorem lowpass_contracts_fails :
    (-2 : ℚ) < 1 ∧
    (lowpass_filter : Lowpass ℚ).output 1 (-2) 1 = 3 ∧
    (lowpass_filter : Lowpass ℚ).output 1 (-2) 2 = -3 ∧
    ¬ |(lowpass_filter : Lowpass ℚ).output 1 (-2) 2 - 1|
      ≤ |(lowpass_filter : Lowpass ℚ).output 1 (-2) 1 - 1| := by
  refine ⟨by norm_num, ?_, ?_, ?_⟩ <;>
    norm_num [Lowpass.output, Lowpass.iterate, Lowpass.call, lowpass_filter]

/-- C9 as amended, at the gain `1/2` and the input `1` on a fresh filter. -/
theorem lowpass_contracts_witness :
    (∀ n, |(lowpass_filter : Lowpass ℝ).output 1 (1 / 2) (n + 1) - 1|
      ≤ |(lowpass_filter : Lowpass ℝ).output 1 (1 / 2) n - 1|) ∧
    Filter.Tendsto (fun n => (lowpass_filter : Lowpass ℝ).output 1 (1 / 2) n) Filter.atTop
      (nhds 1) :=
  lowpass_contracts lowpass_filter 1 (1 / 2) (by norm_num [abs_of_pos])

/-- C10 at a filter that stores `7` and on samples smoothed in a state whose gains are all
zero and whose filters store `0`. -/
theorem lowpass_gain_zero_witness :
    ((⟨7⟩ : Lowpass ℚ).call 3 0).1 = 3 ∧
    (smoothTwist (sampleState (27 / 10) 5 5 ⟨0, 0, 0⟩ ⟨0, 0, 0⟩ true : State ℚ Unit)
      (sampleTwist 1 10 1)).ret = sampleTwist 1 10 1 ∧
    (smoothCtrl (sampleState (27 / 10) 5 5 ⟨0, 0, 0⟩ ⟨0, 0, 0⟩ true : State ℚ Unit)
      (sampleCtrl 1 10 1)).ret = sampleCtrl 1 10 1 :=
  have h := lowpass_gain_zero (⟨7⟩ : Lowpass ℚ) 3
    (sampleState (27 / 10) 5 5 ⟨0, 0, 0⟩ ⟨0, 0, 0⟩ true : State ℚ Unit)
    (sampleTwist 1 10 1) (sampleCtrl 1 10 1)
  ⟨h.1, h.2.1 rfl rfl, h.2.2 rfl rfl⟩


/-! ## Runs that complete: what they leave in the state -/

theorem bind_eq_ok {α β : Type} {x : Except Fault α} {f : α → Except Fault β} {b : β}
    (h : (x >>= f) = .ok b) : ∃ a, x = .ok a ∧ f a = .ok b := by
  cases x with
  | error e => exact absurd h (by simp)
  | ok a => exact ⟨a, rfl, h⟩

/-- A run of `lateralLimitTwist` that completes leaves the state with `az_prev_.dt` stamped
and the static `init` set; nothing else changes. -/
theorem lateralLimitTwist_state (c : Constants K) (st : State K L) (msg : TwistStamped K)
    (r : Run K L (TwistStamped K)) (h : lateralLimitTwist c st msg = .ok r) :
    r.state = { stampTwist st msg with lateralLimitTwist_init := true } := by
  unfold lateralLimitTwist at h
  by_cases hc : (!(stampTwist st msg).lateralLimitTwist_init
      || decide (|msg.twist.linear.x| < c.MIN_LINEAR_X)) = true
  · simp only [hc, if_true, pure_eq_ok] at h
    rw [← Except.ok.inj h]
  · simp only [hc, if_false] at h
    obtain ⟨az1, -, h⟩ := bind_eq_ok h
    obtain ⟨az2, -, h⟩ := bind_eq_ok h
    obtain ⟨lacc, -, h⟩ := bind_eq_ok h
    obtain ⟨oj, -, h⟩ := bind_eq_ok h
    obtain ⟨ljerk, -, h⟩ := bind_eq_ok h
    rw [← Except.ok.inj h]
    have hinit : (stampTwist st msg).lateralLimitTwist_init = true := by
      simp only [Bool.or_eq_true, Bool.not_eq_true', not_or] at hc
      simpa using hc.1
    show stampTwist st msg = _
    rw [← hinit]

/-- A run of `lateralLimitCtrl` that completes leaves the state with `sa_prev_.dt` stamped
and the static `init` set; nothing else changes. -/
theorem lateralLimitCtrl_state (c : Constants K) (m : Libm K) (st : State K L)
    (msg : ControlCommandStamped K) (r : Run K L (ControlCommandStamped K))
    (h : lateralLimitCtrl c m st msg = .ok r) :
    r.state = { stampCtrl st msg with lateralLimitCtrl_init := true } := by
  unfold lateralLimitCtrl at h
  by_cases hc : (!(stampCtrl st msg).lateralLimitCtrl_init
      || decide (|msg.cmd.linear_velocity| < c.MIN_LINEAR_X)) = true
  · simp only [hc, if_true, pure_eq_ok] at h
    rw [← Except.ok.inj h]
  · simp only [hc, if_false] at h
    obtain ⟨sa1, -, h⟩ := bind_eq_ok h
    obtain ⟨sa2, -, h⟩ := bind_eq_ok h
    obtain ⟨olacc, -, h⟩ := bind_eq_ok h
    obtain ⟨lacc, -, h⟩ := bind_eq_ok h
    obtain ⟨oj, -, h⟩ := bind_eq_ok h
    obtain ⟨ljerk, -, h⟩ := bind_eq_ok h
    rw [← Except.ok.inj h]
    have hinit : (stampCtrl st msg).lateralLimitCtrl_init = true := by
      simp only [Bool.or_eq_true, Bool.not_eq_true', not_or] at hc
      simpa using hc.1
    show stampCtrl st msg = _
    rw [← hinit]

/-- A run of `TwistCmdCallback` that completes, in terms of the run of the lateral limiter
inside it. -/
theorem TwistCmdCallback_ok (c : Constants K) (lim : LongitudinalAccelLimiter K L)
    (DBL_MAX : K) (st : State K L) (msg : TwistStamped K)
    (r : CallbackRun K L (TwistStamped K))
    (h : TwistCmdCallback c lim DBL_MAX st msg = .ok r) :
    ∃ lateral results,
      lateralLimitTwist c { st with _lon_accel_limiter := (preLateralTwist c lim st msg).2 }
        (preLateralTwist c lim st msg).1 = .ok lateral ∧
      publishLateralResultsWithTwist c (smoothTwist lateral.state lateral.ret).state
        (smoothTwist lateral.state lateral.ret).ret = .ok results ∧
      r.state = updatePrevTwist (smoothTwist lateral.state lateral.ret).state
        (smoothTwist lateral.state lateral.ret).ret ∧
      r.cmd = (smoothTwist lateral.state lateral.ret).ret ∧
      r.published = lateral.published ++ (smoothTwist lateral.state lateral.ret).published
        ++ results := by
  unfold TwistCmdCallback at h
  obtain ⟨checked, -, h⟩ := bind_eq_ok h
  obtain ⟨lateral, hl, h⟩ := bind_eq_ok h
  obtain ⟨results, hres, h⟩ := bind_eq_ok h
  have hr := Except.ok.inj h
  refine ⟨lateral, results, hl, hres, ?_, ?_, ?_⟩ <;> rw [← hr]

/-- A run of `CtrlCmdCallback` that completes, in terms of the run of the lateral limiter
inside it. -/
theorem CtrlCmdCallback_ok (c : Constants K) (m : Libm K) (lim : LongitudinalAccelLimiter K L)
    (DBL_MAX : K) (st : State K L) (msg : ControlCommandStamped K)
    (r : CallbackRun K L (ControlCommandStamped K))
    (h : CtrlCmdCallback c m lim DBL_MAX st msg = .ok r) :
    ∃ lateral results,
      lateralLimitCtrl c m { st with _lon_accel_limiter := (preLateralCtrl c lim st msg).2 }
        (preLateralCtrl c lim st msg).1 = .ok lateral ∧
      publishLateralResultsWithCtrl c m (smoothCtrl lateral.state lateral.ret).state
        (smoothCtrl lateral.state lateral.ret).ret = .ok results ∧
      r.state = updatePrevCtrl (smoothCtrl lateral.state lateral.ret).state
        (smoothCtrl lateral.state lateral.ret).ret ∧
      r.cmd = (smoothCtrl lateral.state lateral.ret).ret ∧
      r.published = lateral.published ++ (smoothCtrl lateral.state lateral.ret).published
        ++ results := by
  unfold CtrlCmdCallback at h
  obtain ⟨checked, -, h⟩ := bind_eq_ok h
  obtain ⟨lateral, hl, h⟩ := bind_eq_ok h
  obtain ⟨results, hres, h⟩ := bind_eq_ok h
  have hr := Except.ok.inj h
  refine ⟨lateral, results, hl, hres, ?_, ?_, ?_⟩ <;> rw [← hr]


/-! ## More claims about the lowpass filter -/

theorem Lowpass.run_gain_one (f : Lowpass K) (hf : f.y = 0) (xs : List K) :
    f.run (xs.map fun x => (x, 1)) = (List.replicate xs.length 0, f) := by
  induction xs generalizing f with
  | nil => rfl
  | cons x rest ih =>
    have hcall : f.call x 1 = (0, f) := by
      cases f with
      | mk y =>
        simp only at hf
        simp [Lowpass.call, hf]
    simp only [List.map_cons, Lowpass.run, hcall, ih f hf, List.length_cons,
      List.replicate_succ]

/-- C11: with gain `1` on every call since the closure was made, a lowpass filter returns `0`,
its initial value, on every call, for every sequence of inputs, and still stores `0`
afterwards. -/
theorem lowpass_gain_one (xs : List K) :
    ((lowpass_filter : Lowpass K).run (xs.map fun x => (x, 1))).1 = List.replicate xs.length 0 ∧
    (∀ y ∈ ((lowpass_filter : Lowpass K).run (xs.map fun x => (x, 1))).1, y = 0) ∧
    ((lowpass_filter : Lowpass K).run (xs.map fun x => (x, 1))).2.y = 0 := by
  rw [Lowpass.run_gain_one lowpass_filter rfl xs]
  refine ⟨rfl, ?_, rfl⟩
  intro y hy
  exact List.eq_of_mem_replicate hy

/-- C19: after `n` calls of a lowpass filter with constant input `x` and constant gain, from
the stored value `y0`, the value stored is `x + gain^n * (y0 - x)`, and it is the value that
the `n`-th call returned; for a fresh filter it is `(1 - gain^n) * x`. -/
theorem lowpass_closed_form (f : Lowpass K) (x gain : K) (n : Nat) :
    f.output x gain n = x + gain ^ n * (f.y - x) ∧
    ((f.iterate x gain n).call x gain).1 = x + gain ^ (n + 1) * (f.y - x) ∧
    (lowpass_filter : Lowpass K).output x gain n = (1 - gain ^ n) * x ∧
    (((lowpass_filter : Lowpass K).iterate x gain n).call x gain).1
      = (1 - gain ^ (n + 1)) * x := by
  have hgen : ∀ (g : Lowpass K) (k : Nat), g.output x gain k = x + gain ^ k * (g.y - x) := by
    intro g k
    rw [← Lowpass.output_sub]
    ring
  have hfresh : ∀ k : Nat, (lowpass_filter : Lowpass K).output x gain k = (1 - gain ^ k) * x := by
    intro k
    rw [hgen]
    show x + gain ^ k * (0 - x) = _
    ring
  exact ⟨hgen f n, hgen f (n + 1), hfresh n, hfresh (n + 1)⟩

/-! ## Claims about the estimators and the configuration -/

/-- C12, as amended: the jerk estimators `calcLjerkWithAngularZ` and
`calcLjerkWithSteeringAngle` return a value only when `|dt| ≥ MIN_DURATION`: for every input
with `|dt| < MIN_DURATION` the jerk is undefined (no value). -/
theorem calcLjerk_undefined (c : Constants K) (m : Libm K) (st : State K L) (lv az sa : K) :
    (|st.az_prev_.dt| < c.MIN_DURATION → calcLjerkWithAngularZ c st lv az = .ok none) ∧
    (|st.sa_prev_.dt| < c.MIN_DURATION →
      calcLjerkWithSteeringAngle c m st lv sa = .ok none) ∧
    (∀ j, calcLjerkWithAngularZ c st lv az = .ok (some j) →
      c.MIN_DURATION ≤ |st.az_prev_.dt|) ∧
    (∀ j, calcLjerkWithSteeringAngle c m st lv sa = .ok (some j) →
      c.MIN_DURATION ≤ |st.sa_prev_.dt|) := by
  refine ⟨calcLjerkWithAngularZ_none c st lv az, ?_, ?_, ?_⟩
  · intro h
    simp [calcLjerkWithSteeringAngle, h]
  · intro j hj
    by_contra hlt
    rw [calcLjerkWithAngularZ_none c st lv az (not_le.mp hlt)] at hj
    exact absurd hj (by simp)
  · intro j hj
    by_contra hlt
    simp [calcLjerkWithSteeringAngle, not_le.mp hlt] at hj

omit [LinearOrderedField K] in
/-- C20: `configCallback` sets `lateral_accel_limit_`, `lateral_jerk_limit_`,
`lowpass_gain_linear_x_`, `lowpass_gain_angular_z_` and `lowpass_gain_steering_angle_` to the
values in the configuration message and leaves every other part of the state unchanged: the
longitudinal limits, the acceleration limiter, the wheelbase, both previous-sample records,
the four lowpass filters and the two `init` statics. -/
theorem configCallback_frame (st : State K L) (config : ConfigTwistFilter K) :
    configCallback st config =
      { wheel_base_ := st.wheel_base_,
        longitudinal_velocity_limit_ := st.longitudinal_velocity_limit_,
        longitudinal_accel_limit_ := st.longitudinal_accel_limit_,
        lateral_accel_limit_ := config.lateral_accel_limit,
        lateral_jerk_limit_ := config.lateral_jerk_limit,
        lowpass_gain_linear_x_ := config.lowpass_gain_linear_x,
        lowpass_gain_angular_z_ := config.lowpass_gain_angular_z,
        lowpass_gain_steering_angle_ := config.lowpass_gain_steering_angle,
        az_prev_ := st.az_prev_,
        sa_prev_ := st.sa_prev_,
        _lon_accel_limiter := st._lon_accel_limiter,
        lateralLimitTwist_init := st.lateralLimitTwist_init,
        lateralLimitCtrl_init := st.lateralLimitCtrl_init,
        smoothTwist_lp_lx := st.smoothTwist_lp_lx,
        smoothTwist_lp_az := st.smoothTwist_lp_az,
        smoothCtrl_lp_lx := st.smoothCtrl_lp_lx,
        smoothCtrl_lp_sa := st.smoothCtrl_lp_sa } ∧
    (configCallback st config).lateral_accel_limit_ = config.lateral_accel_limit ∧
    (configCallback st config).lateral_jerk_limit_ = config.lateral_jerk_limit ∧
    (configCallback st config).lowpass_gain_linear_x_ = config.lowpass_gain_linear_x ∧
    (configCallback st config).lowpass_gain_angular_z_ = config.lowpass_gain_angular_z ∧
    (configCallback st config).lowpass_gain_steering_angle_
      = config.lowpass_gain_steering_angle ∧
    (configCallback st config).longitudinal_velocity_limit_ = st.longitudinal_velocity_limit_ ∧
    (configCallback st config).longitudinal_accel_limit_ = st.longitudinal_accel_limit_ ∧
    (configCallback st config)._lon_accel_limiter = st._lon_accel_limiter ∧
    (configCallback st config).wheel_base_ = st.wheel_base_ ∧
    (configCallback st config).az_prev_ = st.az_prev_ ∧
    (configCallback st config).sa_prev_ = st.sa_prev_ ∧
    (configCallback st config).smoothTwist_lp_lx = st.smoothTwist_lp_lx ∧
    (configCallback st config).smoothTwist_lp_az = st.smoothTwist_lp_az ∧
    (configCallback st config).smoothCtrl_lp_lx = st.smoothCtrl_lp_lx ∧
    (configCallback st config).smoothCtrl_lp_sa = st.smoothCtrl_lp_sa ∧
    (configCallback st config).lateralLimitTwist_init = st.lateralLimitTwist_init ∧
    (configCallback st config).lateralLimitCtrl_init = st.lateralLimitCtrl_init :=
  ⟨rfl, rfl, rfl, rfl, rfl, rfl, rfl, rfl, rfl, rfl, rfl, rfl, rfl, rfl, rfl, rfl, rfl, rfl⟩


/-! ## The estimators and the diagnostics at sample inputs -/

/-- C12 as stated fails: with `dt = -1`, and with `dt = MIN_DURATION`, both at most
`MIN_DURATION`, `calcLjerkWithAngularZ` returns a value (previous turn rate `0`, `v = 2`,
`az = 3`), and with `dt = -1` so does `calcLjerkWithSteeringAngle` (wheelbase `2.7`, previous
steering angle `0`, `v = 5`, `sa = 0`). -/
theorem calcLjerk_undefined_fails :
    ((-1 : ℚ) ≤ (sampleConstants : Constants ℚ).MIN_DURATION ∧
      calcLjerkWithAngularZ (sampleConstants : Constants ℚ)
        (sampleState (27 / 10) 5 5 ⟨0, -1, 0⟩ ⟨0, 0, 0⟩ true : State ℚ Unit) 2 3
        = .ok (some (-6))) ∧
    ((1 / 1000 : ℚ) ≤ (sampleConstants : Constants ℚ).MIN_DURATION ∧
      calcLjerkWithAngularZ (sampleConstants : Constants ℚ)
        (sampleState (27 / 10) 5 5 ⟨0, 1 / 1000, 0⟩ ⟨0, 0, 0⟩ true : State ℚ Unit) 2 3
        = .ok (some 6000)) ∧
    ((-1 : ℝ) ≤ (sampleConstants : Constants ℝ).MIN_DURATION ∧
      calcLjerkWithSteeringAngle (sampleConstants : Constants ℝ) ⟨Real.tan, Real.arctan⟩
        (sampleState (27 / 10) 5 5 ⟨0, 0, 0⟩ ⟨0, -1, 0⟩ true : State ℝ Unit) 5 0
        = .ok (some 0)) := by
  refine ⟨⟨?_, ?_⟩, ⟨?_, ?_⟩, ⟨?_, ?_⟩⟩
  · norm_num [sampleConstants]
  · simp [calcLjerkWithAngularZ, divide, sampleConstants, sampleState]
    norm_num
  · norm_num [sampleConstants]
  · simp [calcLjerkWithAngularZ, divide, sampleConstants, sampleState]
    norm_num [abs_of_pos]
  · norm_num [sampleConstants]
  · simp [calcLjerkWithSteeringAngle, divide, sampleConstants, sampleState, Real.tan_zero]
    norm_num [abs_of_pos]

/-- C12 as amended, at `dt = 0`: neither estimator returns a value. -/
theorem calcLjerk_undefined_witness :
    calcLjerkWithAngularZ (sampleConstants : Constants ℝ)
      (sampleState (27 / 10) 5 5 ⟨0, 0, 0⟩ ⟨0, 0, 0⟩ true : State ℝ Unit) 2 3 = .ok none ∧
    calcLjerkWithSteeringAngle (sampleConstants : Constants ℝ) ⟨Real.tan, Real.arctan⟩
      (sampleState (27 / 10) 5 5 ⟨0, 0, 0⟩ ⟨0, 0, 0⟩ true : State ℝ Unit) 2 0 = .ok none :=
  have h := calcLjerk_undefined (sampleConstants : Constants ℝ) ⟨Real.tan, Real.arctan⟩
    (sampleState (27 / 10) 5 5 ⟨0, 0, 0⟩ ⟨0, 0, 0⟩ true : State ℝ Unit) 2 3 0
  ⟨h.1 (by norm_num [sampleConstants, sampleState]),
    h.2.1 (by norm_num [sampleConstants, sampleState])⟩

/-- C13: the code at two raw samples whose lateral jerk is defined.  For the turn-rate
sample (`v = 2`, `az = 3`, previous turn rate `1`, `dt = 1`) the estimators give the lateral
acceleration `6` and the lateral jerk `4`, and `checkTwist` hands `6` to the health checker
under `twist_lateral_jerk_high`.  For the steering sample (`v = 5`, `sa = 0`, wheelbase
`2.7`, previous steering angle `atan 1`, `dt = 1`) they give `0` and `-250/27`, and
`checkCtrl` hands `0` to the health checker under `ctrl_lateral_jerk_high`. -/
theorem check_reports_lacc_as_ljerk :
    (calcLaccWithAngularZ (2 : ℚ) 3 = some 6 ∧
      calcLjerkWithAngularZ (sampleConstants : Constants ℚ)
        (sampleState (27 / 10) 5 5 ⟨0, 1, 1⟩ ⟨0, 0, 0⟩ true : State ℚ Unit) 2 3
        = .ok (some 4) ∧
      (checkTwist (sampleConstants : Constants ℚ) (2 ^ 1024)
        (sampleState (27 / 10) 5 5 ⟨0, 1, 1⟩ ⟨0, 0, 0⟩ true : State ℚ Unit)
        (sampleTwist 1 2 3)).map (fun ds => ds.map fun d => (d.key, d.value))
        = .ok [("twist_longitudinal_v_high", 2), ("twist_lateral_accel_high", 6),
            ("twist_lateral_jerk_high", 6)]) ∧
    (calcLaccWithSteeringAngle (sampleConstants : Constants ℝ) ⟨Real.tan, Real.arctan⟩
        (sampleState (27 / 10) 5 5 ⟨0, 0, 0⟩ ⟨0, 1, Real.arctan 1⟩ true : State ℝ Unit) 5 0
        = .ok (some 0) ∧
      calcLjerkWithSteeringAngle (sampleConstants : Constants ℝ) ⟨Real.tan, Real.arctan⟩
        (sampleState (27 / 10) 5 5 ⟨0, 0, 0⟩ ⟨0, 1, Real.arctan 1⟩ true : State ℝ Unit) 5 0
        = .ok (some (-250 / 27)) ∧
      (checkCtrl (sampleConstants : Constants ℝ) ⟨Real.tan, Real.arctan⟩ (2 ^ 1024)
        (sampleState (27 / 10) 5 5 ⟨0, 0, 0⟩ ⟨0, 1, Real.arctan 1⟩ true : State ℝ Unit)
        (sampleCtrl 1 5 0)).map (fun ds => ds.map fun d => (d.key, d.value))
        = .ok [("ctrl_longitudinal_v_high", 5), ("ctrl_lateral_accel_high", 0),
            ("ctrl_lateral_jerk_high", 0)]) := by
  refine ⟨⟨?_, ?_, ?_⟩, ⟨?_, ?_, ?_⟩⟩
  · norm_num [calcLaccWithAngularZ]
  · simp [calcLjerkWithAngularZ, divide, sampleConstants, sampleState]
    norm_num
  · simp [checkTwist, calcLaccWithAngularZ, calcLjerkWithAngularZ, divide, get,
      sampleConstants, sampleState, sampleTwist, Except.map]
    norm_num
  · simp [calcLaccWithSteeringAngle, divide, sampleConstants, sampleState, Real.tan_zero]
    norm_num [abs_of_pos]
  · simp [calcLjerkWithSteeringAngle, divide, sampleConstants, sampleState, Real.tan_zero,
      Real.tan_arctan]
    norm_num [abs_of_pos]
  · simp [checkCtrl, calcLaccWithSteeringAngle, calcLjerkWithSteeringAngle, divide, get,
      sampleConstants, sampleState, sampleCtrl, Except.map, Real.tan_zero, Real.tan_arctan]
    norm_num [abs_of_pos]


/-! ## What a completed callback leaves in the state -/

/-- The state that a completed `TwistCmdCallback` leaves. -/
theorem TwistCmdCallback_frame (c : Constants K) (lim : LongitudinalAccelLimiter K L)
    (DBL_MAX : K) (st : State K L) (msg : TwistStamped K)
    (r : CallbackRun K L (TwistStamped K))
    (h : TwistCmdCallback c lim DBL_MAX st msg = .ok r) :
    r.state.az_prev_.val = r.cmd.twist.angular.z ∧
    r.state.az_prev_.time = r.cmd.header.stamp ∧
    r.state.az_prev_.val = r.state.smoothTwist_lp_az.y ∧
    r.state.lateralLimitTwist_init = true ∧
    r.state.sa_prev_ = st.sa_prev_ ∧
    r.state.smoothCtrl_lp_sa = st.smoothCtrl_lp_sa ∧
    r.state.lateralLimitCtrl_init = st.lateralLimitCtrl_init := by
  obtain ⟨lateral, results, hl, -, hst, hcmd, -⟩ := TwistCmdCallback_ok c lim DBL_MAX st msg r h
  have hls := lateralLimitTwist_state c _ _ _ hl
  obtain ⟨rstate, rcmd, rpub, rchk⟩ := r
  obtain ⟨lstate, lret, lpub⟩ := lateral
  simp only at hst hcmd hls
  subst hst hcmd hls
  exact ⟨rfl, rfl, rfl, rfl, rfl, rfl, rfl⟩

/-- The state that a completed `CtrlCmdCallback` leaves. -/
theorem CtrlCmdCallback_frame (c : Constants K) (m : Libm K)
    (lim : LongitudinalAccelLimiter K L) (DBL_MAX : K) (st : State K L)
    (msg : ControlCommandStamped K) (r : CallbackRun K L (ControlCommandStamped K))
    (h : CtrlCmdCallback c m lim DBL_MAX st msg = .ok r) :
    r.state.sa_prev_.val = r.cmd.cmd.steering_angle ∧
    r.state.sa_prev_.time = r.cmd.header.stamp ∧
    r.state.sa_prev_.val = r.state.smoothCtrl_lp_sa.y ∧
    r.state.lateralLimitCtrl_init = true ∧
    r.state.az_prev_ = st.az_prev_ ∧
    r.state.smoothTwist_lp_az = st.smoothTwist_lp_az ∧
    r.state.lateralLimitTwist_init = st.lateralLimitTwist_init := by
  obtain ⟨lateral, results, hl, -, hst, hcmd, -⟩ :=
    CtrlCmdCallback_ok c m lim DBL_MAX st msg r h
  have hls := lateralLimitCtrl_state c m _ _ _ hl
  obtain ⟨rstate, rcmd, rpub, rchk⟩ := r
  obtain ⟨lstate, lret, lpub⟩ := lateral
  simp only at hst hcmd hls
  subst hst hcmd hls
  exact ⟨rfl, rfl, rfl, rfl, rfl, rfl, rfl⟩

/-! ## The callbacks add no fault of their own -/

theorem calcLjerkWithAngularZ_total (c : Constants K) (hD : 0 < c.MIN_DURATION)
    (st : State K L) (lv az : K) : ∃ o, calcLjerkWithAngularZ c st lv az = .ok o := by
  by_cases h : |st.az_prev_.dt| < c.MIN_DURATION
  · exact ⟨none, calcLjerkWithAngularZ_none c st lv az h⟩
  · exact ⟨_, calcLjerkWithAngularZ_ok c st lv az hD (not_lt.mp h)⟩

theorem calcLaccWithSteeringAngle_total (c : Constants K) (m : Libm K) (hW : 0 < c.MIN_LENGTH)
    (st : State K L) (lv sa : K) : ∃ o, calcLaccWithSteeringAngle c m st lv sa = .ok o := by
  by_cases h : |st.wheel_base_| < c.MIN_LENGTH
  · exact ⟨none, calcLaccWithSteeringAngle_none c m st lv sa h⟩
  · exact ⟨_, calcLaccWithSteeringAngle_ok c m st lv sa hW (not_lt.mp h)⟩

theorem calcLjerkWithSteeringAngle_total (c : Constants K) (m : Libm K)
    (hD : 0 < c.MIN_DURATION) (hW : 0 < c.MIN_LENGTH) (st : State K L) (lv sa : K) :
    ∃ o, calcLjerkWithSteeringAngle c m st lv sa = .ok o ∧
      (o.isSome = true → ∃ a, calcLaccWithSteeringAngle c m st lv sa = .ok (some a)) := by
  by_cases h : |st.sa_prev_.dt| < c.MIN_DURATION ∨ |st.wheel_base_| < c.MIN_LENGTH
  · refine ⟨none, ?_, ?_⟩
    · simp [calcLjerkWithSteeringAngle, h]
    · intro hs
      exact absurd hs (by simp)
  · rw [not_or, not_lt, not_lt] at h
    exact ⟨_, calcLjerkWithSteeringAngle_ok c m st lv sa hD hW h.1 h.2, fun _ =>
      ⟨_, calcLaccWithSteeringAngle_ok c m st lv sa hW h.2⟩⟩

theorem checkTwist_total (c : Constants K) (hD : 0 < c.MIN_DURATION) (DBL_MAX : K)
    (st : State K L) (msg : TwistStamped K) : ∃ ds, checkTwist c DBL_MAX st msg = .ok ds := by
  obtain ⟨o, ho⟩ := calcLjerkWithAngularZ_total c hD st msg.twist.linear.x msg.twist.angular.z
  simp only [checkTwist, ho, ok_bind]
  cases o <;> simp [calcLaccWithAngularZ, get]

theorem checkCtrl_total (c : Constants K) (m : Libm K) (hD : 0 < c.MIN_DURATION)
    (hW : 0 < c.MIN_LENGTH) (DBL_MAX : K) (st : State K L) (msg : ControlCommandStamped K) :
    ∃ ds, checkCtrl c m DBL_MAX st msg = .ok ds := by
  obtain ⟨oj, hoj, hsome⟩ := calcLjerkWithSteeringAngle_total c m hD hW st
    msg.cmd.linear_velocity msg.cmd.steering_angle
  obtain ⟨oa, hoa⟩ := calcLaccWithSteeringAngle_total c m hW st
    msg.cmd.linear_velocity msg.cmd.steering_angle
  simp only [checkCtrl, hoa, hoj, ok_bind]
  cases oj with
  | none => cases oa <;> simp [get]
  | some j =>
    obtain ⟨a, ha⟩ := hsome rfl
    rw [hoa] at ha
    have hoa2 : oa = some a := Except.ok.inj ha
    subst hoa2
    simp [get]

theorem publishLateralResultsWithTwist_total (c : Constants K) (hD : 0 < c.MIN_DURATION)
    (st : State K L) (msg : TwistStamped K) :
    ∃ ps, publishLateralResultsWithTwist c st msg = .ok ps := by
  obtain ⟨o, ho⟩ := calcLjerkWithAngularZ_total c hD st msg.twist.linear.x msg.twist.angular.z
  simp only [publishLateralResultsWithTwist, ho, ok_bind]
  cases o <;> simp [calcLaccWithAngularZ, get]

theorem publishLateralResultsWithCtrl_total (c : Constants K) (m : Libm K)
    (hD : 0 < c.MIN_DURATION) (hW : 0 < c.MIN_LENGTH) (st : State K L)
    (msg : ControlCommandStamped K) :
    ∃ ps, publishLateralResultsWithCtrl c m st msg = .ok ps := by
  obtain ⟨oj, hoj, -⟩ := calcLjerkWithSteeringAngle_total c m hD hW st
    msg.cmd.linear_velocity msg.cmd.steering_angle
  obtain ⟨oa, hoa⟩ := calcLaccWithSteeringAngle_total c m hW st
    msg.cmd.linear_velocity msg.cmd.steering_angle
  simp only [publishLateralResultsWithCtrl, hoa, hoj, ok_bind]
  cases oj <;> cases oa <;> simp [get]

/-- With a positive `MIN_DURATION`, `TwistCmdCallback` completes whenever `lateralLimitTwist`
completes on the sample that reaches it. -/
theorem TwistCmdCallback_total (c : Constants K) (lim : LongitudinalAccelLimiter K L)
    (DBL_MAX : K) (hD : 0 < c.MIN_DURATION) (st : State K L) (msg : TwistStamped K)
    (lateral : Run K L (TwistStamped K))
    (hl : lateralLimitTwist c { st with _lon_accel_limiter := (preLateralTwist c lim st msg).2 }
      (preLateralTwist c lim st msg).1 = .ok lateral) :
    ∃ r, TwistCmdCallback c lim DBL_MAX st msg = .ok r := by
  obtain ⟨ds, hds⟩ := checkTwist_total c hD DBL_MAX st msg
  obtain ⟨ps, hps⟩ := publishLateralResultsWithTwist_total c hD
    (smoothTwist lateral.state lateral.ret).state (smoothTwist lateral.state lateral.ret).ret
  simp only [TwistCmdCallback, hds, ok_bind, hl, hps]
  exact ⟨_, rfl⟩

/-- With positive `MIN_DURATION` and `MIN_LENGTH`, `CtrlCmdCallback` completes whenever
`lateralLimitCtrl` completes on the sample that reaches it. -/
theorem CtrlCmdCallback_total (c : Constants K) (m : Libm K)
    (lim : LongitudinalAccelLimiter K L) (DBL_MAX : K) (hD : 0 < c.MIN_DURATION)
    (hW : 0 < c.MIN_LENGTH) (st : State K L) (msg : ControlCommandStamped K)
    (lateral : Run K L (ControlCommandStamped K))
    (hl : lateralLimitCtrl c m { st with _lon_accel_limiter := (preLateralCtrl c lim st msg).2 }
      (preLateralCtrl c lim st msg).1 = .ok lateral) :
    ∃ r, CtrlCmdCallback c m lim DBL_MAX st msg = .ok r := by
  obtain ⟨ds, hds⟩ := checkCtrl_total c m hD hW DBL_MAX st msg
  obtain ⟨ps, hps⟩ := publishLateralResultsWithCtrl_total c m hD hW
    (smoothCtrl lateral.state lateral.ret).state (smoothCtrl lateral.state lateral.ret).ret
  simp only [CtrlCmdCallback, hds, ok_bind, hl, hps]
  exact ⟨_, rfl⟩


/-! ## Claims about the previous-sample records -/

/-- C14: after `TwistCmdCallback` has processed a sample, `az_prev_` holds the published
(smoothed) sample's `angular.z` as `val` and its timestamp as `time`, and `sa_prev_` is
unchanged; symmetrically `CtrlCmdCallback` sets `sa_prev_` from the published steering sample
and leaves `az_prev_` unchanged.  The callbacks add no fault of their own: with positive
thresholds each completes whenever the lateral limiter completes on the sample that reaches
it. -/
theorem callbacks_update_prev (c : Constants K) (m : Libm K)
    (lim : LongitudinalAccelLimiter K L) (DBL_MAX : K) (st : State K L)
    (ts : TwistStamped K) (ccs : ControlCommandStamped K) :
    (∀ r, TwistCmdCallback c lim DBL_MAX st ts = .ok r →
      r.state.az_prev_.val = r.cmd.twist.angular.z ∧
      r.state.az_prev_.time = r.cmd.header.stamp ∧
      r.state.sa_prev_ = st.sa_prev_) ∧
    (∀ r, CtrlCmdCallback c m lim DBL_MAX st ccs = .ok r →
      r.state.sa_prev_.val = r.cmd.cmd.steering_angle ∧
      r.state.sa_prev_.time = r.cmd.header.stamp ∧
      r.state.az_prev_ = st.az_prev_) ∧
    (0 < c.MIN_DURATION → ∀ lateral,
      lateralLimitTwist c { st with _lon_accel_limiter := (preLateralTwist c lim st ts).2 }
        (preLateralTwist c lim st ts).1 = .ok lateral →
      ∃ r, TwistCmdCallback c lim DBL_MAX st ts = .ok r) ∧
    (0 < c.MIN_DURATION → 0 < c.MIN_LENGTH → ∀ lateral,
      lateralLimitCtrl c m { st with _lon_accel_limiter := (preLateralCtrl c lim st ccs).2 }
        (preLateralCtrl c lim st ccs).1 = .ok lateral →
      ∃ r, CtrlCmdCallback c m lim DBL_MAX st ccs = .ok r) := by
  refine ⟨?_, ?_, ?_, ?_⟩
  · intro r h
    have hf := TwistCmdCallback_frame c lim DBL_MAX st ts r h
    exact ⟨hf.1, hf.2.1, hf.2.2.2.2.1⟩
  · intro r h
    have hf := CtrlCmdCallback_frame c m lim DBL_MAX st ccs r h
    exact ⟨hf.1, hf.2.1, hf.2.2.2.2.1⟩
  · intro hD lateral hl
    exact TwistCmdCallback_total c lim DBL_MAX hD st ts lateral hl
  · intro hD hW lateral hl
    exact CtrlCmdCallback_total c m lim DBL_MAX hD hW st ccs lateral hl

theorem step_keeps_az (c : Constants K) (m : Libm K) (lim : LongitudinalAccelLimiter K L)
    (DBL_MAX : K) (st st1 : State K L) (e : Event K)
    (h : step c m lim DBL_MAX st e = .ok st1)
    (hp : (st.az_prev_.val = st.smoothTwist_lp_az.y ∧ st.lateralLimitTwist_init = true)
      ∨ ∃ msg, e = .twist msg) :
    st1.az_prev_.val = st1.smoothTwist_lp_az.y ∧ st1.lateralLimitTwist_init = true := by
  cases e with
  | twist msg =>
    obtain ⟨r, hr, hst⟩ := bind_eq_ok h
    have hf := TwistCmdCallback_frame c lim DBL_MAX st msg r hr
    rw [← Except.ok.inj hst]
    exact ⟨hf.2.2.1, hf.2.2.2.1⟩
  | ctrl msg =>
    obtain ⟨r, hr, hst⟩ := bind_eq_ok h
    have hf := CtrlCmdCallback_frame c m lim DBL_MAX st msg r hr
    rcases hp with hp | ⟨msg2, hmsg⟩
    · rw [← Except.ok.inj hst, hf.2.2.2.2.1, hf.2.2.2.2.2.1, hf.2.2.2.2.2.2]
      exact hp
    · exact absurd hmsg (by simp)
  | config msg =>
    rcases hp with hp | ⟨msg2, hmsg⟩
    · rw [← Except.ok.inj h]
      exact hp
    · exact absurd hmsg (by simp)

theorem step_keeps_sa (c : Constants K) (m : Libm K) (lim : LongitudinalAccelLimiter K L)
    (DBL_MAX : K) (st st1 : State K L) (e : Event K)
    (h : step c m lim DBL_MAX st e = .ok st1)
    (hp : (st.sa_prev_.val = st.smoothCtrl_lp_sa.y ∧ st.lateralLimitCtrl_init = true)
      ∨ ∃ msg, e = .ctrl msg) :
    st1.sa_prev_.val = st1.smoothCtrl_lp_sa.y ∧ st1.lateralLimitCtrl_init = true := by
  cases e with
  | twist msg =>
    obtain ⟨r, hr, hst⟩ := bind_eq_ok h
    have hf := TwistCmdCallback_frame c lim DBL_MAX st msg r hr
    rcases hp with hp | ⟨msg2, hmsg⟩
    · rw [← Except.ok.inj hst, hf.2.2.2.2.1, hf.2.2.2.2.2.1, hf.2.2.2.2.2.2]
      exact hp
    · exact absurd hmsg (by simp)
  | ctrl msg =>
    obtain ⟨r, hr, hst⟩ := bind_eq_ok h
    have hf := CtrlCmdCallback_frame c m lim DBL_MAX st msg r hr
    rw [← Except.ok.inj hst]
    exact ⟨hf.2.2.1, hf.2.2.2.1⟩
  | config msg =>
    rcases hp with hp | ⟨msg2, hmsg⟩
    · rw [← Except.ok.inj h]
      exact hp
    · exact absurd hmsg (by simp)

theorem runEvents_keeps_az (c : Constants K) (m : Libm K) (lim : LongitudinalAccelLimiter K L)
    (DBL_MAX : K) (evs : List (Event K)) (st st1 : State K L)
    (h : runEvents c m lim DBL_MAX st evs = .ok st1)
    (hp : (st.az_prev_.val = st.smoothTwist_lp_az.y ∧ st.lateralLimitTwist_init = true)
      ∨ ∃ msg, Event.twist msg ∈ evs) :
    st1.az_prev_.val = st1.smoothTwist_lp_az.y ∧ st1.lateralLimitTwist_init = true := by
  induction evs generalizing st with
  | nil =>
    rcases hp with hp | ⟨msg, hmsg⟩
    · rw [← Except.ok.inj h]
      exact hp
    · exact absurd hmsg (List.not_mem_nil _)
  | cons e es ih =>
    obtain ⟨st2, hstep, hrest⟩ := bind_eq_ok h
    apply ih st2 hrest
    rcases hp with hp | ⟨msg, hmsg⟩
    · exact Or.inl (step_keeps_az c m lim DBL_MAX st st2 e hstep (Or.inl hp))
    · rcases List.mem_cons.mp hmsg with heq | hmem
      · exact Or.inl (step_keeps_az c m lim DBL_MAX st st2 e hstep (Or.inr ⟨msg, heq.symm⟩))
      · exact Or.inr ⟨msg, hmem⟩

theorem runEvents_keeps_sa (c : Constants K) (m : Libm K) (lim : LongitudinalAccelLimiter K L)
    (DBL_MAX : K) (evs : List (Event K)) (st st1 : State K L)
    (h : runEvents c m lim DBL_MAX st evs = .ok st1)
    (hp : (st.sa_prev_.val = st.smoothCtrl_lp_sa.y ∧ st.lateralLimitCtrl_init = true)
      ∨ ∃ msg, Event.ctrl msg ∈ evs) :
    st1.sa_prev_.val = st1.smoothCtrl_lp_sa.y ∧ st1.lateralLimitCtrl_init = true := by
  induction evs generalizing st with
  | nil =>
    rcases hp with hp | ⟨msg, hmsg⟩
    · rw [← Except.ok.inj h]
      exact hp
    · exact absurd hmsg (List.not_mem_nil _)
  | cons e es ih =>
    obtain ⟨st2, hstep, hrest⟩ := bind_eq_ok h
    apply ih st2 hrest
    rcases hp with hp | ⟨msg, hmsg⟩
    · exact Or.inl (step_keeps_sa c m lim DBL_MAX st st2 e hstep (Or.inl hp))
    · rcases List.mem_cons.mp hmsg with heq | hmem
      · exact Or.inl (step_keeps_sa c m lim DBL_MAX st st2 e hstep (Or.inr ⟨msg, heq.symm⟩))
      · exact Or.inr ⟨msg, hmem⟩

/-- C18: after every completed `TwistCmdCallback`, `az_prev_.val` is the value stored by the
`angular.z` lowpass filter of `smoothTwist`, and after every completed `CtrlCmdCallback`,
`sa_prev_.val` is the value stored by the steering-angle lowpass filter of `smoothCtrl`; this
holds in the state reached by any sequence of samples and configuration updates that contains
a sample of that channel, from any state. -/
theorem prev_is_smoothed_output (c : Constants K) (m : Libm K)
    (lim : LongitudinalAccelLimiter K L) (DBL_MAX : K) :
    (∀ (st : State K L) (ts : TwistStamped K) r, TwistCmdCallback c lim DBL_MAX st ts = .ok r →
      r.state.az_prev_.val = r.state.smoothTwist_lp_az.y) ∧
    (∀ (st : State K L) (ccs : ControlCommandStamped K) r,
      CtrlCmdCallback c m lim DBL_MAX st ccs = .ok r →
      r.state.sa_prev_.val = r.state.smoothCtrl_lp_sa.y) ∧
    (∀ (st : State K L) (evs : List (Event K)) (st1 : State K L),
      runEvents c m lim DBL_MAX st evs = .ok st1 →
      ((∃ msg, Event.twist msg ∈ evs) → st1.az_prev_.val = st1.smoothTwist_lp_az.y) ∧
      ((∃ msg, Event.ctrl msg ∈ evs) → st1.sa_prev_.val = st1.smoothCtrl_lp_sa.y)) := by
  refine ⟨?_, ?_, ?_⟩
  · intro st ts r h
    exact (TwistCmdCallback_frame c lim DBL_MAX st ts r h).2.2.1
  · intro st ccs r h
    exact (CtrlCmdCallback_frame c m lim DBL_MAX st ccs r h).2.2.1
  · intro st evs st1 h
    exact ⟨fun ht => (runEvents_keeps_az c m lim DBL_MAX evs st st1 h (Or.inr ht)).1,
      fun hc => (runEvents_keeps_sa c m lim DBL_MAX evs st st1 h (Or.inr hc)).1⟩


/-! ## Runs of the lateral limiters, case by case -/

theorem lateralLimitTwist_early (c : Constants K) (st : State K L) (msg : TwistStamped K)
    (hc : (!(stampTwist st msg).lateralLimitTwist_init
      || decide (|msg.twist.linear.x| < c.MIN_LINEAR_X)) = true) :
    lateralLimitTwist c st msg
      = .ok ⟨{ stampTwist st msg with lateralLimitTwist_init := true }, msg, []⟩ := by
  unfold lateralLimitTwist
  simp only [hc, if_true, pure_eq_ok]

theorem lateralLimitCtrl_early (c : Constants K) (m : Libm K) (st : State K L)
    (msg : ControlCommandStamped K)
    (hc : (!(stampCtrl st msg).lateralLimitCtrl_init
      || decide (|msg.cmd.linear_velocity| < c.MIN_LINEAR_X)) = true) :
    lateralLimitCtrl c m st msg
      = .ok ⟨{ stampCtrl st msg with lateralLimitCtrl_init := true }, msg, []⟩ := by
  unfold lateralLimitCtrl
  simp only [hc, if_true, pure_eq_ok]

/-- A run of `lateralLimitTwist` past the test of line 182 with `|dt| < MIN_DURATION` stops
at the `get()` of line 201. -/
theorem lateralLimitTwist_short_dt (c : Constants K) (st : State K L) (msg : TwistStamped K)
    (hinit : st.lateralLimitTwist_init = true)
    (hlv : c.MIN_LINEAR_X ≤ |msg.twist.linear.x|)
    (hdt : |msg.header.stamp - st.az_prev_.time| < c.MIN_DURATION)
    (h : |msg.twist.angular.z * msg.twist.linear.x| > st.lateral_accel_limit_ →
      msg.twist.angular.z * msg.twist.linear.x ≠ 0) :
    lateralLimitTwist c st msg = .error .emptyOptional := by
  unfold lateralLimitTwist
  simp only [stampTwist_init, hinit, not_lt.mpr hlv, decide_False, Bool.not_true, Bool.or_self,
    Bool.false_eq_true, if_false]
  rw [limitLaccTwist_ok (stampTwist st msg) _ _ h]
  simp only [ok_bind, limitLjerkTwist, ljerkTestTwist]
  rw [calcLjerkWithAngularZ_none c (stampTwist st msg) _ _ hdt]
  simp [get]

/-- A run of `lateralLimitCtrl` past the test of line 261 with `|wheel_base_| < MIN_LENGTH`
stops at the `get()` of line 268. -/
theorem lateralLimitCtrl_short_wheel_base (c : Constants K) (m : Libm K) (st : State K L)
    (msg : ControlCommandStamped K)
    (hinit : st.lateralLimitCtrl_init = true)
    (hlv : c.MIN_LINEAR_X ≤ |msg.cmd.linear_velocity|)
    (hwb : |st.wheel_base_| < c.MIN_LENGTH) :
    lateralLimitCtrl c m st msg = .error .emptyOptional := by
  unfold lateralLimitCtrl
  simp only [stampCtrl_init, hinit, not_lt.mpr hlv, decide_False, Bool.not_true, Bool.or_self,
    Bool.false_eq_true, if_false, limitLaccCtrl]
  rw [calcLaccWithSteeringAngle_none c m (stampCtrl st msg) _ _ hwb]
  simp [get]

/-- A run of `lateralLimitCtrl` past the test of line 261 with a wheelbase of at least
`MIN_LENGTH` and `|dt| < MIN_DURATION` stops at the `get()` of line 281. -/
theorem lateralLimitCtrl_short_dt (c : Constants K) (m : Libm K) (st : State K L)
    (msg : ControlCommandStamped K) (hW : 0 < c.MIN_LENGTH)
    (hinit : st.lateralLimitCtrl_init = true)
    (hlv : c.MIN_LINEAR_X ≤ |msg.cmd.linear_velocity|)
    (hwb : c.MIN_LENGTH ≤ |st.wheel_base_|)
    (hdt : |msg.header.stamp - st.sa_prev_.time| < c.MIN_DURATION)
    (h : |ctrlLacc m st msg msg.cmd.steering_angle| > st.lateral_accel_limit_ →
      ctrlLacc m st msg msg.cmd.steering_angle ≠ 0) :
    lateralLimitCtrl c m st msg = .error .emptyOptional := by
  unfold ctrlLacc at h
  unfold lateralLimitCtrl
  simp only [stampCtrl_init, hinit, not_lt.mpr hlv, decide_False, Bool.not_true, Bool.or_self,
    Bool.false_eq_true, if_false]
  rw [limitLaccCtrl_ok c m (stampCtrl st msg) _ _ hW hwb h]
  simp only [ok_bind, limitLjerkCtrl, ljerkTestCtrl]
  have hnone : ∀ sa, calcLjerkWithSteeringAngle c m (stampCtrl st msg)
      msg.cmd.linear_velocity sa = .ok none := by
    intro sa
    simp [calcLjerkWithSteeringAngle, hdt]
  rw [hnone]
  simp [get]

/-! ## Claims about the two corrections together -/

/-- C15: whenever `MIN_LINEAR_X ≤ 1` and `0 < MIN_DURATION ≤ 1/10`, there are a previous
state, positive limits and a turn-rate sample, neither first nor stopping, for which
`lateralLimitTwist` fires both corrections and returns a sample whose recomputed lateral
acceleration exceeds `lateral_accel_limit_` in magnitude: previous turn rate `10`,
`dt = 1/10`, `v = 1`, `az = 10`, both limits `5`.  The acceleration correction replaces `10`
by `5`, the jerk tested is `-50`, the turn rate returned is `9.5` and its lateral
acceleration is `9.5 > 5`. -/
theorem lateralLimitTwist_both_corrections (c : Constants ℚ) (hX : c.MIN_LINEAR_X ≤ 1)
    (hD : 0 < c.MIN_DURATION) (hD1 : c.MIN_DURATION ≤ 1 / 10) :
    ∃ (st : State ℚ Unit) (msg : TwistStamped ℚ) (r : Run ℚ Unit (TwistStamped ℚ)),
      0 < st.lateral_accel_limit_ ∧ 0 < st.lateral_jerk_limit_ ∧
      st.lateralLimitTwist_init = true ∧
      ¬ |msg.twist.linear.x| < c.MIN_LINEAR_X ∧
      |msg.twist.angular.z * msg.twist.linear.x| > st.lateral_accel_limit_ ∧
      limitLaccTwist (stampTwist st msg) msg.twist.linear.x msg.twist.angular.z false
        = .ok 5 ∧
      ljerkTestOfTwist c st msg = .ok (-50, true) ∧
      lateralLimitTwist c st msg = .ok r ∧
      r.ret.twist.angular.z = 19 / 2 ∧
      calcLaccWithAngularZ r.ret.twist.linear.x r.ret.twist.angular.z = some (19 / 2) ∧
      |(19 / 2 : ℚ)| > st.lateral_accel_limit_ := by
  have hlv : c.MIN_LINEAR_X ≤ |(sampleTwist (1 / 10) 1 10 : TwistStamped ℚ).twist.linear.x| := by
    show c.MIN_LINEAR_X ≤ |(1 : ℚ)|
    rw [abs_one]
    exact hX
  have hdt : c.MIN_DURATION ≤ |(sampleTwist (1 / 10) 1 10 : TwistStamped ℚ).header.stamp
      - (sampleState (27 / 10) 5 5 ⟨0, 0, 10⟩ ⟨0, 0, 0⟩ true : State ℚ Unit).az_prev_.time| := by
    show c.MIN_DURATION ≤ |(1 / 10 : ℚ) - 0|
    rw [sub_zero, abs_of_pos (by norm_num)]
    exact hD1
  have hacc : |(sampleTwist (1 / 10) 1 10 : TwistStamped ℚ).twist.angular.z
      * (sampleTwist (1 / 10) 1 10 : TwistStamped ℚ).twist.linear.x|
        > (sampleState (27 / 10) 5 5 ⟨0, 0, 10⟩ ⟨0, 0, 0⟩ true : State ℚ Unit).lateral_accel_limit_ →
      (sampleTwist (1 / 10) 1 10 : TwistStamped ℚ).twist.angular.z
        * (sampleTwist (1 / 10) 1 10 : TwistStamped ℚ).twist.linear.x ≠ 0 := by
    intro _
    norm_num [sampleTwist]
  have haz1 : twistAz1 (sampleState (27 / 10) 5 5 ⟨0, 0, 10⟩ ⟨0, 0, 0⟩ true : State ℚ Unit)
      (sampleTwist (1 / 10) 1 10) = 5 := by
    norm_num [twistAz1, azAfterLacc, sampleTwist, sampleState]
  have hjerk : twistLjerk (sampleState (27 / 10) 5 5 ⟨0, 0, 10⟩ ⟨0, 0, 0⟩ true : State ℚ Unit)
      (sampleTwist (1 / 10) 1 10) 5 = -50 := by
    norm_num [twistLjerk, sampleTwist, sampleState]
  have haz2 : twistAz2 (sampleState (27 / 10) 5 5 ⟨0, 0, 10⟩ ⟨0, 0, 0⟩ true : State ℚ Unit)
      (sampleTwist (1 / 10) 1 10) (-50) = 19 / 2 := by
    norm_num [twistAz2, sampleTwist, sampleState]
  have hrun := lateralLimitTwist_ljerk c
    (sampleState (27 / 10) 5 5 ⟨0, 0, 10⟩ ⟨0, 0, 0⟩ true : State ℚ Unit)
    (sampleTwist (1 / 10) 1 10) hD rfl hlv hdt hacc
    (by rw [haz1, hjerk]; norm_num [sampleState]) (by rw [haz1, hjerk]; norm_num)
  have htest := ljerkTestOfTwist_ok c
    (sampleState (27 / 10) 5 5 ⟨0, 0, 10⟩ ⟨0, 0, 0⟩ true : State ℚ Unit)
    (sampleTwist (1 / 10) 1 10) hD hlv hdt hacc
  rw [haz1, hjerk] at hrun htest
  rw [haz2] at hrun
  refine ⟨_, _, _, ?_, ?_, rfl, not_lt.mpr hlv, ?_, ?_, ?_, hrun, rfl, ?_, ?_⟩
  · norm_num [sampleState]
  · norm_num [sampleState]
  · norm_num [sampleState, sampleTwist]
  · rw [limitLaccTwist_ok (stampTwist _ _) _ _ hacc]
    exact congrArg Except.ok haz1
  · rw [htest]
    norm_num [sampleState]
  · norm_num [calcLaccWithAngularZ, TwistStamped.withAz, sampleTwist]
  · norm_num [sampleState, abs_of_pos]

/-- C16, as amended: for every sample, previous state, wheelbase and `dt`, and every
configuration with non-negative `lateral_accel_limit_` and `lateral_jerk_limit_`, every
division that `lateralLimitTwist` and `lateralLimitCtrl` execute has a divisor that is not
zero (the thresholds `MIN_DURATION` and `MIN_LENGTH` being positive): no run stops at a
quotient. -/
theorem lateralLimit_divisions_guarded (c : Constants K) (m : Libm K) (st : State K L)
    (ts : TwistStamped K) (ccs : ControlCommandStamped K)
    (hD : 0 < c.MIN_DURATION) (hW : 0 < c.MIN_LENGTH)
    (hla : 0 ≤ st.lateral_accel_limit_) (hlj : 0 ≤ st.lateral_jerk_limit_) :
    lateralLimitTwist c st ts ≠ .error .zeroDivisor ∧
    lateralLimitCtrl c m st ccs ≠ .error .zeroDivisor := by
  constructor
  · by_cases hc : (!(stampTwist st ts).lateralLimitTwist_init
        || decide (|ts.twist.linear.x| < c.MIN_LINEAR_X)) = true
    · rw [lateralLimitTwist_early c st ts hc]
      simp
    · simp only [stampTwist_init, Bool.or_eq_true, Bool.not_eq_true', decide_eq_true_eq,
        not_or, Bool.not_eq_false, not_lt] at hc
      obtain ⟨hinit, hlv⟩ := hc
      have h : |ts.twist.angular.z * ts.twist.linear.x| > st.lateral_accel_limit_ →
          ts.twist.angular.z * ts.twist.linear.x ≠ 0 := ne_zero_of_lt_abs hla
      by_cases hdt : |ts.header.stamp - st.az_prev_.time| < c.MIN_DURATION
      · rw [lateralLimitTwist_short_dt c st ts hinit hlv hdt h]
        simp
      · by_cases hj : |twistLjerk st ts (twistAz1 st ts)| > st.lateral_jerk_limit_
        · rw [lateralLimitTwist_ljerk c st ts hD hinit hlv (not_lt.mp hdt) h hj
            (ne_zero_of_lt_abs hlj hj)]
          simp
        · rw [lateralLimitTwist_lacc_only c st ts hD hinit hlv (not_lt.mp hdt) h hj]
          simp
  · by_cases hc : (!(stampCtrl st ccs).lateralLimitCtrl_init
        || decide (|ccs.cmd.linear_velocity| < c.MIN_LINEAR_X)) = true
    · rw [lateralLimitCtrl_early c m st ccs hc]
      simp
    · simp only [stampCtrl_init, Bool.or_eq_true, Bool.not_eq_true', decide_eq_true_eq,
        not_or, Bool.not_eq_false, not_lt] at hc
      obtain ⟨hinit, hlv⟩ := hc
      have h : |ctrlLacc m st ccs ccs.cmd.steering_angle| > st.lateral_accel_limit_ →
          ctrlLacc m st ccs ccs.cmd.steering_angle ≠ 0 := ne_zero_of_lt_abs hla
      by_cases hwb : |st.wheel_base_| < c.MIN_LENGTH
      · rw [lateralLimitCtrl_short_wheel_base c m st ccs hinit hlv hwb]
        simp
      · by_cases hdt : |ccs.header.stamp - st.sa_prev_.time| < c.MIN_DURATION
        · rw [lateralLimitCtrl_short_dt c m st ccs hW hinit hlv (not_lt.mp hwb) hdt h]
          simp
        · by_cases hj : |ctrlLjerk m st ccs (ctrlSa1 m st ccs)| > st.lateral_jerk_limit_
          · rw [lateralLimitCtrl_ljerk c m st ccs hD hW hinit hlv (not_lt.mp hwb)
              (not_lt.mp hdt) h hj (ne_zero_of_lt_abs hlj hj)]
            simp
          · rw [lateralLimitCtrl_lacc_only c m st ccs hD hW hinit hlv (not_lt.mp hwb)
              (not_lt.mp hdt) h hj]
            simp


/-! ## The jerk of the published turn-rate sample -/

/-- On a sample that is neither the first nor stopping, with `|dt| ≥ MIN_DURATION`, a
non-negative jerk limit and no sign quotient on a zero acceleration, `lateralLimitTwist`
returns a sample whose lateral jerk is within the limit. -/
theorem lateralLimitTwist_within (c : Constants K) (st : State K L) (msg : TwistStamped K)
    (hD : 0 < c.MIN_DURATION)
    (hinit : st.lateralLimitTwist_init = true)
    (hlv : c.MIN_LINEAR_X ≤ |msg.twist.linear.x|)
    (hdt : c.MIN_DURATION ≤ |msg.header.stamp - st.az_prev_.time|)
    (hlj : 0 ≤ st.lateral_jerk_limit_)
    (hla : 0 ≤ st.lateral_accel_limit_ ∨ msg.twist.angular.z * msg.twist.linear.x ≠ 0) :
    ∃ az2, lateralLimitTwist c st msg = .ok
        ⟨stampTwist st msg, msg.withAz az2,
          [(.twist_lacc_limit_debug_pub_, az2 * msg.twist.linear.x),
           (.twist_ljerk_limit_debug_pub_, twistLjerk st msg az2)]⟩ ∧
      |twistLjerk st msg az2| ≤ st.lateral_jerk_limit_ := by
  have h : |msg.twist.angular.z * msg.twist.linear.x| > st.lateral_accel_limit_ →
      msg.twist.angular.z * msg.twist.linear.x ≠ 0 := by
    intro hgt
    rcases hla with hla | hla
    · exact ne_zero_of_lt_abs hla hgt
    · exact hla
  by_cases hj : |twistLjerk st msg (twistAz1 st msg)| > st.lateral_jerk_limit_
  · have hne : twistLjerk st msg (twistAz1 st msg) ≠ 0 := ne_zero_of_lt_abs hlj hj
    have hlv0 : msg.twist.linear.x ≠ 0 := by
      intro h0
      apply hne
      simp [twistLjerk, h0]
    have hval : twistLjerk st msg (twistAz2 st msg (twistLjerk st msg (twistAz1 st msg)))
        = sgn (twistLjerk st msg (twistAz1 st msg)) * st.lateral_jerk_limit_ :=
      ljerk_of_corrected hlv0 (ne_zero_of_le_abs hD hdt) hne
    refine ⟨_, lateralLimitTwist_ljerk c st msg hD hinit hlv hdt h hj hne, ?_⟩
    rw [hval, abs_mul, abs_sgn_of_ne hne, one_mul, abs_of_nonneg hlj]
  · exact ⟨_, lateralLimitTwist_lacc_only c st msg hD hinit hlv hdt h hj, not_lt.mp hj⟩

theorem publishLateralResultsWithTwist_ok (c : Constants K) (st : State K L)
    (msg : TwistStamped K) (hD : 0 < c.MIN_DURATION)
    (hdt : c.MIN_DURATION ≤ |st.az_prev_.dt|) :
    publishLateralResultsWithTwist c st msg = .ok
      [(.twist_lacc_result_pub_, msg.twist.angular.z * msg.twist.linear.x),
       (.twist_ljerk_result_pub_,
          (msg.twist.angular.z - st.az_prev_.val) * msg.twist.linear.x / st.az_prev_.dt)] := by
  simp [publishLateralResultsWithTwist, calcLjerkWithAngularZ_ok c st _ _ hD hdt,
    calcLaccWithAngularZ, get]

theorem smoothTwist_linear_x_of_gain_zero (st : State K L) (msg : TwistStamped K)
    (h : st.lowpass_gain_linear_x_ = 0) :
    (smoothTwist st msg).ret.twist.linear.x = msg.twist.linear.x := by
  simp [smoothTwist, Lowpass.call, h]

/-- The difference between the smoothed turn rate and the stored output of the filter is the
fraction `1 - gain` of the difference before smoothing. -/
theorem smoothed_sub (y x g : K) : g * y + (1 - g) * x - y = (1 - g) * (x - y) := by
  ring

/-- C17, as amended: in a state reached by a sequence of completed callbacks that contains a
turn-rate sample, with `lowpass_gain_linear_x_ = 0`, `0 ≤ lowpass_gain_angular_z_ ≤ 1`,
`lateral_jerk_limit_ ≥ 0`, and `lateral_accel_limit_ ≥ 0` or a lateral acceleration that is
not zero, for every turn-rate sample that reaches the lateral limiter not stopping and with
`|dt| ≥ MIN_DURATION`, `TwistCmdCallback` completes, and the lateral jerk of the published
(smoothed) sample against `az_prev_`, published by `publishLateralResultsWithTwist`, is
`1 - lowpass_gain_angular_z_` times the jerk that the lateral limiter published after its
corrections; hence its magnitude is at most `lateral_jerk_limit_`. -/
theorem smoothing_keeps_ljerk_within_limit (c : Constants K) (m : Libm K)
    (lim : LongitudinalAccelLimiter K L) (DBL_MAX : K)
    (st0 : State K L) (evs : List (Event K)) (st : State K L)
    (hrun : runEvents c m lim DBL_MAX st0 evs = .ok st)
    (hfirst : ∃ msg0, Event.twist msg0 ∈ evs)
    (msg : TwistStamped K)
    (hD : 0 < c.MIN_DURATION)
    (hgx : st.lowpass_gain_linear_x_ = 0)
    (hg0 : 0 ≤ st.lowpass_gain_angular_z_) (hg1 : st.lowpass_gain_angular_z_ ≤ 1)
    (hlj : 0 ≤ st.lateral_jerk_limit_)
    (hlv : c.MIN_LINEAR_X ≤ |(preLateralTwist c lim st msg).1.twist.linear.x|)
    (hdt : c.MIN_DURATION
      ≤ |(preLateralTwist c lim st msg).1.header.stamp - st.az_prev_.time|)
    (hla : 0 ≤ st.lateral_accel_limit_ ∨
      (preLateralTwist c lim st msg).1.twist.angular.z
        * (preLateralTwist c lim st msg).1.twist.linear.x ≠ 0) :
    ∃ r ad jd ar jr, TwistCmdCallback c lim DBL_MAX st msg = .ok r ∧
      r.published = [(.twist_lacc_limit_debug_pub_, ad), (.twist_ljerk_limit_debug_pub_, jd),
        (.twist_lacc_result_pub_, ar), (.twist_ljerk_result_pub_, jr)] ∧
      jr = (r.cmd.twist.angular.z - st.az_prev_.val) * r.cmd.twist.linear.x
        / ((preLateralTwist c lim st msg).1.header.stamp - st.az_prev_.time) ∧
      jr = (1 - st.lowpass_gain_angular_z_) * jd ∧
      |jd| ≤ st.lateral_jerk_limit_ ∧
      |jr| ≤ st.lateral_jerk_limit_ := by
  obtain ⟨hinv, hinit⟩ := runEvents_keeps_az c m lim DBL_MAX evs st0 st hrun (Or.inr hfirst)
  obtain ⟨az2, hl, hbound⟩ := lateralLimitTwist_within c
    { st with _lon_accel_limiter := (preLateralTwist c lim st msg).2 }
    (preLateralTwist c lim st msg).1 hD hinit hlv hdt hlj hla
  obtain ⟨ds, hds⟩ := checkTwist_total c hD DBL_MAX st msg
  have hg : |1 - st.lowpass_gain_angular_z_| ≤ 1 := by
    rw [abs_le]
    constructor <;> linarith
  have hscale : (st.lowpass_gain_angular_z_ * st.smoothTwist_lp_az.y
        + (1 - st.lowpass_gain_angular_z_) * az2 - st.az_prev_.val)
        * (preLateralTwist c lim st msg).1.twist.linear.x
        / ((preLateralTwist c lim st msg).1.header.stamp - st.az_prev_.time)
      = (1 - st.lowpass_gain_angular_z_)
        * ((az2 - st.az_prev_.val) * (preLateralTwist c lim st msg).1.twist.linear.x
          / ((preLateralTwist c lim st msg).1.header.stamp - st.az_prev_.time)) := by
    rw [← hinv, smoothed_sub]
    ring
  have hbound2 : |(az2 - st.az_prev_.val) * (preLateralTwist c lim st msg).1.twist.linear.x
      / ((preLateralTwist c lim st msg).1.header.stamp - st.az_prev_.time)|
      ≤ st.lateral_jerk_limit_ := hbound
  have hcb : TwistCmdCallback c lim DBL_MAX st msg = .ok
      ⟨updatePrevTwist
        (smoothTwist (stampTwist
          { st with _lon_accel_limiter := (preLateralTwist c lim st msg).2 }
          (preLateralTwist c lim st msg).1)
          ((preLateralTwist c lim st msg).1.withAz az2)).state
        (smoothTwist (stampTwist
          { st with _lon_accel_limiter := (preLateralTwist c lim st msg).2 }
          (preLateralTwist c lim st msg).1)
          ((preLateralTwist c lim st msg).1.withAz az2)).ret,
       (smoothTwist (stampTwist
          { st with _lon_accel_limiter := (preLateralTwist c lim st msg).2 }
          (preLateralTwist c lim st msg).1)
          ((preLateralTwist c lim st msg).1.withAz az2)).ret,
       [(.twist_lacc_limit_debug_pub_, az2 * (preLateralTwist c lim st msg).1.twist.linear.x),
        (.twist_ljerk_limit_debug_pub_,
          (az2 - st.az_prev_.val) * (preLateralTwist c lim st msg).1.twist.linear.x
            / ((preLateralTwist c lim st msg).1.header.stamp - st.az_prev_.time)),
        (.twist_lacc_result_pub_,
          (st.lowpass_gain_angular_z_ * st.smoothTwist_lp_az.y
              + (1 - st.lowpass_gain_angular_z_) * az2)
            * (preLateralTwist c lim st msg).1.twist.linear.x),
        (.twist_ljerk_result_pub_,
          (st.lowpass_gain_angular_z_ * st.smoothTwist_lp_az.y
              + (1 - st.lowpass_gain_angular_z_) * az2 - st.az_prev_.val)
            * (preLateralTwist c lim st msg).1.twist.linear.x
            / ((preLateralTwist c lim st msg).1.header.stamp - st.az_prev_.time))],
       ds⟩ := by
    have hlvS := smoothTwist_linear_x_of_gain_zero
      (stampTwist { st with _lon_accel_limiter := (preLateralTwist c lim st msg).2 }
        (preLateralTwist c lim st msg).1)
      ((preLateralTwist c lim st msg).1.withAz az2) hgx
    simp only [TwistCmdCallback, hds, ok_bind, hl]
    rw [publishLateralResultsWithTwist_ok c _ _ hD hdt, hlvS]
    rfl
  have hlvS := smoothTwist_linear_x_of_gain_zero
    (stampTwist { st with _lon_accel_limiter := (preLateralTwist c lim st msg).2 }
      (preLateralTwist c lim st msg).1)
    ((preLateralTwist c lim st msg).1.withAz az2) hgx
  refine ⟨_, _, _, _, _, hcb, rfl, ?_, hscale, hbound2, ?_⟩
  · show _ = (_ - st.az_prev_.val) * (smoothTwist _ _).ret.twist.linear.x / _
    rw [hlvS]
    rfl
  · rw [hscale, abs_mul]
    calc |1 - st.lowpass_gain_angular_z_| * _ ≤ 1 * st.lateral_jerk_limit_ :=
          mul_le_mul hg hbound2 (abs_nonneg _) zero_le_one
      _ = st.lateral_jerk_limit_ := one_mul _


/-! ## The callbacks at sample inputs -/

/-- A first turn-rate sample is processed to completion (sample constants, sample
limiter). -/
theorem TwistCmdCallback_first_sample (st : State ℝ Unit) (msg : TwistStamped ℝ)
    (hinit : st.lateralLimitTwist_init = false) :
    ∃ r, TwistCmdCallback (sampleConstants : Constants ℝ) sampleLimiter (2 ^ 1024) st msg
      = .ok r :=
  TwistCmdCallback_total sampleConstants sampleLimiter (2 ^ 1024)
    (by norm_num [sampleConstants]) st msg _
    (lateralLimitTwist_early sampleConstants _ _ (by simp [stampTwist, hinit]))

/-- A first steering sample is processed to completion (sample constants, sample limiter). -/
theorem CtrlCmdCallback_first_sample (st : State ℝ Unit) (msg : ControlCommandStamped ℝ)
    (hinit : st.lateralLimitCtrl_init = false) :
    ∃ r, CtrlCmdCallback (sampleConstants : Constants ℝ) ⟨Real.tan, Real.arctan⟩ sampleLimiter
      (2 ^ 1024) st msg = .ok r :=
  CtrlCmdCallback_total sampleConstants ⟨Real.tan, Real.arctan⟩ sampleLimiter (2 ^ 1024)
    (by norm_num [sampleConstants]) (by norm_num [sampleConstants]) st msg _
    (lateralLimitCtrl_early sampleConstants _ _ _ (by simp [stampCtrl, hinit]))

/-- C14 at a first turn-rate sample and a first steering sample. -/
theorem callbacks_update_prev_witness :
    (∃ r, TwistCmdCallback (sampleConstants : Constants ℝ) sampleLimiter (2 ^ 1024)
        (sampleState (27 / 10) 5 5 ⟨0, 0, 0⟩ ⟨0, 0, 0⟩ false) (sampleTwist 1 10 1) = .ok r ∧
      r.state.az_prev_.val = r.cmd.twist.angular.z ∧
      r.state.az_prev_.time = r.cmd.header.stamp ∧
      r.state.sa_prev_ = ⟨0, 0, 0⟩) ∧
    (∃ r, CtrlCmdCallback (sampleConstants : Constants ℝ) ⟨Real.tan, Real.arctan⟩ sampleLimiter
        (2 ^ 1024) (sampleState (27 / 10) 5 5 ⟨0, 0, 0⟩ ⟨0, 0, 0⟩ false) (sampleCtrl 1 5 0)
        = .ok r ∧
      r.state.sa_prev_.val = r.cmd.cmd.steering_angle ∧
      r.state.sa_prev_.time = r.cmd.header.stamp ∧
      r.state.az_prev_ = ⟨0, 0, 0⟩) := by
  obtain ⟨r1, h1⟩ := TwistCmdCallback_first_sample
    (sampleState (27 / 10) 5 5 ⟨0, 0, 0⟩ ⟨0, 0, 0⟩ false) (sampleTwist 1 10 1) rfl
  obtain ⟨r2, h2⟩ := CtrlCmdCallback_first_sample
    (sampleState (27 / 10) 5 5 ⟨0, 0, 0⟩ ⟨0, 0, 0⟩ false) (sampleCtrl 1 5 0) rfl
  have h := callbacks_update_prev (sampleConstants : Constants ℝ) ⟨Real.tan, Real.arctan⟩
    sampleLimiter (2 ^ 1024) (sampleState (27 / 10) 5 5 ⟨0, 0, 0⟩ ⟨0, 0, 0⟩ false)
    (sampleTwist 1 10 1) (sampleCtrl 1 5 0)
  exact ⟨⟨r1, h1, h.1 r1 h1⟩, ⟨r2, h2, h.2.1 r2 h2⟩⟩

/-- C18 at a first turn-rate sample, a first steering sample, and the sequence of a
configuration update followed by both samples. -/
theorem prev_is_smoothed_output_witness :
    (∃ r, TwistCmdCallback (sampleConstants : Constants ℝ) sampleLimiter (2 ^ 1024)
        (sampleState (27 / 10) 5 5 ⟨0, 0, 0⟩ ⟨0, 0, 0⟩ false) (sampleTwist 1 10 1) = .ok r ∧
      r.state.az_prev_.val = r.state.smoothTwist_lp_az.y) ∧
    (∃ r, CtrlCmdCallback (sampleConstants : Constants ℝ) ⟨Real.tan, Real.arctan⟩ sampleLimiter
        (2 ^ 1024) (sampleState (27 / 10) 5 5 ⟨0, 0, 0⟩ ⟨0, 0, 0⟩ false) (sampleCtrl 1 5 0)
        = .ok r ∧
      r.state.sa_prev_.val = r.state.smoothCtrl_lp_sa.y) ∧
    (∃ st1, runEvents (sampleConstants : Constants ℝ) ⟨Real.tan, Real.arctan⟩ sampleLimiter
        (2 ^ 1024) (sampleState (27 / 10) 5 5 ⟨0, 0, 0⟩ ⟨0, 0, 0⟩ false)
        [.config ⟨5, 5, 0, 1 / 2, 1 / 2⟩, .twist (sampleTwist 1 10 1), .ctrl (sampleCtrl 1 5 0)]
        = .ok st1 ∧
      st1.az_prev_.val = st1.smoothTwist_lp_az.y ∧
      st1.sa_prev_.val = st1.smoothCtrl_lp_sa.y) := by
  have h := prev_is_smoothed_output (sampleConstants : Constants ℝ) ⟨Real.tan, Real.arctan⟩
    (sampleLimiter : LongitudinalAccelLimiter ℝ Unit) (2 ^ 1024)
  obtain ⟨r1, h1⟩ := TwistCmdCallback_first_sample
    (sampleState (27 / 10) 5 5 ⟨0, 0, 0⟩ ⟨0, 0, 0⟩ false) (sampleTwist 1 10 1) rfl
  obtain ⟨r2, h2⟩ := CtrlCmdCallback_first_sample
    (sampleState (27 / 10) 5 5 ⟨0, 0, 0⟩ ⟨0, 0, 0⟩ false) (sampleCtrl 1 5 0) rfl
  obtain ⟨r3, h3⟩ := TwistCmdCallback_first_sample
    (configCallback (sampleState (27 / 10) 5 5 ⟨0, 0, 0⟩ ⟨0, 0, 0⟩ false)
      ⟨5, 5, 0, 1 / 2, 1 / 2⟩) (sampleTwist 1 10 1) rfl
  obtain ⟨r4, h4⟩ := CtrlCmdCallback_first_sample r3.state (sampleCtrl 1 5 0)
    (by rw [(TwistCmdCallback_frame _ _ _ _ _ _ h3).2.2.2.2.2.2]; rfl)
  have hrun : runEvents (sampleConstants : Constants ℝ) ⟨Real.tan, Real.arctan⟩ sampleLimiter
      (2 ^ 1024) (sampleState (27 / 10) 5 5 ⟨0, 0, 0⟩ ⟨0, 0, 0⟩ false)
      [.config ⟨5, 5, 0, 1 / 2, 1 / 2⟩, .twist (sampleTwist 1 10 1), .ctrl (sampleCtrl 1 5 0)]
      = .ok r4.state := by
    simp only [runEvents, step, pure_eq_ok, ok_bind, h3, h4]
  have hseq := h.2.2 _ _ _ hrun
  exact ⟨⟨r1, h1, h.1 _ _ r1 h1⟩, ⟨r2, h2, h.2.1 _ _ r2 h2⟩,
    ⟨r4.state, hrun, hseq.1 ⟨sampleTwist 1 10 1, by simp⟩,
      hseq.2 ⟨sampleCtrl 1 5 0, by simp⟩⟩⟩

/-- C15 for the sample constants. -/
theorem lateralLimitTwist_both_corrections_witness :
    ∃ (st : State ℚ Unit) (msg : TwistStamped ℚ) (r : Run ℚ Unit (TwistStamped ℚ)),
      0 < st.lateral_accel_limit_ ∧ 0 < st.lateral_jerk_limit_ ∧
      st.lateralLimitTwist_init = true ∧
      ¬ |msg.twist.linear.x| < (sampleConstants : Constants ℚ).MIN_LINEAR_X ∧
      |msg.twist.angular.z * msg.twist.linear.x| > st.lateral_accel_limit_ ∧
      limitLaccTwist (stampTwist st msg) msg.twist.linear.x msg.twist.angular.z false
        = .ok 5 ∧
      ljerkTestOfTwist (sampleConstants : Constants ℚ) st msg = .ok (-50, true) ∧
      lateralLimitTwist (sampleConstants : Constants ℚ) st msg = .ok r ∧
      r.ret.twist.angular.z = 19 / 2 ∧
      calcLaccWithAngularZ r.ret.twist.linear.x r.ret.twist.angular.z = some (19 / 2) ∧
      |(19 / 2 : ℚ)| > st.lateral_accel_limit_ :=
  lateralLimitTwist_both_corrections sampleConstants (by norm_num [sampleConstants])
    (by norm_num [sampleConstants]) (by norm_num [sampleConstants])

/-- C16 as stated fails for negative limits.  With `lateral_jerk_limit_ = -1` a turn-rate
sample with `v = 1` and `az = 0`, one second after a previous turn rate `0`, has the lateral
jerk `0`; the jerk correction fires and `lateralLimitTwist` evaluates the sign quotient
`ljerk / |ljerk|` with divisor zero (line 205).  With `lateral_accel_limit_ = -2` a steering
sample with `v = 3` and `sa = 0` has the lateral acceleration `0`, and `lateralLimitCtrl`
evaluates `lacc / |lacc|` with divisor zero (line 272). -/
theorem lateralLimit_divisions_guarded_fails :
    (ljerkTestOfTwist (sampleConstants : Constants ℚ)
        (sampleState (27 / 10) 5 (-1) ⟨0, 0, 0⟩ ⟨0, 0, 0⟩ true) (sampleTwist 1 1 0)
        = .ok (0, true) ∧
      divide (0 : ℚ) |0| = .error .zeroDivisor ∧
      lateralLimitTwist (sampleConstants : Constants ℚ)
        (sampleState (27 / 10) 5 (-1) ⟨0, 0, 0⟩ ⟨0, 0, 0⟩ true) (sampleTwist 1 1 0)
        = .error .zeroDivisor) ∧
    (calcLaccWithSteeringAngle (sampleConstants : Constants ℝ) ⟨Real.tan, Real.arctan⟩
        (sampleState (27 / 10) (-2) 5 ⟨0, 0, 0⟩ ⟨0, 0, 0⟩ true : State ℝ Unit) 3 0
        = .ok (some 0) ∧
      lateralLimitCtrl (sampleConstants : Constants ℝ) ⟨Real.tan, Real.arctan⟩
        (sampleState (27 / 10) (-2) 5 ⟨0, 0, 0⟩ ⟨0, 0, 0⟩ true) (sampleCtrl 1 3 0)
        = .error .zeroDivisor) := by
  refine ⟨⟨?_, ?_, ?_⟩, ⟨?_, ?_⟩⟩
  · simp [ljerkTestOfTwist, limitLaccTwist, ljerkTestTwist, calcLaccWithAngularZ,
      calcLjerkWithAngularZ, get, divide, stampTwist, sampleConstants, sampleState, sampleTwist]
    norm_num
  · simp [divide]
  · simp [lateralLimitTwist, limitLaccTwist, limitLjerkTwist, ljerkTestTwist,
      calcLaccWithAngularZ, calcLjerkWithAngularZ, get, divide, stampTwist, sampleConstants,
      sampleState, sampleTwist]
    norm_num
  · simp [calcLaccWithSteeringAngle, divide, sampleConstants, sampleState, Real.tan_zero]
    norm_num [abs_of_pos]
  · simp [lateralLimitCtrl, limitLaccCtrl, limitLjerkCtrl, ljerkTestCtrl,
      calcLaccWithSteeringAngle, calcLjerkWithSteeringAngle, get, divide, stampCtrl,
      sampleConstants, sampleState, sampleCtrl, Real.tan_zero]
    norm_num [abs_of_pos]

/-- C16 as amended, at a state with both limits `5` and samples with zero turn rate and zero
steering angle. -/
theorem lateralLimit_divisions_guarded_witness :
    lateralLimitTwist (sampleConstants : Constants ℝ)
      (sampleState (27 / 10) 5 5 ⟨0, 0, 0⟩ ⟨0, 0, 0⟩ true : State ℝ Unit) (sampleTwist 1 1 0)
      ≠ .error .zeroDivisor ∧
    lateralLimitCtrl (sampleConstants : Constants ℝ) ⟨Real.tan, Real.arctan⟩
      (sampleState (27 / 10) 5 5 ⟨0, 0, 0⟩ ⟨0, 0, 0⟩ true : State ℝ Unit) (sampleCtrl 1 3 0)
      ≠ .error .zeroDivisor :=
  lateralLimit_divisions_guarded sampleConstants ⟨Real.tan, Real.arctan⟩ _ _ _
    (by norm_num [sampleConstants]) (by norm_num [sampleConstants])
    (by norm_num [sampleState]) (by norm_num [sampleState])


/-- C17 as stated fails with a negative `lateral_accel_limit_`.  A first turn-rate sample
(`v = 1`, `az = 0`, time `0`) is processed with all gains `0`, `lateral_jerk_limit_ = 5` and
`lateral_accel_limit_ = -1`; the next sample (`v = 1`, `az = 0`, time `1`) is not stopping and
has `dt = 1`, its lateral acceleration `0` exceeds the limit in magnitude, the sign quotient
of line 193 has divisor zero, and `TwistCmdCallback` publishes no sample with a lateral jerk
within the limit. -/
theorem smoothing_keeps_ljerk_within_limit_fails :
    runEvents (sampleConstants : Constants ℝ) ⟨Real.tan, Real.arctan⟩ sampleLimiter (2 ^ 1024)
        (sampleState (27 / 10) (-1) 5 ⟨0, 0, 0⟩ ⟨0, 0, 0⟩ false) [.twist (sampleTwist 0 1 0)]
      = .ok { sampleState (27 / 10) (-1) 5 ⟨0, 0, 0⟩ ⟨0, 0, 0⟩ false with
          lateralLimitTwist_init := true, smoothTwist_lp_lx := ⟨1⟩ } ∧
    TwistCmdCallback (sampleConstants : Constants ℝ) sampleLimiter (2 ^ 1024)
        { sampleState (27 / 10) (-1) 5 ⟨0, 0, 0⟩ ⟨0, 0, 0⟩ false with
          lateralLimitTwist_init := true, smoothTwist_lp_lx := ⟨1⟩ } (sampleTwist 1 1 0)
      = .error .zeroDivisor := by
  constructor
  · simp [runEvents, step, TwistCmdCallback, checkTwist, preLateralTwist, sampleLimiter,
      longitudinalLimitTwist, longitudinalLimit, lateralLimitTwist, stampTwist,
      calcLaccWithAngularZ, calcLjerkWithAngularZ, get, smoothTwist, Lowpass.call,
      lowpass_filter, publishLateralResultsWithTwist, updatePrevTwist, sampleConstants,
      sampleState, sampleTwist]
  · simp [TwistCmdCallback, checkTwist, preLateralTwist, sampleLimiter,
      longitudinalLimitTwist, longitudinalLimit, lateralLimitTwist, stampTwist,
      limitLaccTwist, limitLjerkTwist, ljerkTestTwist, divide,
      calcLaccWithAngularZ, calcLjerkWithAngularZ, get, smoothTwist, Lowpass.call,
      lowpass_filter, publishLateralResultsWithTwist, updatePrevTwist, sampleConstants,
      sampleState, sampleTwist]
    norm_num

/-- The state after a configuration update that sets the gain of the turn rate to `1/2` and
a first turn-rate sample with `v = 1` and `az = 8` at time `0`: the previous turn rate and
the value stored by the filter of the turn rate are `4`. -/
theorem runEvents_sample :
    runEvents (sampleConstants : Constants ℝ) ⟨Real.tan, Real.arctan⟩ sampleLimiter (2 ^ 1024)
        (sampleState (27 / 10) 5 5 ⟨0, 0, 0⟩ ⟨0, 0, 0⟩ false)
        [.config ⟨5, 5, 0, 1 / 2, 0⟩, .twist (sampleTwist 0 1 8)]
      = .ok { sampleState (27 / 10) 5 5 ⟨0, 0, 4⟩ ⟨0, 0, 0⟩ false with
          lowpass_gain_angular_z_ := 1 / 2, lateralLimitTwist_init := true,
          smoothTwist_lp_lx := ⟨1⟩, smoothTwist_lp_az := ⟨4⟩ } := by
  simp [runEvents, step, configCallback, TwistCmdCallback, checkTwist, preLateralTwist,
    sampleLimiter, longitudinalLimitTwist, longitudinalLimit, lateralLimitTwist, stampTwist,
    calcLaccWithAngularZ, calcLjerkWithAngularZ, get, smoothTwist, Lowpass.call,
    lowpass_filter, publishLateralResultsWithTwist, updatePrevTwist, sampleConstants,
    sampleState, sampleTwist]
  norm_num

/-- C17 as amended, at the second sample (`v = 1`, `az = 4.4`, time `1/10`) of a filter whose
gain of the turn rate is `1/2`, after a first sample that left the previous turn rate `4`:
the jerk published by the lateral limiter and the jerk of the published sample are in the
ratio `1 - 1/2`, and both are within the limit `5`. -/
theorem smoothing_keeps_ljerk_within_limit_witness :
    ∃ r ad jd ar jr, TwistCmdCallback (sampleConstants : Constants ℝ) sampleLimiter (2 ^ 1024)
        { sampleState (27 / 10) 5 5 ⟨0, 0, 4⟩ ⟨0, 0, 0⟩ false with
          lowpass_gain_angular_z_ := 1 / 2, lateralLimitTwist_init := true,
          smoothTwist_lp_lx := ⟨1⟩, smoothTwist_lp_az := ⟨4⟩ }
        (sampleTwist (1 / 10) 1 (22 / 5)) = .ok r ∧
      r.published = [(.twist_lacc_limit_debug_pub_, ad), (.twist_ljerk_limit_debug_pub_, jd),
        (.twist_lacc_result_pub_, ar), (.twist_ljerk_result_pub_, jr)] ∧
      jr = (1 - 1 / 2) * jd ∧ |jd| ≤ 5 ∧ |jr| ≤ 5 := by
  have hpre : preLateralTwist (sampleConstants : Constants ℝ) sampleLimiter
      ({ sampleState (27 / 10) 5 5 ⟨0, 0, 4⟩ ⟨0, 0, 0⟩ false with
          lowpass_gain_angular_z_ := 1 / 2, lateralLimitTwist_init := true,
          smoothTwist_lp_lx := ⟨1⟩, smoothTwist_lp_az := ⟨4⟩ } : State ℝ Unit)
      (sampleTwist (1 / 10) 1 (22 / 5)) = (sampleTwist (1 / 10) 1 (22 / 5), ()) := by
    simp [preLateralTwist, sampleLimiter, longitudinalLimitTwist, longitudinalLimit,
      sampleConstants, sampleState, sampleTwist]
  obtain ⟨r, ad, jd, ar, jr, hr, hpub, -, hratio, hjd, hjr⟩ :=
    smoothing_keeps_ljerk_within_limit (sampleConstants : Constants ℝ)
      ⟨Real.tan, Real.arctan⟩ sampleLimiter (2 ^ 1024)
      (sampleState (27 / 10) 5 5 ⟨0, 0, 0⟩ ⟨0, 0, 0⟩ false)
      [.config ⟨5, 5, 0, 1 / 2, 0⟩, .twist (sampleTwist 0 1 8)] _ runEvents_sample
      ⟨sampleTwist 0 1 8, by simp⟩ (sampleTwist (1 / 10) 1 (22 / 5))
      (by norm_num [sampleConstants]) rfl
      (by norm_num [sampleState]) (by norm_num [sampleState]) (by norm_num [sampleState])
      (by rw [hpre]; norm_num [sampleConstants, sampleTwist])
      (by rw [hpre]; norm_num [sampleConstants, sampleTwist, sampleState, abs_of_pos])
      (Or.inl (by norm_num [sampleState]))
  exact ⟨r, ad, jd, ar, jr, hr, hpub, hratio, hjd, hjr⟩


end twist_filter
